import Mathlib

/-!
# Helio Workstation: the audio core

A shallow embedding of `Source/Core/Audio/AudioCore.cpp`: the instrument
registry ("orchestra"), its attachment to the device callback chain, the
lookup by identifier, the device setup and the top-level document codec.

A definition whose comment says "Embeds" follows a member of `AudioCore`
statement by statement. The JUCE library is not part of the sources: the
library functions that the engine calls on strings, arrays, value trees and
big integers are written out under the comment "Models", whatever depends on
the machine is a field of `Juce`, and the registration of callbacks with the
device manager follows the spec's description of the hardware abstraction.
`Instrument` and the identifiers of `SerializationKeys` are parameters, and the
observer broadcasts of `OrchestraPit` are recorded as events.

Objects are identified by their address (`Nat`).  Every effect that an
observer, the device or the heap can see is appended to a trace together
with the engine as it stands at that moment, so that statements about the
order of effects are statements about this trace.
-/

namespace Helio

/-! ## Strings -/

/-- The loop behind `juce::String::contains`: true when `sub` starts at some
position of `text`; as in JUCE the empty string is contained in every string. -/
def containsChars : List Char → List Char → Bool
  | [], sub => sub.isPrefixOf []
  | c :: text, sub => sub.isPrefixOf (c :: text) || containsChars text sub

/-- Models `juce::String::contains (StringRef)`. -/
def contains (text sub : String) : Bool :=
  containsChars text.data sub.data

/-- Models `juce::String::equalsIgnoreCase`, for the letters of ASCII. -/
def equalsIgnoreCase (a b : String) : Bool :=
  a.data.map Char.toLower == b.data.map Char.toLower

/-! ## Lists -/

/-- The loop of `juce::Array::removeFirstMatchingValue`: the list without its
first entry equal to `x`; the list itself when it has no such entry. -/
def removeFirstMatchingValue {α : Type} [DecidableEq α] (x : α) : List α → List α
  | [] => []
  | y :: rest => if y = x then rest else y :: removeFirstMatchingValue x rest

/-- The list `l` after one `removeFirstMatchingValue` for each entry of `r`,
in the order of `r`. -/
def withoutEach {α : Type} [DecidableEq α] (l r : List α) : List α :=
  r.foldl (fun acc x => removeFirstMatchingValue x acc) l

/-- How many entries of the list equal `x`. -/
def occurrences {α : Type} [DecidableEq α] (x : α) (l : List α) : Nat :=
  l.countP (fun y => y = x)

/-! ## Instruments -/

/-- Modelled from the spec: the attributes of an `Instrument` (Instrument.h), the
part of the object that lives behind its address: display name, stable
identifier, secondary content hash, and the processor graph as an
uninterpreted payload. -/
structure InstrumentBody where
  name : String
  instrumentID : String
  instrumentHash : String
  processor : String
deriving DecidableEq, Repr

/-- An `Instrument *` together with the object it points to. The address also
identifies the instrument's processor player and the MIDI collector of that
player, which are members of the object. -/
structure Instrument where
  ptr : Nat
  body : InstrumentBody
deriving DecidableEq, Repr

/-- Modelled from the spec: `Instrument::getInstrumentID` (Instrument.h), the
"stable identifier" of the instrument. -/
def Instrument.getInstrumentID (i : Instrument) : String := i.body.instrumentID

/-- Modelled from the spec: `Instrument::getInstrumentHash` (Instrument.h), the
"secondary content hash" of the instrument. -/
def Instrument.getInstrumentHash (i : Instrument) : String := i.body.instrumentHash

/-- A `juce::PluginDescription`, passed through to the instrument untouched. -/
structure PluginDescription where
  name : String
  pluginFormatName : String
  fileOrIdentifier : String
deriving DecidableEq, Repr

/-! ## Value trees -/

/-- A `juce::var` as far as the documents of this file use it. -/
inductive Var where
  | void
  | int (v : Int)
  | double (v : Rat)
  | string (v : String)
deriving DecidableEq, Repr

/-- The shared object behind a valid `juce::ValueTree`: a type name, named
properties in insertion order, and child objects in order. -/
inductive SharedObject where
  | mk (type : String) (properties : List (String × Var)) (children : List SharedObject)

/-- A `juce::ValueTree`: a reference to a shared object, or the invalid tree. -/
abbrev ValueTree := Option SharedObject

namespace SharedObject

/-- The type name of the node. -/
def type : SharedObject → String
  | mk t _ _ => t

/-- The named properties of the node. -/
def properties : SharedObject → List (String × Var)
  | mk _ p _ => p

/-- The children of the node, in order. -/
def children : SharedObject → List SharedObject
  | mk _ _ c => c

end SharedObject

namespace ValueTree

/-- Models the constructor `juce::ValueTree (const Identifier &type)`. -/
def create (type : String) : ValueTree := some (SharedObject.mk type [] [])

/-- Models `juce::ValueTree::isValid`. -/
def isValid (t : ValueTree) : Bool := t.isSome

/-- Models `juce::ValueTree::hasType`; the invalid tree has no type. -/
def hasType (t : ValueTree) (type : String) : Bool :=
  match t with
  | none => false
  | some o => o.type == type

/-- Models `juce::ValueTree::getChildWithName`: the first child of that type, or the
invalid tree. -/
def getChildWithName (t : ValueTree) (type : String) : ValueTree :=
  match t with
  | none => none
  | some o => o.children.find? (fun c => c.type == type)

/-- The children of a tree as iterated by a range-based `for`; none for the
invalid tree. -/
def getChildren (t : ValueTree) : List SharedObject :=
  match t with
  | none => []
  | some o => o.children

/-- Models `juce::ValueTree::hasProperty`. -/
def hasProperty (t : ValueTree) (name : String) : Bool :=
  match t with
  | none => false
  | some o => o.properties.any (fun p => p.1 == name)

/-- Models `juce::ValueTree::getProperty (name)`: the void `var` when absent. -/
def getProperty (t : ValueTree) (name : String) : Var :=
  match t with
  | none => Var.void
  | some o => ((o.properties.find? (fun p => p.1 == name)).map Prod.snd).getD Var.void

/-- Models `juce::ValueTree::getProperty (name, defaultValue)`. -/
def getPropertyOr (t : ValueTree) (name : String) (dflt : Var) : Var :=
  match t with
  | none => dflt
  | some o => ((o.properties.find? (fun p => p.1 == name)).map Prod.snd).getD dflt

/-- The loop of `juce::NamedValueSet::set`: overwrite the first entry of that name,
or append a new entry. -/
def setNamed (name : String) (v : Var) : List (String × Var) → List (String × Var)
  | [] => [(name, v)]
  | p :: rest => if p.1 == name then (name, v) :: rest else p :: setNamed name v rest

/-- Models `juce::ValueTree::setProperty`; a no-op on the invalid tree. -/
def setProperty (t : ValueTree) (name : String) (v : Var) : ValueTree :=
  match t with
  | none => none
  | some (SharedObject.mk ty props ch) => some (SharedObject.mk ty (setNamed name v props) ch)

/-- Models `juce::ValueTree::appendChild` for a freshly built child: the child is
added last; an invalid child is not added, and the invalid tree stays invalid. -/
def appendChild (t : ValueTree) (child : ValueTree) : ValueTree :=
  match t, child with
  | none, _ => none
  | some o, none => some o
  | some (SharedObject.mk ty props ch), some c => some (SharedObject.mk ty props (ch ++ [c]))

/-- The tree is valid and has the given type. -/
def ValidOfType (type : String) (t : ValueTree) : Prop := ∃ o, t = some o ∧ o.type = type

end ValueTree

/-! ## The device manager -/

/-- A `juce::AudioDeviceManager::AudioDeviceSetup`; the channel masks are
`juce::BigInteger` values. -/
structure AudioDeviceSetup where
  outputDeviceName : String
  inputDeviceName : String
  sampleRate : Rat
  bufferSize : Int
  inputChannels : Int
  useDefaultInputChannels : Bool
  outputChannels : Int
  useDefaultOutputChannels : Bool
deriving DecidableEq, Repr

/-- The default-constructed `AudioDeviceSetup`. -/
def AudioDeviceSetup.default : AudioDeviceSetup :=
  { outputDeviceName := "", inputDeviceName := "", sampleRate := 0, bufferSize := 0,
    inputChannels := 0, useDefaultInputChannels := true,
    outputChannels := 0, useDefaultOutputChannels := true }

/-- What `AudioCore` reads from the open `juce::AudioIODevice`. -/
structure AudioIODevice where
  currentSampleRate : Rat
  defaultBufferSize : Int
  currentBufferSizeSamples : Int
deriving DecidableEq, Repr

/-- A `juce::AudioIODeviceType`, known by its type name. -/
structure AudioIODeviceType where
  typeName : String
deriving DecidableEq, Repr

/-- The hardware connection held by `juce::AudioDeviceManager`: everything
except the two lists of registered callbacks. -/
structure DeviceConnection where
  availableDeviceTypes : List AudioIODeviceType
  currentDeviceType : String
  currentSetup : AudioDeviceSetup
  currentAudioDevice : Option AudioIODevice
  enabledMidiInputs : List String
  defaultMidiOutputName : String
deriving DecidableEq, Repr

/-- The `juce::AudioDeviceManager` owned by the audio core: the hardware
connection, the registered audio callbacks and the registered MIDI input
callbacks (device name and callback), each in registration order. -/
structure AudioDeviceManager where
  connection : DeviceConnection
  callbacks : List Nat
  midiCallbacks : List (String × Nat)
deriving DecidableEq, Repr

/-- The JUCE library and the hardware behind it, for the calls whose result
depends on the machine: opening and configuring devices, the MIDI inputs
currently plugged in, and the numeric conversions of `juce::var`. -/
structure Juce where
  scanDevicesIfNeeded : DeviceConnection → DeviceConnection
  initialise : DeviceConnection → Nat → Nat → Bool → DeviceConnection × String
  setCurrentAudioDeviceType : DeviceConnection → String → Bool → DeviceConnection
  scanForDevices : DeviceConnection → AudioIODeviceType → DeviceConnection
  setAudioDeviceSetup : DeviceConnection → AudioDeviceSetup → Bool → DeviceConnection × String
  midiInputDevices : List String
  canOpenMidiInput : String → Bool
  doubleToString : Rat → String
  doubleToInt : Rat → Int
  stringToInt : String → Int
  stringToDouble : String → Rat

/-- The members of `Instrument` (Instrument.cpp) that the audio core calls. The
address passed to the constructor stands for whatever the constructor draws
its fresh identifier from. -/
structure InstrumentClass where
  construct : Nat → String → InstrumentBody
  initializeFrom : InstrumentBody → PluginDescription → InstrumentBody
  serialize : InstrumentBody → ValueTree
  deserialize : InstrumentBody → SharedObject → InstrumentBody

/-- The identifiers of `Serialization::Audio` (SerializationKeys.h) used by the
audio core. -/
structure SerializationKeys where
  audioCore : String
  orchestra : String
  audioDevice : String
  audioDeviceType : String
  audioOutputDeviceName : String
  audioInputDeviceName : String
  audioDeviceRate : String
  audioDeviceBufferSize : String
  audioDeviceInputChannels : String
  audioDeviceOutputChannels : String
  midiInput : String
  midiInputName : String
  defaultMidiOutput : String

/-! ## The engine and its trace -/

/-- What an observer, the device or the heap sees happen. -/
inductive Event where
  | constructed (ptr : Nat)
  | audioCallbackAdded (ptr : Nat)
  | audioCallbackRemoved (ptr : Nat)
  | midiInputCallbackAdded (deviceName : String) (ptr : Nat)
  | midiInputCallbackRemoved (deviceName : String) (ptr : Nat)
  | initializedFrom (ptr : Nat)
  | deserialized (ptr : Nat)
  | addedToRegistry (ptr : Nat)
  | deleted (ptr : Nat)
  | instrumentAdded (ptr : Nat)
  | instrumentRemoved (ptr : Nat)
  | instrumentRemovedPostAction
deriving DecidableEq, Repr

/-- Whether an event is one of the broadcasts to the observers. -/
def Event.isBroadcast : Event → Bool
  | Event.instrumentAdded _ => true
  | Event.instrumentRemoved _ => true
  | Event.instrumentRemovedPostAction => true
  | _ => false

/-- The engine as it can be read at one moment: the registry and the two
lists of registered callbacks. -/
structure View where
  instruments : List Instrument
  callbacks : List Nat
  midiCallbacks : List (String × Nat)
deriving DecidableEq, Repr

/-- The state of an `AudioCore`: its device manager, the owned array of
instruments, the retained MIDI input names, the next address `new` hands out,
and the trace of effects so far, each with the engine as it stood then. -/
structure AudioCore where
  deviceManager : AudioDeviceManager
  instruments : List Instrument
  customMidiInputs : List String
  heapTop : Nat
  trace : List (Event × View)
deriving DecidableEq, Repr

namespace AudioCore

/-- The engine as an observer reads it now. -/
def view (s : AudioCore) : View :=
  { instruments := s.instruments,
    callbacks := s.deviceManager.callbacks,
    midiCallbacks := s.deviceManager.midiCallbacks }

/-- Records an effect together with the engine as it stands. -/
def emit (s : AudioCore) (e : Event) : AudioCore :=
  { s with trace := s.trace ++ [(e, s.view)] }

/-- The events of the trace, without the views. -/
def events (s : AudioCore) : List Event := s.trace.map Prod.fst

/-- The broadcasts of the trace, in order. -/
def notifications (s : AudioCore) : List Event := s.events.filter Event.isBroadcast

/-- The engine without its history: every field but the trace. -/
def withoutTrace (s : AudioCore) : AudioCore := { s with trace := [] }

/-- The addresses of a list of instruments. -/
def ptrs (l : List Instrument) : List Nat := l.map (fun i => i.ptr)

/-- The MIDI registrations that `addInstrumentToDevice` makes for a list of
instruments. -/
def midiKeys (l : List Instrument) : List (String × Nat) := l.map (fun i => ("", i.ptr))

/-! ### Attaching to the device -/

/-- Modelled from the spec: `AudioDeviceManager::addAudioCallback`, the hardware
abstraction's "register real-time callbacks (audio)". A registration is
appended to the device's list; nothing merges a second registration of the
same callback with the first ("would double-register its callback"). -/
def addAudioCallback (s : AudioCore) (cb : Nat) : AudioCore :=
  let s := s.emit (Event.audioCallbackAdded cb)
  { s with deviceManager := { s.deviceManager with callbacks := s.deviceManager.callbacks ++ [cb] } }

/-- Modelled from the spec: `AudioDeviceManager::removeAudioCallback`, the
hardware abstraction's "unregister real-time callbacks (audio)". One
registration of the callback, the earliest, is taken off the device's list;
unregistering an unknown callback does nothing. -/
def removeAudioCallback (s : AudioCore) (cb : Nat) : AudioCore :=
  let s := s.emit (Event.audioCallbackRemoved cb)
  { s with deviceManager := { s.deviceManager with callbacks := removeFirstMatchingValue cb s.deviceManager.callbacks } }

/-- Modelled from the spec: `AudioDeviceManager::addMidiInputCallback`, the
hardware abstraction's "register real-time callbacks (MIDI)", for the inputs
of the named device (the empty name stands for all of them); appended like an
audio callback. -/
def addMidiInputCallback (s : AudioCore) (deviceName : String) (cb : Nat) : AudioCore :=
  let s := s.emit (Event.midiInputCallbackAdded deviceName cb)
  { s with deviceManager :=
      { s.deviceManager with midiCallbacks := s.deviceManager.midiCallbacks ++ [(deviceName, cb)] } }

/-- Modelled from the spec: `AudioDeviceManager::removeMidiInputCallback`, the
hardware abstraction's "unregister real-time callbacks (MIDI)"; one
registration of the pair, the earliest, is taken off. -/
def removeMidiInputCallback (s : AudioCore) (deviceName : String) (cb : Nat) : AudioCore :=
  let s := s.emit (Event.midiInputCallbackRemoved deviceName cb)
  { s with deviceManager :=
      { s.deviceManager with midiCallbacks := removeFirstMatchingValue (deviceName, cb) s.deviceManager.midiCallbacks } }

/-- Embeds `AudioCore::addInstrumentToDevice`; `String::empty` is `""`. -/
def addInstrumentToDevice (s : AudioCore) (instrument : Nat) : AudioCore :=
  (s.addAudioCallback instrument).addMidiInputCallback "" instrument

/-- Embeds `AudioCore::removeInstrumentFromDevice`. -/
def removeInstrumentFromDevice (s : AudioCore) (instrument : Nat) : AudioCore :=
  (s.removeAudioCallback instrument).removeMidiInputCallback "" instrument

/-- Embeds `AudioCore::mute`: the range-based loop over the registry. -/
def mute (s : AudioCore) : AudioCore :=
  s.instruments.foldl (fun st instrument => st.removeInstrumentFromDevice instrument.ptr) s

/-- Embeds `AudioCore::unmute`. -/
def unmute (s : AudioCore) : AudioCore :=
  let s := s.mute
  s.instruments.foldl (fun st instrument => st.addInstrumentToDevice instrument.ptr) s

/-! ### The registry -/

/-- Modelled from the spec: `OrchestraPit::broadcastInstrumentAdded`
(OrchestraPit.h), the observer interface's `instrumentAdded` event,
"dispatched synchronously on the control domain". -/
def broadcastInstrumentAdded (s : AudioCore) (instrument : Nat) : AudioCore :=
  s.emit (Event.instrumentAdded instrument)

/-- Modelled from the spec: `OrchestraPit::broadcastInstrumentRemoved`
(OrchestraPit.h), the observer interface's `instrumentWillBeRemoved` event: the
"before remove" broadcast. -/
def broadcastInstrumentRemoved (s : AudioCore) (instrument : Nat) : AudioCore :=
  s.emit (Event.instrumentRemoved instrument)

/-- Modelled from the spec: `OrchestraPit::broadcastInstrumentRemovedPostAction`
(OrchestraPit.h), the observer interface's `instrumentRemoved` event: the
"after remove" broadcast; it names no instrument. -/
def broadcastInstrumentRemovedPostAction (s : AudioCore) : AudioCore :=
  s.emit Event.instrumentRemovedPostAction

/-- The expression `new Instrument (formatManager, name)`: the object is built
at the next free address. -/
def newInstrument (C : InstrumentClass) (s : AudioCore) (name : String) : Instrument × AudioCore :=
  let instrument : Instrument := { ptr := s.heapTop, body := C.construct s.heapTop name }
  (instrument, { s with heapTop := s.heapTop + 1 }.emit (Event.constructed instrument.ptr))

/-- Models `juce::OwnedArray::add`. -/
def instrumentsAdd (s : AudioCore) (instrument : Instrument) : AudioCore :=
  let s := s.emit (Event.addedToRegistry instrument.ptr)
  { s with instruments := s.instruments ++ [instrument] }

/-- The loop of `juce::OwnedArray::removeObject`: the list without the first entry
at that address. -/
def removeFirstAt (ptr : Nat) : List Instrument → List Instrument
  | [] => []
  | i :: rest => if i.ptr = ptr then rest else i :: removeFirstAt ptr rest

/-- Models `juce::OwnedArray::removeObject (object, true)`: the first entry at that
address leaves the array and is then deleted; nothing happens when the array
holds no such entry. -/
def instrumentsRemoveObject (s : AudioCore) (instrument : Nat) : AudioCore :=
  if s.instruments.any (fun i => i.ptr = instrument) then
    { s with instruments := removeFirstAt instrument s.instruments }.emit (Event.deleted instrument)
  else s

/-- Embeds `AudioCore::addInstrument`; returns the new instrument and the
engine after the call. -/
def addInstrument (C : InstrumentClass) (s : AudioCore)
    (pluginDescription : PluginDescription) (name : String) : Instrument × AudioCore :=
  let (instrument, s) := newInstrument C s name
  let s := s.addInstrumentToDevice instrument.ptr
  let instrument : Instrument :=
    { instrument with body := C.initializeFrom instrument.body pluginDescription }
  let s := s.emit (Event.initializedFrom instrument.ptr)
  let s := s.instrumentsAdd instrument
  let s := s.broadcastInstrumentAdded instrument.ptr
  (instrument, s)

/-- Embeds `AudioCore::removeInstrument`. -/
def removeInstrument (s : AudioCore) (instrument : Nat) : AudioCore :=
  let s := s.broadcastInstrumentRemoved instrument
  let s := s.removeInstrumentFromDevice instrument
  let s := s.instrumentsRemoveObject instrument
  s.broadcastInstrumentRemovedPostAction

/-- The first entry of the list that passes the test: the `for` loops of
`findInstrumentById`, which return at the first hit. -/
def firstWhere (p : Instrument → Bool) : List Instrument → Option Instrument
  | [] => none
  | i :: rest => if p i then some i else firstWhere p rest

/-- Embeds `AudioCore::findInstrumentById`, a `const` member: the result is
`none` for `nullptr`. -/
def findInstrumentById (s : AudioCore) (id : String) : Option Instrument :=
  match firstWhere (fun i => contains id i.getInstrumentID) s.instruments with
  | some i => some i
  | none => firstWhere (fun i => contains id i.getInstrumentHash) s.instruments

/-- Embeds `AudioCore::getInstruments`, a `const` member: a copy of the registry. -/
def getInstruments (s : AudioCore) : List Instrument := s.instruments

/-- Embeds `AudioCore::initDefaultInstrument`. `descriptions` is what
`BuiltInSynthFormat::findAllTypesForFile` finds for the built-in piano; the
result is `none` when the code dereferences `descriptions[0]` although nothing
was found. -/
def initDefaultInstrument (C : InstrumentClass) (descriptions : List PluginDescription)
    (s : AudioCore) : Option AudioCore :=
  match descriptions.head? with
  | none => none
  | some desc => some (addInstrument C s desc "Default").2

/-! ### Teardown -/

/-- Embeds `AudioCore::reset`: while the registry is not empty, remove its
first instrument. Each round shortens the registry, so the loop ends. -/
def reset (s : AudioCore) : AudioCore :=
  if h : 0 < s.instruments.length then
    reset (s.removeInstrument (s.instruments[0]).ptr)
  else s
termination_by s.instruments.length
decreasing_by
  obtain ⟨deviceManager, instruments, customMidiInputs, heapTop, trace⟩ := s
  cases instruments with
  | nil => simp at h
  | cons first rest =>
    unfold removeInstrument broadcastInstrumentRemovedPostAction instrumentsRemoveObject
      removeInstrumentFromDevice removeMidiInputCallback removeAudioCallback
      broadcastInstrumentRemoved emit
    simp [removeFirstAt]

/-! ### Device setup -/

/-- Models `juce::var::operator String`. -/
def varToString (J : Juce) : Var → String
  | Var.void => ""
  | Var.int v => toString v
  | Var.double v => J.doubleToString v
  | Var.string v => v

/-- Models `juce::var::operator int`. -/
def varToInt (J : Juce) : Var → Int
  | Var.void => 0
  | Var.int v => v
  | Var.double v => J.doubleToInt v
  | Var.string v => J.stringToInt v

/-- Models `juce::var::operator double`. -/
def varToDouble (J : Juce) : Var → Rat
  | Var.void => 0
  | Var.int v => v
  | Var.double v => v
  | Var.string v => J.stringToDouble v

/-- Models `juce::BigInteger::toString (2)`: binary digits, most significant first,
`"0"` for zero, a leading minus sign for a negative value. -/
def bigIntegerToString (v : Int) : String :=
  let digits := String.mk (Nat.toDigits 2 v.natAbs)
  if v < 0 then "-" ++ digits else digits

/-- Models `juce::BigInteger::parseString (text, 2)`: leading blanks are skipped, a
minus sign right after them sets the sign, and every other character that is
not `0` or `1` is passed over. Each binary digit is shifted in with `<<=` and
`+=`; on a value that is already negative `+=` adds to the value, so the digit
is taken off the shifted magnitude. -/
def bigIntegerParseString (text : String) : Int :=
  let t := text.data.dropWhile Char.isWhitespace
  let negative : Bool := t.head? = some '-'
  let shiftIn (magnitude digit : Nat) : Nat :=
    if negative && magnitude != 0 then 2 * magnitude - digit else 2 * magnitude + digit
  let magnitude : Nat :=
    t.foldl (fun acc c => if c = '0' then shiftIn acc 0 else if c = '1' then shiftIn acc 1 else acc) 0
  if negative then -(magnitude : Int) else (magnitude : Int)

/-- Models `juce::AudioDeviceManager::getCurrentDeviceTypeObject`: the available type
of the current name, else the first available type, else `nullptr`. -/
def getCurrentDeviceTypeObject (c : DeviceConnection) : Option AudioIODeviceType :=
  match c.availableDeviceTypes.find? (fun t => t.typeName == c.currentDeviceType) with
  | some t => some t
  | none => c.availableDeviceTypes.head?

/-- Models `juce::AudioDeviceManager::isMidiInputEnabled`. -/
def isMidiInputEnabled (c : DeviceConnection) (name : String) : Bool :=
  c.enabledMidiInputs.contains name

/-- Models `juce::AudioDeviceManager::setMidiInputEnabled`: an input is opened only
if it is plugged in and the driver opens it; disabling closes every open input
of that name. -/
def setMidiInputEnabled (J : Juce) (c : DeviceConnection) (name : String) (enabled : Bool) :
    DeviceConnection :=
  if enabled != isMidiInputEnabled c name then
    if enabled then
      if J.midiInputDevices.contains name && J.canOpenMidiInput name then
        { c with enabledMidiInputs := c.enabledMidiInputs ++ [name] }
      else c
    else { c with enabledMidiInputs := c.enabledMidiInputs.filter (fun n => n != name) }
  else c

/-- Models `juce::AudioDeviceManager::setDefaultMidiOutput`. -/
def setDefaultMidiOutput (c : DeviceConnection) (name : String) : DeviceConnection :=
  { c with defaultMidiOutputName := name }

/-- Replaces the hardware connection of the engine. -/
def withConnection (s : AudioCore) (c : DeviceConnection) : AudioCore :=
  { s with deviceManager := { s.deviceManager with connection := c } }

/-- Embeds `AudioCore::autodetectDeviceSetup`. The result is `none` when the
code dereferences `types[0]` although no device type is available. -/
def autodetectDeviceSetup (J : Juce) (s : AudioCore) : Option AudioCore :=
  let c := (J.initialise s.deviceManager.connection 0 2 true).1
  let deviceType := getCurrentDeviceTypeObject c
  let device := c.currentAudioDevice
  if deviceType.isNone || device.isNone then
    let c := J.scanDevicesIfNeeded c
    match c.availableDeviceTypes.head? with
    | none => none
    | some type =>
      let c := J.setCurrentAudioDeviceType c type.typeName true
      let c := J.scanForDevices c type
      let deviceSetup := c.currentSetup
      let c := (J.setAudioDeviceSetup c deviceSetup true).1
      some (s.withConnection c)
  else some (s.withConnection c)

/-- The MIDI input entries appended by `serializeDeviceManager`: first every
plugged-in input that is enabled, then every retained name that no plugged-in
input carries (`StringArray::contains` with `ignoreCase` set). -/
def midiInputNodes (J : Juce) (K : SerializationKeys) (s : AudioCore) : List ValueTree :=
  let availableMidiDevices := J.midiInputDevices
  let enabled := availableMidiDevices.filter (fun n => isMidiInputEnabled s.deviceManager.connection n)
  let retained := s.customMidiInputs.filter
    (fun n => !(availableMidiDevices.any (fun d => equalsIgnoreCase d n)))
  (enabled ++ retained).map
    (fun n => ValueTree.setProperty (ValueTree.create K.midiInput) K.midiInputName (Var.string n))

/-- Embeds `AudioCore::serializeDeviceManager`, a `const` member. -/
def serializeDeviceManager (J : Juce) (K : SerializationKeys) (s : AudioCore) : ValueTree :=
  let c := s.deviceManager.connection
  let tree := ValueTree.create K.audioDevice
  let currentSetup := c.currentSetup
  let tree := ValueTree.setProperty tree K.audioDeviceType (Var.string c.currentDeviceType)
  let tree := ValueTree.setProperty tree K.audioOutputDeviceName (Var.string currentSetup.outputDeviceName)
  let tree := ValueTree.setProperty tree K.audioInputDeviceName (Var.string currentSetup.inputDeviceName)
  let tree :=
    match c.currentAudioDevice with
    | none => tree
    | some currentAudioDevice =>
      let tree := ValueTree.setProperty tree K.audioDeviceRate (Var.double currentAudioDevice.currentSampleRate)
      let tree :=
        if currentAudioDevice.defaultBufferSize ≠ currentAudioDevice.currentBufferSizeSamples then
          ValueTree.setProperty tree K.audioDeviceBufferSize (Var.int currentAudioDevice.currentBufferSizeSamples)
        else tree
      let tree :=
        if !currentSetup.useDefaultInputChannels then
          ValueTree.setProperty tree K.audioDeviceInputChannels
            (Var.string (bigIntegerToString currentSetup.inputChannels))
        else tree
      if !currentSetup.useDefaultOutputChannels then
        ValueTree.setProperty tree K.audioDeviceOutputChannels
          (Var.string (bigIntegerToString currentSetup.outputChannels))
      else tree
  let tree := (midiInputNodes J K s).foldl ValueTree.appendChild tree
  let defaultMidiOutput := c.defaultMidiOutputName
  if defaultMidiOutput ≠ "" then
    ValueTree.setProperty tree K.defaultMidiOutput (Var.string defaultMidiOutput)
  else tree

/-- The device-type name that `deserializeDeviceManager` passes to
`setCurrentAudioDeviceType`: the loop keeps the last available type of the saved
name; when it finds none and some type is available, the name of the first
available type is taken instead of the saved one. -/
def selectDeviceType (availableDeviceTypes : List AudioIODeviceType) (currentDeviceType : String) :
    String :=
  let foundType : Option AudioIODeviceType :=
    availableDeviceTypes.foldl
      (fun found availableType =>
        if availableType.typeName = currentDeviceType then some availableType else found) none
  match foundType, availableDeviceTypes with
  | none, first :: _ => first.typeName
  | _, _ => currentDeviceType

/-- The candidate setup that `deserializeDeviceManager` builds from the device
node `root`. -/
def savedDeviceSetup (J : Juce) (K : SerializationKeys) (root : ValueTree) : AudioDeviceSetup :=
  let setup := AudioDeviceSetup.default
  let setup := { setup with inputDeviceName := varToString J (ValueTree.getProperty root K.audioInputDeviceName) }
  let setup := { setup with outputDeviceName := varToString J (ValueTree.getProperty root K.audioOutputDeviceName) }
  let bufferSize := ValueTree.getPropertyOr root K.audioDeviceBufferSize (Var.int setup.bufferSize)
  let setup := { setup with bufferSize := varToInt J bufferSize }
  let sampleRate := ValueTree.getPropertyOr root K.audioDeviceRate (Var.double setup.sampleRate)
  let setup := { setup with sampleRate := varToDouble J sampleRate }
  let defaultTwoChannels := Var.string "11"
  let inputChannels := varToString J (ValueTree.getPropertyOr root K.audioDeviceInputChannels defaultTwoChannels)
  let outputChannels := varToString J (ValueTree.getPropertyOr root K.audioDeviceOutputChannels defaultTwoChannels)
  let setup := { setup with inputChannels := bigIntegerParseString inputChannels }
  let setup := { setup with outputChannels := bigIntegerParseString outputChannels }
  let setup := { setup with useDefaultInputChannels := !ValueTree.hasProperty root K.audioDeviceInputChannels }
  { setup with useDefaultOutputChannels := !ValueTree.hasProperty root K.audioDeviceOutputChannels }

/-- The names that `deserializeDeviceManager` puts into `customMidiInputs`: one
per MIDI input child of the device node `root`, in document order. -/
def savedMidiInputs (J : Juce) (K : SerializationKeys) (root : ValueTree) : List String :=
  ((ValueTree.getChildren root).filter (fun child => child.type == K.midiInput)).map
    (fun child => varToString J (ValueTree.getProperty (some child) K.midiInputName))

/-- The body of `AudioCore::deserializeDeviceManager` after its early return,
for the valid device node `root`. -/
def restoreDeviceManager (J : Juce) (K : SerializationKeys) (s : AudioCore) (root : ValueTree) :
    AudioCore :=
  let c := J.scanDevicesIfNeeded s.deviceManager.connection
  let availableDeviceTypes := c.availableDeviceTypes
  let currentDeviceType := varToString J (ValueTree.getProperty root K.audioDeviceType)
  let currentDeviceType := selectDeviceType availableDeviceTypes currentDeviceType
  let c := J.setCurrentAudioDeviceType c currentDeviceType true
  let setup := savedDeviceSetup J K root
  let (c, error) := J.setAudioDeviceSetup c setup true
  let customMidiInputs := savedMidiInputs J K root
  let allMidiIns := J.midiInputDevices
  let c := allMidiIns.foldl
    (fun c midiIn => setMidiInputEnabled J c midiIn (customMidiInputs.contains midiIn)) c
  let c := if error ≠ "" then (J.initialise c 0 2 false).1 else c
  let c := setDefaultMidiOutput c (varToString J (ValueTree.getProperty root K.defaultMidiOutput))
  { (s.withConnection c) with customMidiInputs := customMidiInputs }

/-- Embeds `AudioCore::deserializeDeviceManager`; `none` only through
`autodetectDeviceSetup`. -/
def deserializeDeviceManager (J : Juce) (K : SerializationKeys) (s : AudioCore) (tree : ValueTree) :
    Option AudioCore :=
  let root := if ValueTree.hasType tree K.audioDevice then tree
    else ValueTree.getChildWithName tree K.audioDevice
  if !ValueTree.isValid root then autodetectDeviceSetup J s
  else some (restoreDeviceManager J K s root)

/-- The device node that `deserializeDeviceManager` works on: the document
itself when it has the device type, else its first child of that type; invalid
when the document neither is nor contains a device node. -/
def deviceNode (K : SerializationKeys) (tree : ValueTree) : ValueTree :=
  if ValueTree.hasType tree K.audioDevice then tree
  else ValueTree.getChildWithName tree K.audioDevice

/-- The names of the properties that `serializeDeviceManager` writes on the
device node. -/
def deviceProperties (K : SerializationKeys) : List String :=
  [K.audioDeviceType, K.audioOutputDeviceName, K.audioInputDeviceName, K.audioDeviceRate,
   K.audioDeviceBufferSize, K.audioDeviceInputChannels, K.audioDeviceOutputChannels,
   K.defaultMidiOutput]

/-- The MIDI input entry that `serializeDeviceManager` appends for a name. -/
def midiInputEntry (K : SerializationKeys) (name : String) : SharedObject :=
  SharedObject.mk K.midiInput [(K.midiInputName, Var.string name)] []

/-- The names for which `serializeDeviceManager` appends a MIDI input entry, in
order. -/
def serializedMidiInputs (J : Juce) (s : AudioCore) : List String :=
  J.midiInputDevices.filter (fun n => isMidiInputEnabled s.deviceManager.connection n) ++
    s.customMidiInputs.filter (fun n => !(J.midiInputDevices.any (fun d => equalsIgnoreCase d n)))

/-- What the library's calls on the audio device do not touch: the MIDI inputs
that are open and the default MIDI output. -/
def midiState (c : DeviceConnection) : List String × String :=
  (c.enabledMidiInputs, c.defaultMidiOutputName)

/-- The calls of the library that scan for, open and configure audio devices
leave the open MIDI inputs and the default MIDI output as they are. -/
structure KeepsMidi (J : Juce) : Prop where
  scanDevicesIfNeeded : ∀ c, midiState (J.scanDevicesIfNeeded c) = midiState c
  initialise : ∀ c numIn numOut selectDefault,
    midiState (J.initialise c numIn numOut selectDefault).1 = midiState c
  setCurrentAudioDeviceType : ∀ c type treatAsChosen,
    midiState (J.setCurrentAudioDeviceType c type treatAsChosen) = midiState c
  scanForDevices : ∀ c type, midiState (J.scanForDevices c type) = midiState c
  setAudioDeviceSetup : ∀ c setup treatAsChosen,
    midiState (J.setAudioDeviceSetup c setup treatAsChosen).1 = midiState c

/-! ### The document codec -/

/-- Embeds `AudioCore::serialize`, a `const` member. -/
def serialize (J : Juce) (K : SerializationKeys) (C : InstrumentClass) (s : AudioCore) : ValueTree :=
  let tree := ValueTree.create K.audioCore
  let orchestra := ValueTree.create K.orchestra
  let orchestra := s.instruments.foldl
    (fun orchestra instrument => ValueTree.appendChild orchestra (C.serialize instrument.body)) orchestra
  let tree := ValueTree.appendChild tree orchestra
  let deviceState := serializeDeviceManager J K s
  ValueTree.appendChild tree deviceState

/-- One round of the loop of `AudioCore::deserialize` over the instrument
nodes: build a blank instrument, attach it, restore it from the node, add it
to the registry. -/
def deserializeInstrument (C : InstrumentClass) (s : AudioCore) (instrumentNode : SharedObject) :
    AudioCore :=
  let (instrument, s) := newInstrument C s ""
  let s := s.addInstrumentToDevice instrument.ptr
  let instrument : Instrument :=
    { instrument with body := C.deserialize instrument.body instrumentNode }
  let s := s.emit (Event.deserialized instrument.ptr)
  s.instrumentsAdd instrument

/-- Embeds `AudioCore::deserialize`; `none` only through
`autodetectDeviceSetup`. -/
def deserialize (J : Juce) (K : SerializationKeys) (C : InstrumentClass) (s : AudioCore)
    (tree : ValueTree) : Option AudioCore :=
  let s := s.reset
  let root := if ValueTree.hasType tree K.audioCore then tree
    else ValueTree.getChildWithName tree K.audioCore
  if !ValueTree.isValid root then autodetectDeviceSetup J s
  else
    match deserializeDeviceManager J K s root with
    | none => none
    | some s =>
      let orchestra := ValueTree.getChildWithName root K.orchestra
      if ValueTree.isValid orchestra then
        some ((ValueTree.getChildren orchestra).foldl (deserializeInstrument C) s)
      else some s

/-- The instrument nodes that the loop of `deserialize` goes through for a
document: the children of the orchestra node of its root, none when the root
or the orchestra node is missing. -/
def instrumentNodes (K : SerializationKeys) (tree : ValueTree) : List SharedObject :=
  let root := if ValueTree.hasType tree K.audioCore then tree
    else ValueTree.getChildWithName tree K.audioCore
  ValueTree.getChildren (ValueTree.getChildWithName root K.orchestra)

/-- The audio core node that `deserialize` works on: the document itself when
it has the audio core type, else its first child of that type; invalid when
the document neither is nor contains an audio core node. -/
def coreNode (K : SerializationKeys) (tree : ValueTree) : ValueTree :=
  if ValueTree.hasType tree K.audioCore then tree
  else ValueTree.getChildWithName tree K.audioCore

/-- The instruments that one round of the loop of `deserialize` per node
leaves in the registry when the first of them is built at address `top`. -/
def restoredInstruments (C : InstrumentClass) : Nat → List SharedObject → List Instrument
  | _, [] => []
  | top, node :: rest =>
    { ptr := top, body := C.deserialize (C.construct top "") node } ::
      restoredInstruments C (top + 1) rest

end AudioCore

/-! ## Engines that can arise -/

namespace AudioCore

/-- Embeds the constructor `AudioCore::AudioCore`: the audio monitor is the
first object built and is registered as an audio callback; the registry is
empty. The hardware connection the device manager starts with is given. -/
def create (connection : DeviceConnection) : AudioCore :=
  let s : AudioCore :=
    { deviceManager := { connection := connection, callbacks := [], midiCallbacks := [] },
      instruments := [], customMidiInputs := [], heapTop := 0, trace := [] }
  let audioMonitor := s.heapTop
  let s := { s with heapTop := s.heapTop + 1 }.emit (Event.constructed audioMonitor)
  s.addAudioCallback audioMonitor

/-- The engines that a sequence of calls of the public members makes of a
newly constructed one. -/
inductive Reachable (J : Juce) (K : SerializationKeys) (C : InstrumentClass) : AudioCore → Prop
  | create (connection : DeviceConnection) : Reachable J K C (create connection)
  | addInstrument {s : AudioCore} (pluginDescription : PluginDescription) (name : String) :
      Reachable J K C s → Reachable J K C (addInstrument C s pluginDescription name).2
  | removeInstrument {s : AudioCore} (instrument : Nat) :
      Reachable J K C s → Reachable J K C (s.removeInstrument instrument)
  | mute {s : AudioCore} : Reachable J K C s → Reachable J K C s.mute
  | unmute {s : AudioCore} : Reachable J K C s → Reachable J K C s.unmute
  | reset {s : AudioCore} : Reachable J K C s → Reachable J K C s.reset
  | initDefaultInstrument {s r : AudioCore} (descriptions : List PluginDescription) :
      Reachable J K C s → initDefaultInstrument C descriptions s = some r → Reachable J K C r
  | autodetectDeviceSetup {s r : AudioCore} :
      Reachable J K C s → autodetectDeviceSetup J s = some r → Reachable J K C r
  | deserializeDeviceManager {s r : AudioCore} (tree : ValueTree) :
      Reachable J K C s → deserializeDeviceManager J K s tree = some r → Reachable J K C r
  | deserialize {s r : AudioCore} (tree : ValueTree) :
      Reachable J K C s → deserialize J K C s tree = some r → Reachable J K C r

/-- The engines that calls of `addInstrument`, `removeInstrument`, `mute`,
`unmute` and `reset` make of a newly constructed one, whose registry is empty;
with `documents` set, calls of `deserialize` count as well. -/
inductive Arises (J : Juce) (K : SerializationKeys) (C : InstrumentClass) (documents : Bool) :
    AudioCore → Prop
  | create (connection : DeviceConnection) : Arises J K C documents (create connection)
  | addInstrument {s : AudioCore} (pluginDescription : PluginDescription) (name : String) :
      Arises J K C documents s → Arises J K C documents (addInstrument C s pluginDescription name).2
  | removeInstrument {s : AudioCore} (instrument : Nat) :
      Arises J K C documents s → Arises J K C documents (s.removeInstrument instrument)
  | mute {s : AudioCore} : Arises J K C documents s → Arises J K C documents s.mute
  | unmute {s : AudioCore} : Arises J K C documents s → Arises J K C documents s.unmute
  | reset {s : AudioCore} : Arises J K C documents s → Arises J K C documents s.reset
  | deserialize {s r : AudioCore} (tree : ValueTree) :
      documents = true → Arises J K C documents s → deserialize J K C s tree = some r →
      Arises J K C documents r

/-- The identifiers of the instruments of the registry, in registry order. -/
def identifiers (s : AudioCore) : List String := s.instruments.map Instrument.getInstrumentID

/-- What the registry needs of the instrument class to keep identifiers apart:
the constructor gives instruments built at different addresses different
identifiers, whatever their names, and `initializeFrom` leaves the identifier
as it is. -/
structure FreshIdentifiers (C : InstrumentClass) : Prop where
  construct : ∀ a b n m, a ≠ b → (C.construct a n).instrumentID ≠ (C.construct b m).instrumentID
  initializeFrom : ∀ body description,
    (C.initializeFrom body description).instrumentID = body.instrumentID

/-- What the theorems below ask of an engine: the registry holds no address
twice, the device holds no registration twice, and every address in use is
one that `new` has handed out already. -/
structure WellFormed (s : AudioCore) : Prop where
  instruments_nodup : (ptrs s.instruments).Nodup
  callbacks_nodup : s.deviceManager.callbacks.Nodup
  midiCallbacks_nodup : s.deviceManager.midiCallbacks.Nodup
  instruments_lt : ∀ p ∈ ptrs s.instruments, p < s.heapTop
  callbacks_lt : ∀ p ∈ s.deviceManager.callbacks, p < s.heapTop
  midiCallbacks_lt : ∀ k ∈ s.deviceManager.midiCallbacks, k.2 < s.heapTop

end AudioCore

/-! ## The calls of a restore -/

namespace AudioCore

/-- A call that the body of `deserializeDeviceManager` makes on the device
manager or on `MidiInput`, with its arguments. -/
inductive DeviceCall where
  | getAvailableDeviceTypes
  | setCurrentAudioDeviceType (type : String) (treatAsChosen : Bool)
  | setAudioDeviceSetup (setup : AudioDeviceSetup) (treatAsChosen : Bool)
  | getDevices
  | setMidiInputEnabled (name : String) (enabled : Bool)
  | initialise (numInputChannelsNeeded numOutputChannelsNeeded : Nat)
      (selectDefaultDeviceOnFailure : Bool)
  | setDefaultMidiOutput (name : String)
deriving DecidableEq, Repr

/-- Whether the call chooses the audio device type. -/
def DeviceCall.isSetCurrentAudioDeviceType : DeviceCall → Bool
  | DeviceCall.setCurrentAudioDeviceType _ _ => true
  | _ => false

/-- Whether the call applies an audio device setup. -/
def DeviceCall.isSetAudioDeviceSetup : DeviceCall → Bool
  | DeviceCall.setAudioDeviceSetup _ _ => true
  | _ => false

/-- Whether the call requests a connection through `initialise`. -/
def DeviceCall.isInitialise : DeviceCall → Bool
  | DeviceCall.initialise _ _ _ => true
  | _ => false

/-- The body of `AudioCore::deserializeDeviceManager` after its early return,
statement by statement as in `restoreDeviceManager`, together with the calls
it makes on the library, in order. -/
def restoreDeviceManagerLogged (J : Juce) (K : SerializationKeys) (s : AudioCore)
    (root : ValueTree) : AudioCore × List DeviceCall :=
  let c := J.scanDevicesIfNeeded s.deviceManager.connection
  let calls := [DeviceCall.getAvailableDeviceTypes]
  let availableDeviceTypes := c.availableDeviceTypes
  let currentDeviceType := varToString J (ValueTree.getProperty root K.audioDeviceType)
  let currentDeviceType := selectDeviceType availableDeviceTypes currentDeviceType
  let c := J.setCurrentAudioDeviceType c currentDeviceType true
  let calls := calls ++ [DeviceCall.setCurrentAudioDeviceType currentDeviceType true]
  let setup := savedDeviceSetup J K root
  let (c, error) := J.setAudioDeviceSetup c setup true
  let calls := calls ++ [DeviceCall.setAudioDeviceSetup setup true]
  let customMidiInputs := savedMidiInputs J K root
  let allMidiIns := J.midiInputDevices
  let calls := calls ++ [DeviceCall.getDevices]
  let (c, calls) := allMidiIns.foldl
    (fun state midiIn =>
      (setMidiInputEnabled J state.1 midiIn (customMidiInputs.contains midiIn),
        state.2 ++ [DeviceCall.setMidiInputEnabled midiIn (customMidiInputs.contains midiIn)]))
    (c, calls)
  let (c, calls) :=
    if error ≠ "" then ((J.initialise c 0 2 false).1, calls ++ [DeviceCall.initialise 0 2 false])
    else (c, calls)
  let defaultMidiOutput := varToString J (ValueTree.getProperty root K.defaultMidiOutput)
  let c := setDefaultMidiOutput c defaultMidiOutput
  let calls := calls ++ [DeviceCall.setDefaultMidiOutput defaultMidiOutput]
  ({ (s.withConnection c) with customMidiInputs := customMidiInputs }, calls)

/-- The error text that `setAudioDeviceSetup` hands back to
`deserializeDeviceManager` for the candidate setup of the device node `root`;
empty when the setup was applied. -/
def setupError (J : Juce) (K : SerializationKeys) (s : AudioCore) (root : ValueTree) : String :=
  let c := J.scanDevicesIfNeeded s.deviceManager.connection
  let currentDeviceType := varToString J (ValueTree.getProperty root K.audioDeviceType)
  let currentDeviceType := selectDeviceType c.availableDeviceTypes currentDeviceType
  let c := J.setCurrentAudioDeviceType c currentDeviceType true
  (J.setAudioDeviceSetup c (savedDeviceSetup J K root) true).2

end AudioCore

/-! ## A worked engine -/

namespace Demo

/-- A small instrument class: the identifier is drawn from the address, the
hash from the plugin description, and the codec writes both as properties of
an `instrument` node. -/
def instrumentClass : InstrumentClass :=
  { construct := fun address name =>
      { name := name, instrumentID := "id-" ++ toString address, instrumentHash := "",
        processor := "" },
    initializeFrom := fun body description =>
      { body with instrumentHash := description.fileOrIdentifier, processor := description.name },
    serialize := fun body =>
      some (SharedObject.mk "instrument"
        [("id", Var.string body.instrumentID), ("hash", Var.string body.instrumentHash)] []),
    deserialize := fun body node =>
      { body with
        instrumentID :=
          match ValueTree.getProperty (some node) "id" with
          | Var.string v => v
          | _ => body.instrumentID,
        instrumentHash :=
          match ValueTree.getProperty (some node) "hash" with
          | Var.string v => v
          | _ => body.instrumentHash } }

/-- Serialization keys, all different. -/
def keys : SerializationKeys :=
  { audioCore := "audioCore", orchestra := "orchestra", audioDevice := "audioDevice",
    audioDeviceType := "audioDeviceType", audioOutputDeviceName := "audioOutputDeviceName",
    audioInputDeviceName := "audioInputDeviceName", audioDeviceRate := "audioDeviceRate",
    audioDeviceBufferSize := "audioDeviceBufferSize",
    audioDeviceInputChannels := "audioDeviceInputChannels",
    audioDeviceOutputChannels := "audioDeviceOutputChannels", midiInput := "midiInput",
    midiInputName := "midiInputName", defaultMidiOutput := "defaultMidiOutput" }

/-- A machine with no MIDI inputs whose driver accepts every request and
leaves the connection as it is. -/
def juce : Juce :=
  { scanDevicesIfNeeded := fun c => c,
    initialise := fun c _ _ _ => (c, ""),
    setCurrentAudioDeviceType := fun c type _ => { c with currentDeviceType := type },
    scanForDevices := fun c _ => c,
    setAudioDeviceSetup := fun c setup _ => ({ c with currentSetup := setup }, ""),
    midiInputDevices := [],
    canOpenMidiInput := fun _ => true,
    doubleToString := fun _ => "",
    doubleToInt := fun v => v.floor,
    stringToInt := fun _ => 0,
    stringToDouble := fun _ => 0 }

/-- A connection with one device type and no open device. -/
def connection : DeviceConnection :=
  { availableDeviceTypes := [{ typeName := "ALSA" }], currentDeviceType := "ALSA",
    currentSetup := AudioDeviceSetup.default, currentAudioDevice := none,
    enabledMidiInputs := [], defaultMidiOutputName := "" }

/-- The first instrument of the worked engine. -/
def piano : Instrument :=
  { ptr := 1, body := { name := "Piano", instrumentID := "id-1", instrumentHash := "h-2",
                        processor := "" } }

/-- The second instrument of the worked engine; the hash of the first one
looks like an identifier of this one's family. -/
def organ : Instrument :=
  { ptr := 2, body := { name := "Organ", instrumentID := "id-2", instrumentHash := "h-1",
                        processor := "" } }

/-- An unmuted engine: the monitor (address 0) and two attached instruments. -/
def engine : AudioCore :=
  { deviceManager :=
      { connection := connection, callbacks := [0, 1, 2], midiCallbacks := [("", 1), ("", 2)] },
    instruments := [piano, organ], customMidiInputs := [], heapTop := 3, trace := [] }

/-- A plugin description. -/
def description : PluginDescription :=
  { name := "Piano", pluginFormatName := "BuiltIn", fileOrIdentifier := "piano" }

/-- The machine of `juce` with one MIDI input plugged in. -/
def usbJuce : Juce := { juce with midiInputDevices := ["USB MIDI"] }

/-- A device node that lists the given MIDI input names and nothing else. -/
def deviceDocument (names : List String) : ValueTree :=
  some (SharedObject.mk keys.audioDevice [] (names.map (AudioCore.midiInputEntry keys)))

/-- The worked engine with a MIDI input still open that is no longer plugged in. -/
def unpluggedEngine : AudioCore :=
  engine.withConnection { connection with enabledMidiInputs := ["Old Keys"] }

/-- The worked engine with the name of the plugged-in MIDI input retained. -/
def retainingEngine : AudioCore := { engine with customMidiInputs := ["USB MIDI"] }

/-- The worked engine on a machine whose only device type is `Y`, while the
device manager still names the type `Z` that it used before. -/
def engineY : AudioCore :=
  engine.withConnection
    { connection with availableDeviceTypes := [{ typeName := "Y" }], currentDeviceType := "Z" }

/-- A device node that declares the given device type and nothing else. -/
def typeDocument (type : String) : ValueTree :=
  some (SharedObject.mk keys.audioDevice [(keys.audioDeviceType, Var.string type)] [])

/-- The worked engine with both channel masks chosen by the user (the flags
for the default channels are off) and, as in `connection`, no open device. -/
def closedEngine : AudioCore :=
  engine.withConnection
    { connection with
      currentSetup :=
        { AudioDeviceSetup.default with
          inputChannels := 1, useDefaultInputChannels := false,
          outputChannels := 3, useDefaultOutputChannels := false } }

/-- The engine `closedEngine` with a device open. -/
def openEngine : AudioCore :=
  closedEngine.withConnection
    { closedEngine.deviceManager.connection with
      currentAudioDevice :=
        some { currentSampleRate := 44100, defaultBufferSize := 512,
               currentBufferSizeSamples := 512 } }

/-- An instrument node as `instrumentClass` writes it. -/
def instrumentNode (id hash : String) : SharedObject :=
  SharedObject.mk "instrument" [("id", Var.string id), ("hash", Var.string hash)] []

/-- The root of a document with the given instrument nodes under its orchestra
node, followed by an empty device node. -/
def documentRoot (nodes : List SharedObject) : SharedObject :=
  SharedObject.mk keys.audioCore []
    [SharedObject.mk keys.orchestra [] nodes, SharedObject.mk keys.audioDevice [] []]

/-- A document with two instrument nodes of one identifier. -/
def duplicateDocument : ValueTree :=
  some (documentRoot [instrumentNode "dup" "a", instrumentNode "dup" "b"])

/-- An instrument class whose identifier is a tally of the address. -/
def tallyClass : InstrumentClass :=
  { instrumentClass with
    construct := fun address name =>
      { name := name, instrumentID := String.mk (List.replicate address 'i'),
        instrumentHash := "", processor := "" } }

/-- A connection on a machine without any audio device type. -/
def bareConnection : DeviceConnection :=
  { connection with availableDeviceTypes := [], currentDeviceType := "" }

/-- The worked engine on the machine without any audio device type. -/
def bareEngine : AudioCore := engine.withConnection bareConnection

/-- A document with two instrument nodes under its orchestra node and without
a device node. -/
def orphanDocument : ValueTree :=
  some (SharedObject.mk keys.audioCore []
    [SharedObject.mk keys.orchestra [] [instrumentNode "id-7" "x", instrumentNode "id-8" "y"]])

/-- The machine of `juce` with a driver that refuses every device setup. -/
def stubbornJuce : Juce :=
  { juce with setAudioDeviceSetup := fun c _ _ => (c, "cannot open the device") }

end Demo

/-! ## Machine numbers -/

/-- The arithmetic of `float` as the sequencer code uses it, over the numbers
`F` that a `float` or a `double` can hold; not-a-number is left out, so that
`<` orders `F` linearly. The operations round as the machine does: nothing is
assumed of them here. -/
structure FloatOps (F : Type) where
  zero : F
  hundredth : F
  add : F → F → F
  sub : F → F → F
  abs : F → F

/-- Models `juce::jmax`. -/
def jmax {F : Type} [LinearOrder F] (a b : F) : F := if a < b then b else a

/-- Models `juce::jmin`. -/
def jmin {F : Type} [LinearOrder F] (a b : F) : F := if b < a then b else a

/-- The value an `int` holds after an arithmetic result wrapped around. -/
def wrapInt32 (x : Int) : Int := (x + 2 ^ 31) % 2 ^ 32 - 2 ^ 31

/-- The values of an `int`. -/
abbrev isInt32 (x : Int) : Prop := -(2 ^ 31) ≤ x ∧ x < 2 ^ 31

/-- Models `juce::String::compare` on the characters of two strings: the first
place where they differ decides, by code point, and a string that ends there
comes first. The result is -1, 0 or 1. -/
def compareChars : List Char → List Char → Int
  | [], [] => 0
  | [], _ :: _ => -1
  | _ :: _, [] => 1
  | a :: as, b :: bs =>
    if a.toNat < b.toNat then -1 else if b.toNat < a.toNat then 1 else compareChars as bs

/-- Models `juce::String::compare`. -/
def stringCompare (a b : String) : Int := compareChars a.data b.data

/-! ## The settings page -/

namespace Icons

/-- The enumerator `Icons::empty`. -/
def empty : Nat := 0

/-- The enumerator `Icons::apply`. -/
def apply : Nat := 26

end Icons

namespace UserInterfaceSettings

/-- A `juce::Font`, known by its typeface name. -/
structure Font where
  typefaceName : String
deriving DecidableEq, Repr

/-- The default-constructed `juce::Font`. -/
def Font.default : Font := { typefaceName := "<Sans-Serif>" }

/-- A `MenuItem` made by `MenuItem::item`. -/
structure MenuItem where
  iconId : Nat
  commandId : Int
  text : String
deriving DecidableEq, Repr

/-- Models `juce::Array::operator[]`: the element at the index, a
default-constructed one when the index is out of range. -/
def arrayGet (systemFonts : List Font) (index : Int) : Font :=
  if 0 ≤ index then (systemFonts[index.toNat]?).getD Font.default else Font.default

/-- The loop of the lambda `fontsMenuProvider` over `systemFonts`, from index
`i` on: one menu item per font, with the command `SelectFont + i`. -/
def fontsMenuItems (selectFont : Int) (lastUsedFontName : String) :
    Nat → List Font → List MenuItem
  | _, [] => []
  | i, font :: rest =>
    let typefaceName := font.typefaceName
    let isSelected : Bool := typefaceName = lastUsedFontName
    { iconId := if isSelected then Icons.apply else Icons.empty,
      commandId := selectFont + i, text := typefaceName } ::
      fontsMenuItems selectFont lastUsedFontName (i + 1) rest

/-- Embeds the lambda `fontsMenuProvider` of the constructor: `systemFonts` is
refilled with the fonts that `Font::findFonts` finds, and the menu is built
from it. Returns the new `systemFonts` and the menu. `selectFont` is
`CommandIDs::SelectFont`. -/
def fontsMenuProvider (selectFont : Int) (lastUsedFontName : String) (found : List Font) :
    List Font × List MenuItem :=
  let systemFonts := found
  (systemFonts, fontsMenuItems selectFont lastUsedFontName 0 systemFonts)

/-- Embeds `UserInterfaceSettings::handleCommandMessage`: for a command that
is taken as a font selection, the font index and the font handed to
`HelioTheme::updateFont`; `none` for a command that is ignored. -/
def handleCommandMessage (selectFont : Int) (systemFonts : List Font) (commandId : Int) :
    Option (Int × Font) :=
  if commandId ≥ selectFont ∧ commandId ≤ selectFont + systemFonts.length then
    let fontIndex := commandId - selectFont
    some (fontIndex, arrayGet systemFonts fontIndex)
  else none

end UserInterfaceSettings

/-! ## Automation event components -/

namespace AutomationEditorBase

/-- An `EventComponentBase *` with what `compareElements` reads through it:
the beat and the id of the event, and the beat of the clip. -/
structure EventComponentBase (F : Type) where
  ptr : Nat
  eventBeat : F
  clipBeat : F
  eventId : Int

/-- The beat of the component on the timeline, as `compareElements` adds it up. -/
def EventComponentBase.absoluteBeat {F : Type} (ops : FloatOps F) (c : EventComponentBase F) : F :=
  ops.add c.eventBeat c.clipBeat

/-- Embeds `EventComponentBase::compareElements`; the difference of the two
ids is an `int` and wraps around. -/
def compareElements {F : Type} [LinearOrder F] (ops : FloatOps F)
    (first second : EventComponentBase F) : Int :=
  if first.ptr = second.ptr then 0
  else
    let beatDiff := ops.sub (ops.add first.eventBeat first.clipBeat)
      (ops.add second.eventBeat second.clipBeat)
    let diffResult : Int :=
      (if beatDiff > ops.zero then 1 else 0) - (if beatDiff < ops.zero then 1 else 0)
    if diffResult ≠ 0 then diffResult
    else wrapInt32 (first.eventId - second.eventId)

/-- What is asked of the subtraction of `float`: the sign of a difference
tells which of the two numbers is the greater one. -/
structure SignOfDifference {F : Type} [LinearOrder F] (ops : FloatOps F) : Prop where
  pos : ∀ x y, ops.sub x y > ops.zero ↔ y < x
  neg : ∀ x y, ops.sub x y < ops.zero ↔ x < y

end AutomationEditorBase

namespace AutomationStepEventComponent

/-- An `AutomationEvent` as far as `drag` reads it. -/
structure AutomationEvent (F : Type) where
  id : Int
  beat : F
  controllerValue : F

/-- Models `AutomationEvent::withBeat`: a copy of the event at another beat. -/
def AutomationEvent.withBeat {F : Type} (e : AutomationEvent F) (beat : F) : AutomationEvent F :=
  { e with beat := beat }

/-- What `drag` does in the end: it asks the sequence to replace the event by
a copy at the new beat, or it only puts the component back in its place. -/
inductive DragOutcome (F : Type) where
  | change (oldEvent newEvent : AutomationEvent F)
  | keepInPlace

/-- The beat that `drag` settles on: the target beat, first raised to the
beat of the previous event plus the minimal length, then lowered to the
beat of the next event minus the minimal length. `none` stands for a
`getUnchecked` outside the sequence. -/
def clampedBeat {F : Type} [LinearOrder F] (ops : FloatOps F) (minLengthInBeats : F)
    (sequence : List (AutomationEvent F)) (myIndex : Int) (targetBeat : F) : Option F :=
  let newRoundBeat := targetBeat
  let hasPreviousEvent : Bool := myIndex > 0
  let hasNextEvent : Bool := myIndex < (sequence.length : Int) - 1
  let afterPrevious : Option F :=
    if hasPreviousEvent then
      (sequence[(myIndex - 1).toNat]?).map
        (fun previous => jmax (ops.add previous.beat minLengthInBeats) newRoundBeat)
    else some newRoundBeat
  match afterPrevious with
  | none => none
  | some newRoundBeat =>
    if hasNextEvent then
      if myIndex + 1 < 0 then none
      else
        (sequence[(myIndex + 1).toNat]?).map
          (fun next => jmin (ops.sub next.beat minLengthInBeats) newRoundBeat)
    else some newRoundBeat

/-- Embeds `AutomationStepEventComponent::drag`. `myIndex` is what
`sequence->indexOfSorted (&event)` returns, `minLengthInBeats` the constant of
the class. -/
def drag {F : Type} [LinearOrder F] (ops : FloatOps F) (minLengthInBeats : F)
    (sequence : List (AutomationEvent F)) (myIndex : Int) (event : AutomationEvent F)
    (targetBeat : F) : Option (DragOutcome F) :=
  match clampedBeat ops minLengthInBeats sequence myIndex targetBeat with
  | none => none
  | some newRoundBeat =>
    let newRoundDeltaBeat := ops.sub newRoundBeat event.beat
    if ops.abs newRoundDeltaBeat > ops.hundredth then
      some (DragOutcome.change event (event.withBeat newRoundBeat))
    else some DragOutcome.keepInPlace

/-- The sequence is sorted by beat. -/
def SortedByBeat {F : Type} [LinearOrder F] (sequence : List (AutomationEvent F)) : Prop :=
  sequence.Pairwise (fun a b => a.beat ≤ b.beat)

end AutomationStepEventComponent

/-! ## Synced configuration infos -/

namespace SyncedConfigurationInfo

/-- The identifiers of `Serialization::User::Configurations`
(SerializationKeys.h) used by `SyncedConfigurationInfo`. -/
structure ConfigurationKeys where
  resource : String
  type : String
  name : String
  hash : String
  updatedAt : String

/-- The fields of a `SyncedConfigurationInfo`: the type (an `Identifier`), the
name, the hash, and the update time in milliseconds. -/
structure Info where
  type : String
  name : String
  hash : String
  updatedAt : Int
deriving DecidableEq, Repr

/-- A `SyncedConfigurationInfo *` together with the object it points to. -/
structure InfoPtr where
  ptr : Nat
  info : Info
deriving DecidableEq, Repr

/-- Models `juce::var::operator int64`. -/
def varToInt64 (J : Juce) : Var → Int
  | Var.void => 0
  | Var.int v => v
  | Var.double v => J.doubleToInt v
  | Var.string v => J.stringToInt v

/-- Embeds `SyncedConfigurationInfo::serialize`, a `const` member.
`SerializedData` has the interface of `juce::ValueTree`. -/
def serialize (K : ConfigurationKeys) (x : Info) : ValueTree :=
  let root := ValueTree.create K.resource
  let root := ValueTree.setProperty root K.type (Var.string x.type)
  let root := ValueTree.setProperty root K.name (Var.string x.name)
  let root := ValueTree.setProperty root K.hash (Var.string x.hash)
  let root := ValueTree.setProperty root K.updatedAt (Var.int x.updatedAt)
  root

/-- Embeds `SyncedConfigurationInfo::reset`, whose body is empty. -/
def reset (x : Info) : Info := x

/-- The resource node that `deserialize` works on: the data itself when it has
the resource type, else its first child of that type. -/
def resourceNode (K : ConfigurationKeys) (data : ValueTree) : ValueTree :=
  if ValueTree.hasType data K.resource then data
  else ValueTree.getChildWithName data K.resource

/-- Embeds `SyncedConfigurationInfo::deserialize`. -/
def deserialize (J : Juce) (K : ConfigurationKeys) (x : Info) (data : ValueTree) : Info :=
  let x := reset x
  let root := if ValueTree.hasType data K.resource then data
    else ValueTree.getChildWithName data K.resource
  if !ValueTree.isValid root then x
  else
    let x := { x with type := AudioCore.varToString J (ValueTree.getProperty root K.type) }
    let x := { x with name := AudioCore.varToString J (ValueTree.getProperty root K.name) }
    let x := { x with hash := AudioCore.varToString J (ValueTree.getProperty root K.hash) }
    { x with updatedAt := varToInt64 J (ValueTree.getProperty root K.updatedAt) }

/-- Embeds `SyncedConfigurationInfo::compareElements (type, id, obj)`. -/
def compareElementsWith (type id : String) (obj : Info) : Int :=
  let typeCompare := stringCompare type obj.type
  if typeCompare = 0 then stringCompare id obj.name else typeCompare

/-- Embeds `SyncedConfigurationInfo::compareElements (first, second)`. -/
def compareElements (first second : InfoPtr) : Int :=
  if first.ptr = second.ptr then 0
  else compareElementsWith first.info.type first.info.name second.info

/-- Embeds `SyncedConfigurationInfo::equals`, for a resource of the given
type and id. -/
def equals (x : Info) (resourceType resourceId : String) : Bool :=
  x.type == resourceType && x.name == resourceId

end SyncedConfigurationInfo

/-! ## Worked inputs for the other components -/

namespace Demo

/-- Exact arithmetic on rational numbers: what `float` arithmetic is on beats
that are small multiples of a power of two. -/
def floatOps : FloatOps Rat :=
  { zero := 0, hundredth := 1 / 100, add := fun x y => x + y, sub := fun x y => x - y,
    abs := fun x => |x| }

/-- An event component at beat 0 with the id 0. -/
def firstComponent : AutomationEditorBase.EventComponentBase Rat :=
  { ptr := 1, eventBeat := 0, clipBeat := 0, eventId := 0 }

/-- Another event component at beat 0, with the least id an `int` can hold. -/
def farComponent : AutomationEditorBase.EventComponentBase Rat :=
  { ptr := 2, eventBeat := 0, clipBeat := 0, eventId := -2147483648 }

/-- An event component at beat 0 with the id 5. -/
def nearComponent : AutomationEditorBase.EventComponentBase Rat :=
  { ptr := 3, eventBeat := 0, clipBeat := 0, eventId := 5 }

/-- The event at index 1 of `pedalSequence`. -/
def middleEvent : AutomationStepEventComponent.AutomationEvent Rat :=
  { id := 2, beat := 1 / 8, controllerValue := 0 }

/-- A sorted sequence of three events within a quarter of a beat. -/
def pedalSequence : List (AutomationStepEventComponent.AutomationEvent Rat) :=
  [{ id := 1, beat := 0, controllerValue := 1 }, middleEvent,
   { id := 3, beat := 1 / 4, controllerValue := 1 }]

/-- A sorted sequence of three events, four beats apart. -/
def wideSequence : List (AutomationStepEventComponent.AutomationEvent Rat) :=
  [{ id := 1, beat := 0, controllerValue := 1 }, { id := 2, beat := 4, controllerValue := 0 },
   { id := 3, beat := 8, controllerValue := 1 }]

/-- Two system fonts. -/
def systemFonts : List UserInterfaceSettings.Font :=
  [{ typefaceName := "Arial" }, { typefaceName := "Courier" }]

/-- A value for `CommandIDs::SelectFont`. -/
def selectFont : Int := 4096

/-- Keys of the configuration resource, all different. -/
def configurationKeys : SyncedConfigurationInfo.ConfigurationKeys :=
  { resource := "resource", type := "type", name := "name", hash := "hash",
    updatedAt := "updatedAt" }

/-- The info of a synced colour scheme. -/
def schemeInfo : SyncedConfigurationInfo.Info :=
  { type := "colourSchemes", name := "Helio Theme v2", hash := "6f1ed002",
    updatedAt := 1546300800000 }

/-- The info of a synced arpeggiator. -/
def arpeggiatorInfo : SyncedConfigurationInfo.Info :=
  { type := "arpeggiators", name := "Waltz", hash := "a0b1", updatedAt := 0 }

end Demo

/-! ## Lookup -/

theorem containsChars_iff (text sub : List Char) :
    containsChars text sub = true ↔ sub <:+: text := by
  induction text with
  | nil => simp [containsChars, List.isPrefixOf_iff_prefix]
  | cons c text ih =>
    simp [containsChars, List.isPrefixOf_iff_prefix, List.infix_cons_iff, ih]

theorem contains_iff (text sub : String) :
    contains text sub = true ↔ sub.data <:+: text.data := by
  simp [contains, containsChars_iff]

theorem contains_eq_false_iff (text sub : String) :
    contains text sub = false ↔ ¬ sub.data <:+: text.data := by
  rw [← contains_iff]; simp

namespace AudioCore

theorem firstWhere_eq_none_iff (p : Instrument → Bool) (l : List Instrument) :
    firstWhere p l = none ↔ ∀ i ∈ l, p i = false := by
  induction l with
  | nil => simp [firstWhere]
  | cons i rest ih =>
    by_cases hp : p i = true
    · simp [firstWhere, hp]
    · simp [firstWhere, hp, ih]

theorem firstWhere_split (p : Instrument → Bool) (l : List Instrument)
    (h : ∃ i ∈ l, p i = true) :
    ∃ before found after, l = before ++ found :: after ∧ (∀ i ∈ before, p i = false) ∧
      p found = true ∧ firstWhere p l = some found := by
  induction l with
  | nil => simp at h
  | cons i rest ih =>
    by_cases hp : p i = true
    · exact ⟨[], i, rest, by simp, by simp, hp, by simp [firstWhere, hp]⟩
    · have h2 : ∃ j ∈ rest, p j = true := by
        obtain ⟨j, hj, hpj⟩ := h
        rcases List.mem_cons.mp hj with rfl | hj
        · exact absurd hpj hp
        · exact ⟨j, hj, hpj⟩
      obtain ⟨before, found, after, hl, hb, hf, hr⟩ := ih h2
      refine ⟨i :: before, found, after, by simp [hl], ?_, hf, by simp [firstWhere, hp, hr]⟩
      intro j hj
      rcases List.mem_cons.mp hj with rfl | hj
      · simpa using hp
      · exact hb j hj

/-! ### Traces -/

theorem events_emit (s : AudioCore) (e : Event) : (s.emit e).events = s.events ++ [e] := by
  simp [events, emit]

/-! ### addInstrument -/

theorem addInstrument_fst (C : InstrumentClass) (s : AudioCore) (d : PluginDescription) (n : String) :
    (addInstrument C s d n).1 =
      { ptr := s.heapTop, body := C.initializeFrom (C.construct s.heapTop n) d } := rfl

theorem addInstrument_instruments (C : InstrumentClass) (s : AudioCore) (d : PluginDescription)
    (n : String) :
    (addInstrument C s d n).2.instruments = s.instruments ++ [(addInstrument C s d n).1] := rfl

theorem addInstrument_events (C : InstrumentClass) (s : AudioCore) (d : PluginDescription)
    (n : String) :
    (addInstrument C s d n).2.events = s.events ++
      [Event.constructed s.heapTop, Event.audioCallbackAdded s.heapTop,
       Event.midiInputCallbackAdded "" s.heapTop, Event.initializedFrom s.heapTop,
       Event.addedToRegistry s.heapTop, Event.instrumentAdded s.heapTop] := by
  simp [addInstrument, newInstrument, addInstrumentToDevice, addAudioCallback, addMidiInputCallback,
    instrumentsAdd, broadcastInstrumentAdded, events, emit]

end AudioCore

/-! ## Lists without repetition -/

section Lists
variable {α : Type} [DecidableEq α]

theorem occurrences_eq_one (x : α) (l : List α) (hl : l.Nodup) (hx : x ∈ l) :
    occurrences x l = 1 := by
  have h := List.count_eq_one_of_mem hl hx
  unfold occurrences
  rw [List.count] at h
  rw [← h]
  congr 1

theorem removeFirstMatchingValue_eq_erase (x : α) (l : List α) :
    removeFirstMatchingValue x l = l.erase x := by
  induction l with
  | nil => rfl
  | cons y rest ih =>
    by_cases h : y = x
    · subst h; simp [removeFirstMatchingValue]
    · simp [removeFirstMatchingValue, h, List.erase_cons_tail, ih]

theorem withoutEach_eq_diff (l r : List α) : withoutEach l r = l.diff r := by
  rw [List.diff_eq_foldl]
  unfold withoutEach
  congr 1
  funext acc x
  exact removeFirstMatchingValue_eq_erase x acc

theorem withoutEach_nil (l : List α) : withoutEach l [] = l := rfl

theorem withoutEach_cons (l : List α) (x : α) (r : List α) :
    withoutEach l (x :: r) = withoutEach (removeFirstMatchingValue x l) r := rfl

theorem mem_withoutEach_iff (l r : List α) (hl : l.Nodup) (x : α) :
    x ∈ withoutEach l r ↔ x ∈ l ∧ x ∉ r := by
  rw [withoutEach_eq_diff]
  exact List.Nodup.mem_diff_iff hl

theorem withoutEach_nodup (l r : List α) (hl : l.Nodup) : (withoutEach l r).Nodup := by
  rw [withoutEach_eq_diff]
  exact hl.sublist (List.diff_sublist l r)

theorem withoutEach_eq_self (l r : List α) (h : ∀ x ∈ r, x ∉ l) : withoutEach l r = l := by
  induction r generalizing l with
  | nil => rfl
  | cons x r ih =>
    have hx : x ∉ l := h x (by simp)
    rw [withoutEach_cons, removeFirstMatchingValue_eq_erase, List.erase_of_not_mem hx]
    exact ih l (fun y hy => h y (by simp [hy]))

theorem withoutEach_withoutEach (l r : List α) (hl : l.Nodup) :
    withoutEach (withoutEach l r) r = withoutEach l r := by
  apply withoutEach_eq_self
  intro x hx hmem
  exact ((mem_withoutEach_iff l r hl x).mp hmem).2 hx

theorem withoutEach_append_self (l r : List α) (h : ∀ x ∈ r, x ∉ l) (hr : r.Nodup) :
    withoutEach (l ++ r) r = l := by
  induction r generalizing l with
  | nil => simp [withoutEach_nil]
  | cons x r ih =>
    have hx : x ∉ l := h x (by simp)
    have hxr : x ∉ r := (List.nodup_cons.mp hr).1
    rw [withoutEach_cons, removeFirstMatchingValue_eq_erase, List.erase_append_right _ hx]
    simp only [List.erase_cons_head]
    exact ih l (fun y hy => h y (by simp [hy])) (List.nodup_cons.mp hr).2

theorem removeFirstMatchingValue_append_singleton (l : List α) (x : α) (h : x ∉ l) :
    removeFirstMatchingValue x (l ++ [x]) = l := by
  rw [removeFirstMatchingValue_eq_erase, List.erase_append_right _ h]
  simp

theorem not_mem_removeFirstMatchingValue (l : List α) (x : α) (h : l.Nodup) :
    x ∉ removeFirstMatchingValue x l := by
  rw [removeFirstMatchingValue_eq_erase]
  exact fun hmem => (List.Nodup.mem_erase_iff h).mp hmem |>.1 rfl

end Lists

namespace AudioCore

/-! ### Detaching and attaching -/

theorem removeInstrumentFromDevice_deviceManager (s : AudioCore) (p : Nat) :
    (s.removeInstrumentFromDevice p).deviceManager =
      { s.deviceManager with
        callbacks := removeFirstMatchingValue p s.deviceManager.callbacks,
        midiCallbacks := removeFirstMatchingValue ("", p) s.deviceManager.midiCallbacks } := rfl

theorem removeInstrumentFromDevice_events (s : AudioCore) (p : Nat) :
    (s.removeInstrumentFromDevice p).events =
      s.events ++ [Event.audioCallbackRemoved p, Event.midiInputCallbackRemoved "" p] := by
  simp [removeInstrumentFromDevice, removeAudioCallback, removeMidiInputCallback, events, emit]

theorem addInstrumentToDevice_deviceManager (s : AudioCore) (p : Nat) :
    (s.addInstrumentToDevice p).deviceManager =
      { s.deviceManager with
        callbacks := s.deviceManager.callbacks ++ [p],
        midiCallbacks := s.deviceManager.midiCallbacks ++ [("", p)] } := rfl

theorem addInstrumentToDevice_events (s : AudioCore) (p : Nat) :
    (s.addInstrumentToDevice p).events =
      s.events ++ [Event.audioCallbackAdded p, Event.midiInputCallbackAdded "" p] := by
  simp [addInstrumentToDevice, addAudioCallback, addMidiInputCallback, events, emit]

theorem foldl_removeInstrumentFromDevice (l : List Instrument) (s : AudioCore) :
    (l.foldl (fun st i => st.removeInstrumentFromDevice i.ptr) s).deviceManager =
      { s.deviceManager with
        callbacks := withoutEach s.deviceManager.callbacks (ptrs l),
        midiCallbacks := withoutEach s.deviceManager.midiCallbacks (midiKeys l) } ∧
    (l.foldl (fun st i => st.removeInstrumentFromDevice i.ptr) s).instruments = s.instruments ∧
    (l.foldl (fun st i => st.removeInstrumentFromDevice i.ptr) s).customMidiInputs =
      s.customMidiInputs ∧
    (l.foldl (fun st i => st.removeInstrumentFromDevice i.ptr) s).heapTop = s.heapTop ∧
    (l.foldl (fun st i => st.removeInstrumentFromDevice i.ptr) s).events =
      s.events ++ l.flatMap
        (fun i => [Event.audioCallbackRemoved i.ptr, Event.midiInputCallbackRemoved "" i.ptr]) := by
  induction l generalizing s with
  | nil => simp [ptrs, midiKeys, withoutEach_nil]
  | cons i rest ih =>
    obtain ⟨h1, h2, h3, h4, h5⟩ := ih (s.removeInstrumentFromDevice i.ptr)
    refine ⟨?_, ?_, ?_, ?_, ?_⟩
    · simp only [List.foldl_cons, h1, removeInstrumentFromDevice_deviceManager]
      simp [ptrs, midiKeys, withoutEach_cons]
    · simp only [List.foldl_cons, h2]; rfl
    · simp only [List.foldl_cons, h3]; rfl
    · simp only [List.foldl_cons, h4]; rfl
    · simp only [List.foldl_cons, h5, removeInstrumentFromDevice_events]
      simp

theorem foldl_addInstrumentToDevice (l : List Instrument) (s : AudioCore) :
    (l.foldl (fun st i => st.addInstrumentToDevice i.ptr) s).deviceManager =
      { s.deviceManager with
        callbacks := s.deviceManager.callbacks ++ ptrs l,
        midiCallbacks := s.deviceManager.midiCallbacks ++ midiKeys l } ∧
    (l.foldl (fun st i => st.addInstrumentToDevice i.ptr) s).instruments = s.instruments ∧
    (l.foldl (fun st i => st.addInstrumentToDevice i.ptr) s).customMidiInputs =
      s.customMidiInputs ∧
    (l.foldl (fun st i => st.addInstrumentToDevice i.ptr) s).heapTop = s.heapTop ∧
    (l.foldl (fun st i => st.addInstrumentToDevice i.ptr) s).events =
      s.events ++ l.flatMap
        (fun i => [Event.audioCallbackAdded i.ptr, Event.midiInputCallbackAdded "" i.ptr]) := by
  induction l generalizing s with
  | nil => simp [ptrs, midiKeys]
  | cons i rest ih =>
    obtain ⟨h1, h2, h3, h4, h5⟩ := ih (s.addInstrumentToDevice i.ptr)
    refine ⟨?_, ?_, ?_, ?_, ?_⟩
    · simp only [List.foldl_cons, h1, addInstrumentToDevice_deviceManager]
      simp [ptrs, midiKeys]
    · simp only [List.foldl_cons, h2]; rfl
    · simp only [List.foldl_cons, h3]; rfl
    · simp only [List.foldl_cons, h4]; rfl
    · simp only [List.foldl_cons, h5, addInstrumentToDevice_events]
      simp

theorem mute_deviceManager (s : AudioCore) :
    s.mute.deviceManager =
      { s.deviceManager with
        callbacks := withoutEach s.deviceManager.callbacks (ptrs s.instruments),
        midiCallbacks := withoutEach s.deviceManager.midiCallbacks (midiKeys s.instruments) } :=
  (foldl_removeInstrumentFromDevice s.instruments s).1

theorem mute_instruments (s : AudioCore) : s.mute.instruments = s.instruments :=
  (foldl_removeInstrumentFromDevice s.instruments s).2.1

theorem mute_customMidiInputs (s : AudioCore) : s.mute.customMidiInputs = s.customMidiInputs :=
  (foldl_removeInstrumentFromDevice s.instruments s).2.2.1

theorem mute_heapTop (s : AudioCore) : s.mute.heapTop = s.heapTop :=
  (foldl_removeInstrumentFromDevice s.instruments s).2.2.2.1

theorem mute_events (s : AudioCore) :
    s.mute.events = s.events ++ s.instruments.flatMap
      (fun i => [Event.audioCallbackRemoved i.ptr, Event.midiInputCallbackRemoved "" i.ptr]) :=
  (foldl_removeInstrumentFromDevice s.instruments s).2.2.2.2

theorem unmute_deviceManager (s : AudioCore) :
    s.unmute.deviceManager =
      { s.deviceManager with
        callbacks := withoutEach s.deviceManager.callbacks (ptrs s.instruments) ++ ptrs s.instruments,
        midiCallbacks :=
          withoutEach s.deviceManager.midiCallbacks (midiKeys s.instruments) ++
            midiKeys s.instruments } := by
  unfold unmute
  simp only
  rw [(foldl_addInstrumentToDevice _ _).1, mute_instruments, mute_deviceManager]

theorem unmute_instruments (s : AudioCore) : s.unmute.instruments = s.instruments := by
  unfold unmute
  simp only
  rw [(foldl_addInstrumentToDevice _ _).2.1, mute_instruments]

theorem unmute_customMidiInputs (s : AudioCore) : s.unmute.customMidiInputs = s.customMidiInputs := by
  unfold unmute
  simp only
  rw [(foldl_addInstrumentToDevice _ _).2.2.1, mute_customMidiInputs]

theorem unmute_heapTop (s : AudioCore) : s.unmute.heapTop = s.heapTop := by
  unfold unmute
  simp only
  rw [(foldl_addInstrumentToDevice _ _).2.2.2.1, mute_heapTop]

theorem withoutTrace_eq_iff (a b : AudioCore) :
    a.withoutTrace = b.withoutTrace ↔
      a.deviceManager = b.deviceManager ∧ a.instruments = b.instruments ∧
      a.customMidiInputs = b.customMidiInputs ∧ a.heapTop = b.heapTop := by
  cases a; cases b
  simp [withoutTrace]

theorem mem_midiKeys (l : List Instrument) (k : String × Nat) :
    k ∈ midiKeys l ↔ ∃ i ∈ l, k = ("", i.ptr) := by
  simp [midiKeys, eq_comm]

theorem mem_ptrs (l : List Instrument) (p : Nat) : p ∈ ptrs l ↔ ∃ i ∈ l, i.ptr = p := by
  simp [ptrs]

theorem midiKeys_nodup (l : List Instrument) (h : (ptrs l).Nodup) : (midiKeys l).Nodup := by
  have : midiKeys l = (ptrs l).map (fun p => ("", p)) := by simp [midiKeys, ptrs]
  rw [this]
  exact h.map (fun a b hab => by simpa using hab)

/-! ### Removal -/

theorem ptrs_removeFirstAt (p : Nat) (l : List Instrument) :
    ptrs (removeFirstAt p l) = removeFirstMatchingValue p (ptrs l) := by
  induction l with
  | nil => rfl
  | cons i rest ih =>
    by_cases h : i.ptr = p
    · simp [removeFirstAt, ptrs, removeFirstMatchingValue, h]
    · simp only [ptrs] at ih
      simp [removeFirstAt, ptrs, removeFirstMatchingValue, h, ih]

theorem removeFirstAt_append_singleton (l : List Instrument) (i : Instrument)
    (h : i.ptr ∉ ptrs l) : removeFirstAt i.ptr (l ++ [i]) = l := by
  induction l with
  | nil => simp [removeFirstAt]
  | cons j rest ih =>
    have hj : j.ptr ≠ i.ptr := fun e => h (by simp [ptrs, e])
    have hrest : i.ptr ∉ ptrs rest := fun m => h (by simp only [ptrs] at m; simp [ptrs, m])
    simp [removeFirstAt, hj, ih hrest]

theorem any_ptr_eq_true_iff (l : List Instrument) (p : Nat) :
    l.any (fun i => decide (i.ptr = p)) = true ↔ p ∈ ptrs l := by
  simp [ptrs]

theorem removeInstrument_trace (s : AudioCore) (p : Nat) (h : p ∈ ptrs s.instruments) :
    (s.removeInstrument p).trace = s.trace ++
      [(Event.instrumentRemoved p, s.view),
       (Event.audioCallbackRemoved p, s.view),
       (Event.midiInputCallbackRemoved "" p,
         { s.view with callbacks := removeFirstMatchingValue p s.deviceManager.callbacks }),
       (Event.deleted p,
         { instruments := removeFirstAt p s.instruments,
           callbacks := removeFirstMatchingValue p s.deviceManager.callbacks,
           midiCallbacks := removeFirstMatchingValue ("", p) s.deviceManager.midiCallbacks }),
       (Event.instrumentRemovedPostAction,
         { instruments := removeFirstAt p s.instruments,
           callbacks := removeFirstMatchingValue p s.deviceManager.callbacks,
           midiCallbacks := removeFirstMatchingValue ("", p) s.deviceManager.midiCallbacks })] := by
  have hany := (any_ptr_eq_true_iff _ _).mpr h
  simp [removeInstrument, broadcastInstrumentRemoved, removeInstrumentFromDevice,
    removeAudioCallback, removeMidiInputCallback, instrumentsRemoveObject,
    broadcastInstrumentRemovedPostAction, emit, view, hany]

theorem removeInstrument_events (s : AudioCore) (p : Nat) (h : p ∈ ptrs s.instruments) :
    (s.removeInstrument p).events = s.events ++
      [Event.instrumentRemoved p, Event.audioCallbackRemoved p,
       Event.midiInputCallbackRemoved "" p, Event.deleted p,
       Event.instrumentRemovedPostAction] := by
  simp [events, removeInstrument_trace s p h]

theorem removeInstrument_instruments (s : AudioCore) (p : Nat) :
    (s.removeInstrument p).instruments = removeFirstAt p s.instruments := by
  by_cases h : p ∈ ptrs s.instruments
  · have hany := (any_ptr_eq_true_iff _ _).mpr h
    simp [removeInstrument, broadcastInstrumentRemoved, removeInstrumentFromDevice,
      removeAudioCallback, removeMidiInputCallback, instrumentsRemoveObject,
      broadcastInstrumentRemovedPostAction, emit, hany]
  · have hany : s.instruments.any (fun i => decide (i.ptr = p)) = false := by
      rw [← Bool.not_eq_true, any_ptr_eq_true_iff]; exact h
    have hsame : removeFirstAt p s.instruments = s.instruments := by
      have : ∀ l : List Instrument, p ∉ ptrs l → removeFirstAt p l = l := by
        intro l hl
        induction l with
        | nil => rfl
        | cons j rest ih =>
          have hj : j.ptr ≠ p := fun e => hl (by simp [ptrs, e])
          have hrest : p ∉ ptrs rest := fun m => hl (by simp only [ptrs] at m; simp [ptrs, m])
          simp [removeFirstAt, hj, ih hrest]
      exact this _ h
    simp [removeInstrument, broadcastInstrumentRemoved, removeInstrumentFromDevice,
      removeAudioCallback, removeMidiInputCallback, instrumentsRemoveObject,
      broadcastInstrumentRemovedPostAction, emit, hany, hsame]

theorem removeInstrument_deviceManager (s : AudioCore) (p : Nat) :
    (s.removeInstrument p).deviceManager =
      { s.deviceManager with
        callbacks := removeFirstMatchingValue p s.deviceManager.callbacks,
        midiCallbacks := removeFirstMatchingValue ("", p) s.deviceManager.midiCallbacks } := by
  unfold removeInstrument broadcastInstrumentRemovedPostAction instrumentsRemoveObject
  simp only
  split <;> rfl

theorem removeInstrument_customMidiInputs (s : AudioCore) (p : Nat) :
    (s.removeInstrument p).customMidiInputs = s.customMidiInputs := by
  unfold removeInstrument broadcastInstrumentRemovedPostAction instrumentsRemoveObject
  simp only
  split <;> rfl

theorem removeInstrument_heapTop (s : AudioCore) (p : Nat) :
    (s.removeInstrument p).heapTop = s.heapTop := by
  unfold removeInstrument broadcastInstrumentRemovedPostAction instrumentsRemoveObject
  simp only
  split <;> rfl

/-! ### reset -/

theorem reset_nil (s : AudioCore) (h : s.instruments = []) : s.reset = s := by
  rw [reset]
  simp [h]

theorem reset_cons (s : AudioCore) (first : Instrument) (rest : List Instrument)
    (h : s.instruments = first :: rest) : s.reset = (s.removeInstrument first.ptr).reset := by
  rw [reset]
  simp [h]

theorem reset_spec (l : List Instrument) (s : AudioCore) (h : s.instruments = l) :
    s.reset.instruments = [] ∧
    s.reset.events = s.events ++ l.flatMap
      (fun i => [Event.instrumentRemoved i.ptr, Event.audioCallbackRemoved i.ptr,
        Event.midiInputCallbackRemoved "" i.ptr, Event.deleted i.ptr,
        Event.instrumentRemovedPostAction]) ∧
    s.reset.deviceManager =
      { s.deviceManager with
        callbacks := withoutEach s.deviceManager.callbacks (ptrs l),
        midiCallbacks := withoutEach s.deviceManager.midiCallbacks (midiKeys l) } ∧
    s.reset.customMidiInputs = s.customMidiInputs ∧
    s.reset.heapTop = s.heapTop := by
  induction l generalizing s with
  | nil =>
    rw [reset_nil s h]
    simp [h, ptrs, midiKeys, withoutEach_nil]
  | cons first rest ih =>
    rw [reset_cons s first rest h]
    have hmem : first.ptr ∈ ptrs s.instruments := by simp [h, ptrs]
    have hrest : (s.removeInstrument first.ptr).instruments = rest := by
      rw [removeInstrument_instruments, h]
      simp [removeFirstAt]
    obtain ⟨h1, h2, h3, h4, h5⟩ := ih (s.removeInstrument first.ptr) hrest
    refine ⟨h1, ?_, ?_, ?_, ?_⟩
    · rw [h2, removeInstrument_events s _ hmem]
      simp
    · rw [h3, removeInstrument_deviceManager]
      simp [ptrs, midiKeys, withoutEach_cons]
    · rw [h4, removeInstrument_customMidiInputs]
    · rw [h5, removeInstrument_heapTop]

end AudioCore

/-! ## Value trees stay valid -/

namespace ValueTree

theorem validOfType_create (type : String) : ValidOfType type (create type) :=
  ⟨_, rfl, rfl⟩

theorem validOfType_setProperty {type : String} {t : ValueTree} (name : String) (v : Var)
    (h : ValidOfType type t) : ValidOfType type (setProperty t name v) := by
  obtain ⟨o, rfl, ht⟩ := h
  cases o with
  | mk ty props ch => exact ⟨_, rfl, ht⟩

theorem validOfType_appendChild {type : String} {t : ValueTree} (child : ValueTree)
    (h : ValidOfType type t) : ValidOfType type (appendChild t child) := by
  obtain ⟨o, rfl, ht⟩ := h
  cases o with
  | mk ty props ch =>
    cases child with
    | none => exact ⟨_, rfl, ht⟩
    | some c => exact ⟨_, rfl, ht⟩

theorem appendChild_some_none (type : String) (props : List (String × Var))
    (children : List SharedObject) :
    appendChild (some (SharedObject.mk type props children)) none =
      some (SharedObject.mk type props children) := rfl

theorem appendChild_some_some (type : String) (props : List (String × Var))
    (children : List SharedObject) (c : SharedObject) :
    appendChild (some (SharedObject.mk type props children)) (some c) =
      some (SharedObject.mk type props (children ++ [c])) := rfl

theorem validOfType_foldl_appendChild {type : String} (l : List ValueTree) {t : ValueTree}
    (h : ValidOfType type t) : ValidOfType type (l.foldl appendChild t) := by
  induction l generalizing t with
  | nil => exact h
  | cons c rest ih => exact ih (validOfType_appendChild c h)

end ValueTree

namespace AudioCore

/-! ### The document written by serialize -/

theorem serializeDeviceManager_valid (J : Juce) (K : SerializationKeys) (s : AudioCore) :
    ValueTree.ValidOfType K.audioDevice (serializeDeviceManager J K s) := by
  unfold serializeDeviceManager
  simp only
  repeat' first
    | apply ValueTree.validOfType_create
    | apply ValueTree.validOfType_setProperty
    | apply ValueTree.validOfType_foldl_appendChild
    | split

theorem foldl_serialize (C : InstrumentClass) (l : List Instrument) (type : String)
    (props : List (String × Var)) (children : List SharedObject) :
    l.foldl (fun orchestra instrument => ValueTree.appendChild orchestra (C.serialize instrument.body))
        (some (SharedObject.mk type props children)) =
      some (SharedObject.mk type props (children ++ l.filterMap (fun i => C.serialize i.body))) := by
  induction l generalizing children with
  | nil => simp
  | cons i rest ih =>
    cases hser : C.serialize i.body with
    | none =>
      simp only [List.foldl_cons, hser, ValueTree.appendChild_some_none, ih, List.filterMap_cons]
    | some node =>
      simp only [List.foldl_cons, hser, ValueTree.appendChild_some_some, ih, List.filterMap_cons,
        List.append_assoc, List.singleton_append]

theorem serialize_eq (J : Juce) (K : SerializationKeys) (C : InstrumentClass) (s : AudioCore) :
    ∃ device, device.type = K.audioDevice ∧
      serialize J K C s = some (SharedObject.mk K.audioCore []
        [SharedObject.mk K.orchestra [] (s.instruments.filterMap (fun i => C.serialize i.body)),
         device]) := by
  obtain ⟨device, hdev, htype⟩ := serializeDeviceManager_valid J K s
  refine ⟨device, htype, ?_⟩
  unfold serialize
  simp only [ValueTree.create, foldl_serialize, hdev, ValueTree.appendChild_some_some,
    List.nil_append, List.cons_append]

/-! ### Restoring -/

theorem autodetectDeviceSetup_frame (J : Juce) (s r : AudioCore)
    (h : autodetectDeviceSetup J s = some r) :
    r.instruments = s.instruments ∧ r.trace = s.trace ∧ r.heapTop = s.heapTop ∧
    r.deviceManager.callbacks = s.deviceManager.callbacks ∧
    r.deviceManager.midiCallbacks = s.deviceManager.midiCallbacks ∧
    r.customMidiInputs = s.customMidiInputs := by
  unfold autodetectDeviceSetup at h
  simp only at h
  split at h
  · split at h
    · exact absurd h (by simp)
    · injection h with h
      subst h
      simp [withConnection]
  · injection h with h
    subst h
    simp [withConnection]

theorem restoreDeviceManager_frame (J : Juce) (K : SerializationKeys) (s : AudioCore)
    (root : ValueTree) :
    (restoreDeviceManager J K s root).instruments = s.instruments ∧
    (restoreDeviceManager J K s root).trace = s.trace ∧
    (restoreDeviceManager J K s root).heapTop = s.heapTop ∧
    (restoreDeviceManager J K s root).deviceManager.callbacks = s.deviceManager.callbacks ∧
    (restoreDeviceManager J K s root).deviceManager.midiCallbacks =
      s.deviceManager.midiCallbacks :=
  ⟨rfl, rfl, rfl, rfl, rfl⟩

theorem deserializeDeviceManager_frame (J : Juce) (K : SerializationKeys) (s r : AudioCore)
    (tree : ValueTree) (h : deserializeDeviceManager J K s tree = some r) :
    r.instruments = s.instruments ∧ r.trace = s.trace ∧ r.heapTop = s.heapTop ∧
    r.deviceManager.callbacks = s.deviceManager.callbacks ∧
    r.deviceManager.midiCallbacks = s.deviceManager.midiCallbacks := by
  unfold deserializeDeviceManager at h
  generalize (if ValueTree.hasType tree K.audioDevice then tree
    else ValueTree.getChildWithName tree K.audioDevice) = root at h
  simp only at h
  split at h
  · obtain ⟨h1, h2, h3, h4, h5, -⟩ := autodetectDeviceSetup_frame J s r h
    exact ⟨h1, h2, h3, h4, h5⟩
  · injection h with h
    subst h
    exact restoreDeviceManager_frame J K s _

theorem deserializeDeviceManager_of_valid (J : Juce) (K : SerializationKeys) (s : AudioCore)
    (tree : ValueTree)
    (h : ValueTree.isValid (if ValueTree.hasType tree K.audioDevice then tree
      else ValueTree.getChildWithName tree K.audioDevice) = true) :
    deserializeDeviceManager J K s tree = some (restoreDeviceManager J K s
      (if ValueTree.hasType tree K.audioDevice then tree
        else ValueTree.getChildWithName tree K.audioDevice)) := by
  unfold deserializeDeviceManager
  simp only [h]
  rfl

theorem deserializeInstrument_instruments (C : InstrumentClass) (s : AudioCore)
    (node : SharedObject) :
    (deserializeInstrument C s node).instruments = s.instruments ++
      [{ ptr := s.heapTop, body := C.deserialize (C.construct s.heapTop "") node }] := rfl

theorem deserializeInstrument_heapTop (C : InstrumentClass) (s : AudioCore) (node : SharedObject) :
    (deserializeInstrument C s node).heapTop = s.heapTop + 1 := rfl

theorem deserializeInstrument_events (C : InstrumentClass) (s : AudioCore) (node : SharedObject) :
    (deserializeInstrument C s node).events = s.events ++
      [Event.constructed s.heapTop, Event.audioCallbackAdded s.heapTop,
       Event.midiInputCallbackAdded "" s.heapTop, Event.deserialized s.heapTop,
       Event.addedToRegistry s.heapTop] := by
  simp [deserializeInstrument, newInstrument, addInstrumentToDevice, addAudioCallback,
    addMidiInputCallback, instrumentsAdd, events, emit]

theorem foldl_deserializeInstrument (C : InstrumentClass) (nodes : List SharedObject)
    (s : AudioCore) :
    (nodes.foldl (deserializeInstrument C) s).instruments =
      s.instruments ++ restoredInstruments C s.heapTop nodes ∧
    (nodes.foldl (deserializeInstrument C) s).heapTop = s.heapTop + nodes.length ∧
    (nodes.foldl (deserializeInstrument C) s).events = s.events ++
      (List.range nodes.length).flatMap (fun k =>
        [Event.constructed (s.heapTop + k), Event.audioCallbackAdded (s.heapTop + k),
         Event.midiInputCallbackAdded "" (s.heapTop + k), Event.deserialized (s.heapTop + k),
         Event.addedToRegistry (s.heapTop + k)]) := by
  induction nodes generalizing s with
  | nil => simp [restoredInstruments]
  | cons node rest ih =>
    obtain ⟨h1, h2, h3⟩ := ih (deserializeInstrument C s node)
    refine ⟨?_, ?_, ?_⟩
    · rw [List.foldl_cons, h1, deserializeInstrument_instruments, deserializeInstrument_heapTop]
      simp [restoredInstruments]
    · rw [List.foldl_cons, h2, deserializeInstrument_heapTop]
      simp only [List.length_cons]
      omega
    · rw [List.foldl_cons, h3, deserializeInstrument_events, deserializeInstrument_heapTop]
      simp only [List.length_cons, List.range_succ_eq_map, List.flatMap_cons, List.flatMap_map,
        List.append_assoc, Nat.add_zero]
      congr 2
      apply List.flatMap_congr
      intro k _
      simp [Nat.add_assoc, Nat.add_comm 1 k]

/-- The `reset` of the worked engine: both instruments are removed in registry
order, each between its two broadcasts, and only the monitor stays
registered. -/
theorem reset_worked_engine :
    Demo.engine.reset.events =
      [Event.instrumentRemoved 1, Event.audioCallbackRemoved 1,
       Event.midiInputCallbackRemoved "" 1, Event.deleted 1, Event.instrumentRemovedPostAction,
       Event.instrumentRemoved 2, Event.audioCallbackRemoved 2,
       Event.midiInputCallbackRemoved "" 2, Event.deleted 2, Event.instrumentRemovedPostAction] ∧
    Demo.engine.reset.instruments = [] ∧
    Demo.engine.reset.deviceManager.callbacks = [0] ∧
    Demo.engine.reset.deviceManager.midiCallbacks = [] := by
  have h : Demo.engine.reset = (Demo.engine.removeInstrument 1).removeInstrument 2 := by
    rw [reset_cons Demo.engine Demo.piano [Demo.organ] rfl,
      reset_cons (Demo.engine.removeInstrument Demo.piano.ptr) Demo.organ [] rfl,
      reset_nil _ rfl]
    rfl
  rw [h]
  decide

theorem reset_instruments (s : AudioCore) : s.reset.instruments = [] :=
  (reset_spec s.instruments s rfl).1

theorem reset_heapTop (s : AudioCore) : s.reset.heapTop = s.heapTop :=
  (reset_spec s.instruments s rfl).2.2.2.2

theorem deserialize_spec (J : Juce) (K : SerializationKeys) (C : InstrumentClass)
    (s r : AudioCore) (tree : ValueTree) (h : deserialize J K C s tree = some r) :
    r.instruments = restoredInstruments C s.heapTop (instrumentNodes K tree) ∧
    r.events = s.reset.events ++
      (List.range (instrumentNodes K tree).length).flatMap (fun k =>
        [Event.constructed (s.heapTop + k), Event.audioCallbackAdded (s.heapTop + k),
         Event.midiInputCallbackAdded "" (s.heapTop + k), Event.deserialized (s.heapTop + k),
         Event.addedToRegistry (s.heapTop + k)]) := by
  unfold deserialize at h
  unfold instrumentNodes
  generalize (if ValueTree.hasType tree K.audioCore then tree
    else ValueTree.getChildWithName tree K.audioCore) = root at h ⊢
  simp only at h ⊢
  split at h
  · -- no audio core node: autodetect
    rename_i hroot
    obtain ⟨h1, h2, -⟩ := autodetectDeviceSetup_frame J _ _ h
    have hnone : root = none := by
      cases root with
      | none => rfl
      | some o => simp [ValueTree.isValid] at hroot
    subst hnone
    simp [ValueTree.getChildWithName, ValueTree.getChildren, restoredInstruments, h1,
      reset_instruments, events, h2]
  · split at h
    · exact absurd h (by simp)
    · rename_i s1 hdev
      obtain ⟨h1, h2, h3, -⟩ := deserializeDeviceManager_frame J K _ _ _ hdev
      have hev : s1.events = s.reset.events := by simp [events, h2]
      split at h
      · injection h with h
        subst h
        obtain ⟨f1, -, f3⟩ := foldl_deserializeInstrument C
          (ValueTree.getChildren (ValueTree.getChildWithName root K.orchestra)) s1
        rw [f1, f3, h1, h3, hev, reset_instruments, reset_heapTop]
        simp
      · rename_i horch
        injection h with h
        subst h
        have hnone : ValueTree.getChildWithName root K.orchestra = none := by
          cases hc : ValueTree.getChildWithName root K.orchestra with
          | none => rfl
          | some o => rw [hc] at horch; simp [ValueTree.isValid] at horch
        rw [hnone]
        simp [ValueTree.getChildren, restoredInstruments, h1, reset_instruments, hev]

theorem deserialize_isSome (J : Juce) (K : SerializationKeys) (C : InstrumentClass)
    (s : AudioCore) (root : SharedObject) (hroot : root.type = K.audioCore)
    (hdevice : ValueTree.isValid (if ValueTree.hasType (some root) K.audioDevice then some root
      else ValueTree.getChildWithName (some root) K.audioDevice) = true) :
    ∃ r, deserialize J K C s (some root) = some r := by
  unfold deserialize
  have htype : ValueTree.hasType (some root) K.audioCore = true := by
    simp [ValueTree.hasType, hroot]
  have hvalid : (!ValueTree.isValid (some root)) = false := by simp [ValueTree.isValid]
  simp only [htype, if_true, hvalid, Bool.false_eq_true, if_false]
  rw [deserializeDeviceManager_of_valid J K s.reset (some root) hdevice]
  simp only
  split
  · exact ⟨_, rfl⟩
  · exact ⟨_, rfl⟩

theorem restoredInstruments_keys (C : InstrumentClass) (l : List Instrument) (top : Nat)
    (hcodec : ∀ i ∈ l, ∃ node, C.serialize i.body = some node ∧
      ∀ address,
        (C.deserialize (C.construct address "") node).instrumentID = i.body.instrumentID ∧
        (C.deserialize (C.construct address "") node).instrumentHash = i.body.instrumentHash) :
    (restoredInstruments C top (l.filterMap (fun i => C.serialize i.body))).map
        (fun i => (i.getInstrumentID, i.getInstrumentHash)) =
      l.map (fun i => (i.getInstrumentID, i.getInstrumentHash)) := by
  induction l generalizing top with
  | nil => rfl
  | cons i rest ih =>
    obtain ⟨node, hser, hback⟩ := hcodec i (by simp)
    have hrest := ih (top + 1) (fun j hj => hcodec j (by simp [hj]))
    simp only [List.filterMap_cons, hser, restoredInstruments, List.map_cons, hrest]
    simp [Instrument.getInstrumentID, Instrument.getInstrumentHash, (hback top).1, (hback top).2]

end AudioCore

section Lists
variable {α : Type} [DecidableEq α]

theorem removeFirstMatchingValue_sublist (x : α) (l : List α) :
    (removeFirstMatchingValue x l).Sublist l := by
  rw [removeFirstMatchingValue_eq_erase]
  exact List.erase_sublist x l

theorem withoutEach_sublist (l r : List α) : (withoutEach l r).Sublist l := by
  rw [withoutEach_eq_diff]
  exact List.diff_sublist l r

end Lists

namespace AudioCore

/-! ### Engines that can arise are well formed -/

theorem ptrs_restoredInstruments (C : InstrumentClass) (top : Nat) (nodes : List SharedObject) :
    ptrs (restoredInstruments C top nodes) = List.range' top nodes.length := by
  induction nodes generalizing top with
  | nil => rfl
  | cons node rest ih =>
    have h := ih (top + 1)
    simp only [ptrs] at h
    simp [restoredInstruments, ptrs, h, List.range'_succ]

theorem deserializeInstrument_deviceManager (C : InstrumentClass) (s : AudioCore)
    (node : SharedObject) :
    (deserializeInstrument C s node).deviceManager =
      { s.deviceManager with
        callbacks := s.deviceManager.callbacks ++ [s.heapTop],
        midiCallbacks := s.deviceManager.midiCallbacks ++ [("", s.heapTop)] } := rfl

theorem foldl_deserializeInstrument_deviceManager (C : InstrumentClass)
    (nodes : List SharedObject) (s : AudioCore) :
    (nodes.foldl (deserializeInstrument C) s).deviceManager =
      { s.deviceManager with
        callbacks := s.deviceManager.callbacks ++ List.range' s.heapTop nodes.length,
        midiCallbacks := s.deviceManager.midiCallbacks ++
          (List.range' s.heapTop nodes.length).map (fun p => ("", p)) } := by
  induction nodes generalizing s with
  | nil => simp
  | cons node rest ih =>
    rw [List.foldl_cons, ih, deserializeInstrument_deviceManager, deserializeInstrument_heapTop]
    simp [List.range'_succ]

theorem wellFormed_create (connection : DeviceConnection) : WellFormed (create connection) := by
  constructor <;> simp [create, addAudioCallback, emit, ptrs]

theorem wellFormed_addInstrument (C : InstrumentClass) (s : AudioCore)
    (pluginDescription : PluginDescription) (name : String) (h : WellFormed s) :
    WellFormed (addInstrument C s pluginDescription name).2 := by
  have hdm : (addInstrument C s pluginDescription name).2.deviceManager =
      { s.deviceManager with
        callbacks := s.deviceManager.callbacks ++ [s.heapTop],
        midiCallbacks := s.deviceManager.midiCallbacks ++ [("", s.heapTop)] } := rfl
  have htop : (addInstrument C s pluginDescription name).2.heapTop = s.heapTop + 1 := rfl
  have hptrs : ptrs (addInstrument C s pluginDescription name).2.instruments =
      ptrs s.instruments ++ [s.heapTop] := by
    rw [addInstrument_instruments, addInstrument_fst]
    simp [ptrs]
  constructor
  · rw [hptrs, List.nodup_append]
    refine ⟨h.instruments_nodup, by simp, ?_⟩
    intro x hx hx2
    have := h.instruments_lt x hx
    simp at hx2
    omega
  · rw [hdm]
    simp only [List.nodup_append]
    refine ⟨h.callbacks_nodup, by simp, ?_⟩
    intro x hx hx2
    have := h.callbacks_lt x hx
    simp at hx2
    omega
  · rw [hdm]
    simp only [List.nodup_append]
    refine ⟨h.midiCallbacks_nodup, by simp, ?_⟩
    intro x hx hx2
    have := h.midiCallbacks_lt x hx
    simp at hx2
    subst hx2
    simp at this
  · intro p hp
    rw [hptrs] at hp
    rw [htop]
    rcases List.mem_append.mp hp with hp | hp
    · have := h.instruments_lt p hp; omega
    · simp at hp; omega
  · intro p hp
    rw [hdm] at hp
    rw [htop]
    rcases List.mem_append.mp hp with hp | hp
    · have := h.callbacks_lt p hp; omega
    · simp at hp; omega
  · intro k hk
    rw [hdm] at hk
    rw [htop]
    rcases List.mem_append.mp hk with hk | hk
    · have := h.midiCallbacks_lt k hk; omega
    · simp at hk; subst hk; simp

theorem wellFormed_removeInstrument (s : AudioCore) (p : Nat) (h : WellFormed s) :
    WellFormed (s.removeInstrument p) := by
  constructor
  · rw [removeInstrument_instruments, ptrs_removeFirstAt]
    exact h.instruments_nodup.sublist (removeFirstMatchingValue_sublist _ _)
  · rw [removeInstrument_deviceManager]
    exact h.callbacks_nodup.sublist (removeFirstMatchingValue_sublist _ _)
  · rw [removeInstrument_deviceManager]
    exact h.midiCallbacks_nodup.sublist (removeFirstMatchingValue_sublist _ _)
  · intro q hq
    rw [removeInstrument_instruments, ptrs_removeFirstAt] at hq
    rw [removeInstrument_heapTop]
    exact h.instruments_lt q ((removeFirstMatchingValue_sublist _ _).subset hq)
  · intro q hq
    rw [removeInstrument_deviceManager] at hq
    rw [removeInstrument_heapTop]
    exact h.callbacks_lt q ((removeFirstMatchingValue_sublist _ _).subset hq)
  · intro k hk
    rw [removeInstrument_deviceManager] at hk
    rw [removeInstrument_heapTop]
    exact h.midiCallbacks_lt k ((removeFirstMatchingValue_sublist _ _).subset hk)

theorem wellFormed_mute (s : AudioCore) (h : WellFormed s) : WellFormed s.mute := by
  constructor
  · rw [mute_instruments]; exact h.instruments_nodup
  · rw [mute_deviceManager]
    exact h.callbacks_nodup.sublist (withoutEach_sublist _ _)
  · rw [mute_deviceManager]
    exact h.midiCallbacks_nodup.sublist (withoutEach_sublist _ _)
  · intro q hq
    rw [mute_instruments] at hq
    rw [mute_heapTop]
    exact h.instruments_lt q hq
  · intro q hq
    rw [mute_deviceManager] at hq
    rw [mute_heapTop]
    exact h.callbacks_lt q ((withoutEach_sublist _ _).subset hq)
  · intro k hk
    rw [mute_deviceManager] at hk
    rw [mute_heapTop]
    exact h.midiCallbacks_lt k ((withoutEach_sublist _ _).subset hk)

theorem wellFormed_unmute (s : AudioCore) (h : WellFormed s) : WellFormed s.unmute := by
  have hkeys := midiKeys_nodup _ h.instruments_nodup
  constructor
  · rw [unmute_instruments]; exact h.instruments_nodup
  · rw [unmute_deviceManager]
    simp only [List.nodup_append]
    exact ⟨withoutEach_nodup _ _ h.callbacks_nodup, h.instruments_nodup,
      fun x hx hxr => ((mem_withoutEach_iff _ _ h.callbacks_nodup _).mp hx).2 hxr⟩
  · rw [unmute_deviceManager]
    simp only [List.nodup_append]
    exact ⟨withoutEach_nodup _ _ h.midiCallbacks_nodup, hkeys,
      fun x hx hxr => ((mem_withoutEach_iff _ _ h.midiCallbacks_nodup _).mp hx).2 hxr⟩
  · intro q hq
    rw [unmute_instruments] at hq
    rw [unmute_heapTop]
    exact h.instruments_lt q hq
  · intro q hq
    rw [unmute_deviceManager] at hq
    rw [unmute_heapTop]
    rcases List.mem_append.mp hq with hq | hq
    · exact h.callbacks_lt q ((withoutEach_sublist _ _).subset hq)
    · exact h.instruments_lt q hq
  · intro k hk
    rw [unmute_deviceManager] at hk
    rw [unmute_heapTop]
    rcases List.mem_append.mp hk with hk | hk
    · exact h.midiCallbacks_lt k ((withoutEach_sublist _ _).subset hk)
    · obtain ⟨i, hi, rfl⟩ := (mem_midiKeys _ _).mp hk
      exact h.instruments_lt i.ptr ((mem_ptrs _ _).mpr ⟨i, hi, rfl⟩)

theorem wellFormed_reset (s : AudioCore) (h : WellFormed s) : WellFormed s.reset := by
  obtain ⟨h1, -, h3, -, h5⟩ := reset_spec s.instruments s rfl
  constructor
  · rw [h1]; simp [ptrs]
  · rw [h3]
    exact h.callbacks_nodup.sublist (withoutEach_sublist _ _)
  · rw [h3]
    exact h.midiCallbacks_nodup.sublist (withoutEach_sublist _ _)
  · intro q hq
    rw [h1] at hq
    simp [ptrs] at hq
  · intro q hq
    rw [h3] at hq
    rw [h5]
    exact h.callbacks_lt q ((withoutEach_sublist _ _).subset hq)
  · intro k hk
    rw [h3] at hk
    rw [h5]
    exact h.midiCallbacks_lt k ((withoutEach_sublist _ _).subset hk)

theorem wellFormed_of_frame (s r : AudioCore) (h : WellFormed s)
    (hi : r.instruments = s.instruments) (ht : r.heapTop = s.heapTop)
    (hc : r.deviceManager.callbacks = s.deviceManager.callbacks)
    (hm : r.deviceManager.midiCallbacks = s.deviceManager.midiCallbacks) : WellFormed r := by
  constructor
  · rw [hi]; exact h.instruments_nodup
  · rw [hc]; exact h.callbacks_nodup
  · rw [hm]; exact h.midiCallbacks_nodup
  · rw [hi, ht]; exact h.instruments_lt
  · rw [hc, ht]; exact h.callbacks_lt
  · rw [hm, ht]; exact h.midiCallbacks_lt

theorem wellFormed_foldl_deserializeInstrument (C : InstrumentClass) (nodes : List SharedObject)
    (s : AudioCore) (h : WellFormed s) : WellFormed (nodes.foldl (deserializeInstrument C) s) := by
  induction nodes generalizing s with
  | nil => exact h
  | cons node rest ih =>
    rw [List.foldl_cons]
    apply ih
    have hptrs : ptrs (deserializeInstrument C s node).instruments =
        ptrs s.instruments ++ [s.heapTop] := by
      rw [deserializeInstrument_instruments]
      simp [ptrs]
    constructor
    · rw [hptrs, List.nodup_append]
      refine ⟨h.instruments_nodup, by simp, ?_⟩
      intro x hx hx2
      have := h.instruments_lt x hx
      simp at hx2
      omega
    · rw [deserializeInstrument_deviceManager]
      simp only [List.nodup_append]
      refine ⟨h.callbacks_nodup, by simp, ?_⟩
      intro x hx hx2
      have := h.callbacks_lt x hx
      simp at hx2
      omega
    · rw [deserializeInstrument_deviceManager]
      simp only [List.nodup_append]
      refine ⟨h.midiCallbacks_nodup, by simp, ?_⟩
      intro x hx hx2
      have := h.midiCallbacks_lt x hx
      simp at hx2
      subst hx2
      simp at this
    · intro p hp
      rw [hptrs] at hp
      rw [deserializeInstrument_heapTop]
      rcases List.mem_append.mp hp with hp | hp
      · have := h.instruments_lt p hp; omega
      · simp at hp; omega
    · intro p hp
      rw [deserializeInstrument_deviceManager] at hp
      rw [deserializeInstrument_heapTop]
      rcases List.mem_append.mp hp with hp | hp
      · have := h.callbacks_lt p hp; omega
      · simp at hp; omega
    · intro k hk
      rw [deserializeInstrument_deviceManager] at hk
      rw [deserializeInstrument_heapTop]
      rcases List.mem_append.mp hk with hk | hk
      · have := h.midiCallbacks_lt k hk; omega
      · simp at hk; subst hk; simp

theorem wellFormed_autodetectDeviceSetup (J : Juce) (s r : AudioCore) (h : WellFormed s)
    (hr : autodetectDeviceSetup J s = some r) : WellFormed r := by
  obtain ⟨h1, -, h3, h4, h5, -⟩ := autodetectDeviceSetup_frame J s r hr
  exact wellFormed_of_frame s r h h1 h3 h4 h5

theorem wellFormed_deserialize (J : Juce) (K : SerializationKeys) (C : InstrumentClass)
    (s r : AudioCore) (tree : ValueTree) (h : WellFormed s)
    (hr : deserialize J K C s tree = some r) : WellFormed r := by
  have hreset := wellFormed_reset s h
  unfold deserialize at hr
  generalize (if ValueTree.hasType tree K.audioCore then tree
    else ValueTree.getChildWithName tree K.audioCore) = root at hr
  simp only at hr
  split at hr
  · exact wellFormed_autodetectDeviceSetup J _ _ hreset hr
  · split at hr
    · exact absurd hr (by simp)
    · rename_i s1 hdev
      obtain ⟨h1, -, h3, h4, h5⟩ := deserializeDeviceManager_frame J K _ _ _ hdev
      have hs1 : WellFormed s1 := wellFormed_of_frame _ _ hreset h1 h3 h4 h5
      split at hr
      · injection hr with hr
        subst hr
        exact wellFormed_foldl_deserializeInstrument C _ s1 hs1
      · injection hr with hr
        subst hr
        exact hs1

/-- Every engine that the public members make of a newly constructed one is
well formed. -/
theorem wellFormed_of_reachable (J : Juce) (K : SerializationKeys) (C : InstrumentClass)
    (s : AudioCore) (h : Reachable J K C s) : WellFormed s := by
  induction h with
  | create connection => exact wellFormed_create connection
  | addInstrument d n _ ih => exact wellFormed_addInstrument C _ d n ih
  | removeInstrument p _ ih => exact wellFormed_removeInstrument _ p ih
  | mute _ ih => exact wellFormed_mute _ ih
  | unmute _ ih => exact wellFormed_unmute _ ih
  | reset _ ih => exact wellFormed_reset _ ih
  | initDefaultInstrument descriptions _ hr ih =>
    unfold AudioCore.initDefaultInstrument at hr
    split at hr
    · exact absurd hr (by simp)
    · injection hr with hr
      subst hr
      exact wellFormed_addInstrument C _ _ _ ih
  | autodetectDeviceSetup _ hr ih => exact wellFormed_autodetectDeviceSetup J _ _ ih hr
  | deserializeDeviceManager tree _ hr ih =>
    obtain ⟨h1, -, h3, h4, h5⟩ := deserializeDeviceManager_frame J K _ _ tree hr
    exact wellFormed_of_frame _ _ ih h1 h3 h4 h5
  | deserialize tree _ hr ih => exact wellFormed_deserialize J K C _ _ tree ih hr

/-- In a well-formed engine the next address is new to the registry and to the
device. -/
theorem WellFormed.fresh {s : AudioCore} (h : WellFormed s) :
    s.heapTop ∉ ptrs s.instruments ∧ s.heapTop ∉ s.deviceManager.callbacks ∧
    ("", s.heapTop) ∉ s.deviceManager.midiCallbacks := by
  refine ⟨fun hm => ?_, fun hm => ?_, fun hm => ?_⟩
  · have := h.instruments_lt _ hm; omega
  · have := h.callbacks_lt _ hm; omega
  · have := h.midiCallbacks_lt _ hm; simp at this

end AudioCore

namespace ValueTree

/-! ## Properties and children of the trees that are written -/

theorem any_setNamed (name : String) (v : Var) (props : List (String × Var)) (m : String) :
    (setNamed name v props).any (fun p => p.1 == m) =
      (name == m || props.any (fun p => p.1 == m)) := by
  induction props with
  | nil => simp [setNamed]
  | cons p rest ih =>
    by_cases hp : p.1 = name
    · subst hp
      simp [setNamed]
    · have hb : (p.1 == name) = false := by simpa using hp
      simp only [setNamed, hb, Bool.false_eq_true, if_false, List.any_cons, ih]
      cases (p.1 == m) <;> cases (name == m) <;> simp

theorem isValid_setProperty (t : ValueTree) (name : String) (v : Var) :
    isValid (setProperty t name v) = isValid t := by
  cases t with
  | none => rfl
  | some o => cases o; rfl

theorem isValid_appendChild (t child : ValueTree) :
    isValid (appendChild t child) = isValid t := by
  cases t with
  | none => rfl
  | some o => cases o; cases child <;> rfl

theorem isValid_foldl_appendChild (l : List ValueTree) (t : ValueTree) :
    isValid (l.foldl appendChild t) = isValid t := by
  induction l generalizing t with
  | nil => rfl
  | cons c rest ih => rw [List.foldl_cons, ih, isValid_appendChild]

theorem hasProperty_setProperty (t : ValueTree) (name : String) (v : Var) (m : String) :
    hasProperty (setProperty t name v) m = ((isValid t && name == m) || hasProperty t m) := by
  cases t with
  | none => rfl
  | some o =>
    cases o with
    | mk ty props ch =>
      simp [setProperty, hasProperty, SharedObject.properties, any_setNamed, isValid]

theorem hasProperty_appendChild (t child : ValueTree) (m : String) :
    hasProperty (appendChild t child) m = hasProperty t m := by
  cases t with
  | none => rfl
  | some o => cases o; cases child <;> rfl

theorem hasProperty_foldl_appendChild (l : List ValueTree) (t : ValueTree) (m : String) :
    hasProperty (l.foldl appendChild t) m = hasProperty t m := by
  induction l generalizing t with
  | nil => rfl
  | cons c rest ih => rw [List.foldl_cons, ih, hasProperty_appendChild]

theorem hasProperty_create (type m : String) : hasProperty (create type) m = false := rfl

theorem isValid_create (type : String) : isValid (create type) = true := rfl

theorem getChildren_create (type : String) : getChildren (create type) = [] := rfl

theorem getChildren_setProperty (t : ValueTree) (name : String) (v : Var) :
    getChildren (setProperty t name v) = getChildren t := by
  cases t with
  | none => rfl
  | some o => cases o; rfl

theorem getChildren_foldl_appendChild (l : List SharedObject) (t : ValueTree)
    (ht : isValid t = true) :
    getChildren ((l.map some).foldl appendChild t) = getChildren t ++ l := by
  induction l generalizing t with
  | nil => simp
  | cons c rest ih =>
    cases t with
    | none => simp [isValid] at ht
    | some o =>
      cases o with
      | mk ty props ch =>
        simp only [List.map_cons, List.foldl_cons, appendChild]
        rw [ih (some (SharedObject.mk ty props (ch ++ [c]))) rfl]
        simp [getChildren, SharedObject.children]

end ValueTree

namespace AudioCore

theorem midiInputNodes_eq (J : Juce) (K : SerializationKeys) (s : AudioCore) :
    midiInputNodes J K s = ((serializedMidiInputs J s).map (midiInputEntry K)).map some := by
  simp [midiInputNodes, serializedMidiInputs, midiInputEntry, ValueTree.create,
    ValueTree.setProperty, ValueTree.setNamed, Function.comp_def]

theorem serializeDeviceManager_children (J : Juce) (K : SerializationKeys) (s : AudioCore) :
    ValueTree.getChildren (serializeDeviceManager J K s) =
      (serializedMidiInputs J s).map (midiInputEntry K) := by
  unfold serializeDeviceManager
  simp only [midiInputNodes_eq]
  cases s.deviceManager.connection.currentAudioDevice <;>
    simp only [] <;> split_ifs <;>
    simp only [ValueTree.getChildren_setProperty, ValueTree.getChildren_foldl_appendChild,
      ValueTree.isValid_setProperty, ValueTree.isValid_create, ValueTree.getChildren_create,
      List.nil_append]

/-! ### MIDI inputs across a restore -/

theorem deserializeDeviceManager_eq (J : Juce) (K : SerializationKeys) (s : AudioCore)
    (tree : ValueTree) :
    deserializeDeviceManager J K s tree =
      if !ValueTree.isValid (deviceNode K tree) then autodetectDeviceSetup J s
      else some (restoreDeviceManager J K s (deviceNode K tree)) := rfl

theorem isMidiInputEnabled_iff (c : DeviceConnection) (name : String) :
    isMidiInputEnabled c name = true ↔ name ∈ c.enabledMidiInputs := by
  simp [isMidiInputEnabled]

theorem mem_setMidiInputEnabled (J : Juce) (c : DeviceConnection)
    (name : String) (enabled : Bool) (x : String) :
    x ∈ (setMidiInputEnabled J c name enabled).enabledMidiInputs ↔
      if x = name then
        enabled = true ∧ (name ∈ c.enabledMidiInputs ∨
          (name ∈ J.midiInputDevices ∧ J.canOpenMidiInput name = true))
      else x ∈ c.enabledMidiInputs := by
  unfold setMidiInputEnabled
  by_cases he : name ∈ c.enabledMidiInputs
  · have hen : isMidiInputEnabled c name = true := (isMidiInputEnabled_iff c name).mpr he
    cases enabled
    · -- disabling an enabled input
      simp only [hen, bne_iff_ne, ne_eq, Bool.false_eq_true, not_false_eq_true, if_true, if_false,
        not_true_eq_false, false_and, reduceCtorEq]
      by_cases hx : x = name
      · simp [hx]
      · simp [hx, List.mem_filter]
    · simp only [hen, bne_self_eq_false, Bool.false_eq_true, if_false, true_and]
      by_cases hx : x = name
      · simp [hx, he]
      · simp [hx]
  · have hen : isMidiInputEnabled c name = false := by
      rw [← Bool.not_eq_true, isMidiInputEnabled_iff]; exact he
    cases enabled
    · simp only [hen, bne_self_eq_false, Bool.false_eq_true, if_false, false_and]
      by_cases hx : x = name
      · simp [hx, he]
      · simp [hx]
    · simp only [hen, bne_iff_ne, ne_eq, not_false_eq_true, if_true, true_and, reduceCtorEq]
      by_cases ho : name ∈ J.midiInputDevices ∧ J.canOpenMidiInput name = true
      · have hob : (J.midiInputDevices.contains name && J.canOpenMidiInput name) = true := by
          simp [ho.1, ho.2]
        simp only [hob, if_true]
        by_cases hx : x = name
        · simp [hx, ho.1, ho.2]
        · simp [hx]
      · have hob : (J.midiInputDevices.contains name && J.canOpenMidiInput name) = false := by
          rw [← Bool.not_eq_true]
          intro h
          apply ho
          simpa using h
        simp only [hob, Bool.false_eq_true, if_false]
        by_cases hx : x = name
        · subst hx
          simp only [if_true]
          constructor
          · intro h; exact absurd h he
          · rintro (h | h)
            · exact absurd h he
            · exact absurd h ho
        · simp [hx]

theorem setMidiInputEnabled_defaultMidiOutputName (J : Juce) (c : DeviceConnection)
    (name : String) (enabled : Bool) :
    (setMidiInputEnabled J c name enabled).defaultMidiOutputName = c.defaultMidiOutputName := by
  unfold setMidiInputEnabled
  split
  · split
    · split <;> rfl
    · rfl
  · rfl

/-- The loop of `deserializeDeviceManager` over the plugged-in MIDI inputs. -/
theorem mem_foldl_setMidiInputEnabled (J : Juce) (saved allMidiIns : List String)
    (c : DeviceConnection) (x : String) :
    x ∈ (allMidiIns.foldl
        (fun c midiIn => setMidiInputEnabled J c midiIn (saved.contains midiIn)) c).enabledMidiInputs ↔
      if x ∈ allMidiIns then
        x ∈ saved ∧ (x ∈ c.enabledMidiInputs ∨
          (x ∈ J.midiInputDevices ∧ J.canOpenMidiInput x = true))
      else x ∈ c.enabledMidiInputs := by
  induction allMidiIns generalizing c with
  | nil => simp
  | cons m rest ih =>
    rw [List.foldl_cons, ih, mem_setMidiInputEnabled]
    have hc : saved.contains x = true ↔ x ∈ saved := by simp
    by_cases hxm : x = m
    · subst hxm
      by_cases hr : x ∈ rest
      · simp only [hr, if_true, List.mem_cons, true_or, hc]
        tauto
      · simp only [hr, if_false, if_true, List.mem_cons, true_or, hc]
    · by_cases hr : x ∈ rest
      · simp [hr, hxm]
      · simp [hr, hxm]

theorem foldl_setMidiInputEnabled_defaultMidiOutputName (J : Juce) (saved allMidiIns : List String)
    (c : DeviceConnection) :
    (allMidiIns.foldl
        (fun c midiIn => setMidiInputEnabled J c midiIn (saved.contains midiIn)) c).defaultMidiOutputName =
      c.defaultMidiOutputName := by
  induction allMidiIns generalizing c with
  | nil => rfl
  | cons m rest ih => rw [List.foldl_cons, ih, setMidiInputEnabled_defaultMidiOutputName]

/-- The connection that the body of `deserializeDeviceManager` leaves, call by
call. -/
theorem restoreDeviceManager_connection (J : Juce) (K : SerializationKeys) (s : AudioCore)
    (root : ValueTree) :
    (restoreDeviceManager J K s root).deviceManager.connection =
      setDefaultMidiOutput
        (if (J.setAudioDeviceSetup
              (J.setCurrentAudioDeviceType (J.scanDevicesIfNeeded s.deviceManager.connection)
                (selectDeviceType (J.scanDevicesIfNeeded s.deviceManager.connection).availableDeviceTypes
                  (varToString J (ValueTree.getProperty root K.audioDeviceType))) true)
              (savedDeviceSetup J K root) true).2 ≠ "" then
          (J.initialise
            (J.midiInputDevices.foldl
              (fun c midiIn => setMidiInputEnabled J c midiIn ((savedMidiInputs J K root).contains midiIn))
              (J.setAudioDeviceSetup
                (J.setCurrentAudioDeviceType (J.scanDevicesIfNeeded s.deviceManager.connection)
                  (selectDeviceType (J.scanDevicesIfNeeded s.deviceManager.connection).availableDeviceTypes
                    (varToString J (ValueTree.getProperty root K.audioDeviceType))) true)
                (savedDeviceSetup J K root) true).1) 0 2 false).1
        else
          J.midiInputDevices.foldl
            (fun c midiIn => setMidiInputEnabled J c midiIn ((savedMidiInputs J K root).contains midiIn))
            (J.setAudioDeviceSetup
              (J.setCurrentAudioDeviceType (J.scanDevicesIfNeeded s.deviceManager.connection)
                (selectDeviceType (J.scanDevicesIfNeeded s.deviceManager.connection).availableDeviceTypes
                  (varToString J (ValueTree.getProperty root K.audioDeviceType))) true)
              (savedDeviceSetup J K root) true).1)
        (varToString J (ValueTree.getProperty root K.defaultMidiOutput)) := rfl

theorem restoreDeviceManager_customMidiInputs (J : Juce) (K : SerializationKeys) (s : AudioCore)
    (root : ValueTree) :
    (restoreDeviceManager J K s root).customMidiInputs = savedMidiInputs J K root := rfl

theorem KeepsMidi.enabled_eq {c d : DeviceConnection} (h : midiState c = midiState d) :
    c.enabledMidiInputs = d.enabledMidiInputs := congrArg Prod.fst h

theorem KeepsMidi.output_eq {c d : DeviceConnection} (h : midiState c = midiState d) :
    c.defaultMidiOutputName = d.defaultMidiOutputName := congrArg Prod.snd h

theorem mem_restoreDeviceManager_enabledMidiInputs (J : Juce) (K : SerializationKeys)
    (s : AudioCore) (root : ValueTree) (hJ : KeepsMidi J) (x : String) :
    x ∈ (restoreDeviceManager J K s root).deviceManager.connection.enabledMidiInputs ↔
      if x ∈ J.midiInputDevices then
        x ∈ savedMidiInputs J K root ∧ (x ∈ s.deviceManager.connection.enabledMidiInputs ∨
          J.canOpenMidiInput x = true)
      else x ∈ s.deviceManager.connection.enabledMidiInputs := by
  rw [restoreDeviceManager_connection]
  have hdrv : (J.setAudioDeviceSetup
      (J.setCurrentAudioDeviceType (J.scanDevicesIfNeeded s.deviceManager.connection)
        (selectDeviceType (J.scanDevicesIfNeeded s.deviceManager.connection).availableDeviceTypes
          (varToString J (ValueTree.getProperty root K.audioDeviceType))) true)
      (savedDeviceSetup J K root) true).1.enabledMidiInputs =
      s.deviceManager.connection.enabledMidiInputs := by
    rw [KeepsMidi.enabled_eq (hJ.setAudioDeviceSetup _ _ _),
      KeepsMidi.enabled_eq (hJ.setCurrentAudioDeviceType _ _ _),
      KeepsMidi.enabled_eq (hJ.scanDevicesIfNeeded _)]
  have hsame : ∀ c : DeviceConnection, (setDefaultMidiOutput c
      (varToString J (ValueTree.getProperty root K.defaultMidiOutput))).enabledMidiInputs =
      c.enabledMidiInputs := fun _ => rfl
  rw [hsame]
  split
  · rw [KeepsMidi.enabled_eq (hJ.initialise _ _ _ _), mem_foldl_setMidiInputEnabled, hdrv]
    by_cases hx : x ∈ J.midiInputDevices
    · simp [hx]
    · simp [hx]
  · rw [mem_foldl_setMidiInputEnabled, hdrv]
    by_cases hx : x ∈ J.midiInputDevices
    · simp [hx]
    · simp [hx]

theorem autodetectDeviceSetup_midiState (J : Juce) (s r : AudioCore) (hJ : KeepsMidi J)
    (h : autodetectDeviceSetup J s = some r) :
    midiState r.deviceManager.connection = midiState s.deviceManager.connection := by
  unfold autodetectDeviceSetup at h
  simp only at h
  split at h
  · split at h
    · exact absurd h (by simp)
    · injection h with h
      subst h
      simp only [withConnection]
      rw [hJ.setAudioDeviceSetup, hJ.scanForDevices, hJ.setCurrentAudioDeviceType,
        hJ.scanDevicesIfNeeded, hJ.initialise]
  · injection h with h
    subst h
    simp only [withConnection]
    rw [hJ.initialise]

end AudioCore

namespace ValueTree

end ValueTree

namespace AudioCore

/-! ### The worked machines -/

theorem keepsMidi_juce : KeepsMidi Demo.juce :=
  ⟨fun _ => rfl, fun _ _ _ _ => rfl, fun _ _ _ => rfl, fun _ _ => rfl, fun _ _ _ => rfl⟩

theorem keepsMidi_usbJuce : KeepsMidi Demo.usbJuce :=
  ⟨fun _ => rfl, fun _ _ _ _ => rfl, fun _ _ _ => rfl, fun _ _ => rfl, fun _ _ _ => rfl⟩

/-! ### MIDI input entries that are written -/

theorem equalsIgnoreCase_self (a : String) : equalsIgnoreCase a a = true := by
  simp [equalsIgnoreCase]

theorem mem_serializedMidiInputs (J : Juce) (s : AudioCore) (name : String) :
    name ∈ serializedMidiInputs J s ↔
      (name ∈ J.midiInputDevices ∧ name ∈ s.deviceManager.connection.enabledMidiInputs) ∨
      (name ∈ s.customMidiInputs ∧ ∀ d ∈ J.midiInputDevices, equalsIgnoreCase d name = false) := by
  simp [serializedMidiInputs, isMidiInputEnabled]

/-! ### The device type chosen on restore -/

theorem foldl_found_eq_none_iff (types : List AudioIODeviceType) (saved : String)
    (found : Option AudioIODeviceType) :
    types.foldl (fun found availableType =>
        if availableType.typeName = saved then some availableType else found) found = none ↔
      found = none ∧ ∀ t ∈ types, t.typeName ≠ saved := by
  induction types generalizing found with
  | nil => simp
  | cons t rest ih =>
    rw [List.foldl_cons, ih]
    by_cases ht : t.typeName = saved
    · simp [ht]
    · simp [ht]

theorem selectDeviceType_of_mem (types : List AudioIODeviceType) (saved : String)
    (h : ∃ t ∈ types, t.typeName = saved) : selectDeviceType types saved = saved := by
  unfold selectDeviceType
  simp only
  split
  · rename_i hfound
    rw [foldl_found_eq_none_iff] at hfound
    obtain ⟨t, ht, hname⟩ := h
    exact absurd hname (hfound.2 t ht)
  · rfl

theorem selectDeviceType_of_not_mem (first : AudioIODeviceType) (rest : List AudioIODeviceType)
    (saved : String) (h : ∀ t ∈ first :: rest, t.typeName ≠ saved) :
    selectDeviceType (first :: rest) saved = first.typeName := by
  have hfound := (foldl_found_eq_none_iff (first :: rest) saved none).mpr ⟨rfl, h⟩
  unfold selectDeviceType
  simp only [hfound]

theorem selectDeviceType_mem (types : List AudioIODeviceType) (saved : String)
    (h : types ≠ []) : ∃ t ∈ types, t.typeName = selectDeviceType types saved := by
  by_cases hs : ∃ t ∈ types, t.typeName = saved
  · obtain ⟨t, ht, hname⟩ := hs
    exact ⟨t, ht, by rw [selectDeviceType_of_mem types saved ⟨t, ht, hname⟩, hname]⟩
  · cases types with
    | nil => exact absurd rfl h
    | cons first rest =>
      refine ⟨first, by simp, ?_⟩
      rw [selectDeviceType_of_not_mem]
      intro t ht hname
      exact hs ⟨t, ht, hname⟩

/-! ### Channel masks that are read -/

theorem autodetectDeviceSetup_isSome (J : Juce) (s : AudioCore)
    (h : (J.scanDevicesIfNeeded
      (J.initialise s.deviceManager.connection 0 2 true).1).availableDeviceTypes ≠ []) :
    ∃ r, autodetectDeviceSetup J s = some r := by
  unfold autodetectDeviceSetup
  simp only
  split
  · cases htypes : (J.scanDevicesIfNeeded
        (J.initialise s.deviceManager.connection 0 2 true).1).availableDeviceTypes with
    | nil => exact absurd htypes h
    | cons first rest => exact ⟨_, rfl⟩
  · exact ⟨_, rfl⟩

theorem reset_connection (s : AudioCore) :
    s.reset.deviceManager.connection = s.deviceManager.connection := by
  rw [(reset_spec s.instruments s rfl).2.2.1]

theorem deserializeDeviceManager_isSome (J : Juce) (K : SerializationKeys) (s : AudioCore)
    (tree : ValueTree)
    (h : ValueTree.isValid (deviceNode K tree) = true ∨
      (J.scanDevicesIfNeeded
        (J.initialise s.deviceManager.connection 0 2 true).1).availableDeviceTypes ≠ []) :
    ∃ r, deserializeDeviceManager J K s tree = some r := by
  rw [deserializeDeviceManager_eq]
  split
  · rcases h with h | h
    · rename_i hn
      rw [h] at hn
      exact absurd hn (by simp)
    · exact autodetectDeviceSetup_isSome J s h
  · exact ⟨_, rfl⟩

theorem deserialize_eq (J : Juce) (K : SerializationKeys) (C : InstrumentClass)
    (s : AudioCore) (tree : ValueTree) :
    deserialize J K C s tree =
      if !ValueTree.isValid (coreNode K tree) then autodetectDeviceSetup J s.reset
      else
        match deserializeDeviceManager J K s.reset (coreNode K tree) with
        | none => none
        | some s1 =>
          if ValueTree.isValid (ValueTree.getChildWithName (coreNode K tree) K.orchestra) then
            some ((ValueTree.getChildren
              (ValueTree.getChildWithName (coreNode K tree) K.orchestra)).foldl
                (deserializeInstrument C) s1)
          else some s1 := rfl

theorem deserialize_returns (J : Juce) (K : SerializationKeys) (C : InstrumentClass)
    (s : AudioCore) (tree : ValueTree)
    (hdevice : (ValueTree.isValid (coreNode K tree) = true ∧
        ValueTree.isValid (deviceNode K (coreNode K tree)) = true) ∨
      (J.scanDevicesIfNeeded
        (J.initialise s.deviceManager.connection 0 2 true).1).availableDeviceTypes ≠ []) :
    ∃ r, deserialize J K C s tree = some r := by
  rw [deserialize_eq]
  split
  · rename_i hcore
    rcases hdevice with h | h
    · rw [h.1] at hcore
      exact absurd hcore (by simp)
    · exact autodetectDeviceSetup_isSome J s.reset (by rw [reset_connection]; exact h)
  · obtain ⟨s1, hs1⟩ := deserializeDeviceManager_isSome J K s.reset (coreNode K tree)
      (by
        rcases hdevice with h | h
        · exact Or.inl h.2
        · exact Or.inr (by rw [reset_connection]; exact h))
    rw [hs1]
    simp only
    split
    · exact ⟨_, rfl⟩
    · exact ⟨_, rfl⟩

theorem getElem_restoredInstruments (C : InstrumentClass) (nodes : List SharedObject)
    (top i : Nat) :
    (restoredInstruments C top nodes)[i]? =
      nodes[i]?.map (fun node =>
        Instrument.mk (top + i) (C.deserialize (C.construct (top + i) "") node)) := by
  induction nodes generalizing top i with
  | nil => simp [restoredInstruments]
  | cons node rest ih =>
    cases i with
    | zero => simp [restoredInstruments]
    | succ i =>
      simp only [restoredInstruments, List.getElem?_cons_succ, ih]
      have : top + 1 + i = top + (i + 1) := by omega
      rw [this]

theorem length_restoredInstruments (C : InstrumentClass) (nodes : List SharedObject) (top : Nat) :
    (restoredInstruments C top nodes).length = nodes.length := by
  have h := congrArg List.length (ptrs_restoredInstruments C top nodes)
  simpa [ptrs] using h

/-! ### Identifiers in the registry -/

theorem reachable_of_arises (J : Juce) (K : SerializationKeys) (C : InstrumentClass)
    (documents : Bool) (s : AudioCore) (h : Arises J K C documents s) : Reachable J K C s := by
  induction h with
  | create connection => exact Reachable.create connection
  | addInstrument d n _ ih => exact Reachable.addInstrument d n ih
  | removeInstrument p _ ih => exact Reachable.removeInstrument p ih
  | mute _ ih => exact Reachable.mute ih
  | unmute _ ih => exact Reachable.unmute ih
  | reset _ ih => exact Reachable.reset ih
  | deserialize tree _ _ hr ih => exact Reachable.deserialize tree ih hr

theorem mem_removeFirstAt (p : Nat) (l : List Instrument) (i : Instrument)
    (h : i ∈ removeFirstAt p l) : i ∈ l := by
  induction l with
  | nil => simp [removeFirstAt] at h
  | cons j rest ih =>
    simp only [removeFirstAt] at h
    split at h
    · exact List.mem_cons_of_mem _ h
    · rcases List.mem_cons.mp h with h | h
      · simp [h]
      · exact List.mem_cons_of_mem _ (ih h)

/-- Without documents, every identifier in the registry is the one that the
constructor drew at the address of its instrument. -/
theorem identifier_of_arises (J : Juce) (K : SerializationKeys) (C : InstrumentClass)
    (hC : FreshIdentifiers C) (s : AudioCore) (h : Arises J K C false s) :
    ∀ i ∈ s.instruments, ∃ n, i.body.instrumentID = (C.construct i.ptr n).instrumentID := by
  induction h with
  | create connection => intro i hi; simp [create, addAudioCallback, emit] at hi
  | addInstrument d n _ ih =>
    intro i hi
    rw [addInstrument_instruments, List.mem_append, List.mem_singleton] at hi
    rcases hi with hi | hi
    · exact ih i hi
    · subst hi
      exact ⟨n, by rw [addInstrument_fst]; exact hC.initializeFrom _ _⟩
  | removeInstrument p _ ih =>
    intro i hi
    rw [removeInstrument_instruments] at hi
    exact ih i (mem_removeFirstAt p _ i hi)
  | mute _ ih => intro i hi; rw [mute_instruments] at hi; exact ih i hi
  | unmute _ ih => intro i hi; rw [unmute_instruments] at hi; exact ih i hi
  | reset _ ih => intro i hi; rw [reset_instruments] at hi; simp at hi
  | deserialize tree hdoc _ _ _ => exact absurd hdoc (by simp)

theorem freshIdentifiers_tallyClass : FreshIdentifiers Demo.tallyClass := by
  refine ⟨?_, fun _ _ => rfl⟩
  intro a b n m hab h
  apply hab
  have h2 : String.mk (List.replicate a 'i') = String.mk (List.replicate b 'i') := h
  have h3 := congrArg (fun t => t.data.length) h2
  simpa using h3

end AudioCore

/-! ## Machine numbers and strings -/

theorem wrapInt32_of_isInt32 (x : Int) (h : isInt32 x) : wrapInt32 x = x := by
  unfold wrapInt32
  unfold isInt32 at h
  omega

theorem wrapInt32_sub_eq_zero_iff (a b : Int) (ha : isInt32 a) (hb : isInt32 b) :
    wrapInt32 (a - b) = 0 ↔ a = b := by
  unfold wrapInt32
  unfold isInt32 at ha hb
  omega

theorem jmax_eq_max {F : Type} [LinearOrder F] (a b : F) : jmax a b = max a b := by
  unfold jmax
  split
  · rw [max_eq_right (le_of_lt ‹a < b›)]
  · rw [max_eq_left (not_lt.mp ‹¬a < b›)]

theorem jmin_eq_min {F : Type} [LinearOrder F] (a b : F) : jmin a b = min a b := by
  unfold jmin
  split
  · rw [min_eq_right (le_of_lt ‹b < a›)]
  · rw [min_eq_left (not_lt.mp ‹¬b < a›)]

theorem compareChars_swap (a b : List Char) : compareChars b a = -compareChars a b := by
  induction a generalizing b with
  | nil => cases b <;> simp [compareChars]
  | cons x xs ih =>
    cases b with
    | nil => simp [compareChars]
    | cons y ys =>
      simp only [compareChars]
      by_cases h1 : x.toNat < y.toNat
      · have h2 : ¬y.toNat < x.toNat := by omega
        simp [h1, h2]
      · by_cases h2 : y.toNat < x.toNat
        · simp [h1, h2]
        · simp [h1, h2, ih]

theorem compareChars_eq_zero_iff (a b : List Char) : compareChars a b = 0 ↔ a = b := by
  induction a generalizing b with
  | nil => cases b <;> simp [compareChars]
  | cons x xs ih =>
    cases b with
    | nil => simp [compareChars]
    | cons y ys =>
      simp only [compareChars]
      by_cases h1 : x.toNat < y.toNat
      · have hne : x ≠ y := fun e => by subst e; exact Nat.lt_irrefl _ h1
        simp [h1, hne]
      · by_cases h2 : y.toNat < x.toNat
        · have hne : x ≠ y := fun e => by subst e; exact Nat.lt_irrefl _ h2
          simp [h1, h2, hne]
        · have hxy : x = y := by
            have hn : x.toNat = y.toNat := by omega
            rw [← Char.ofNat_toNat x, ← Char.ofNat_toNat y, hn]
          simp [h1, h2, ih, hxy]

theorem stringCompare_swap (a b : String) : stringCompare b a = -stringCompare a b :=
  compareChars_swap a.data b.data

theorem stringCompare_eq_zero_iff (a b : String) : stringCompare a b = 0 ↔ a = b := by
  unfold stringCompare
  rw [compareChars_eq_zero_iff]
  exact ⟨String.ext, fun h => by rw [h]⟩

namespace ValueTree

theorem find_setNamed (name : String) (v : Var) (props : List (String × Var)) (m : String) :
    ((setNamed name v props).find? (fun p => p.1 == m)).map Prod.snd =
      if name = m then some v else (props.find? (fun p => p.1 == m)).map Prod.snd := by
  induction props with
  | nil =>
    by_cases h : name = m
    · simp [setNamed, h]
    · simp [setNamed, h]
  | cons p rest ih =>
    by_cases hp : p.1 = name
    · by_cases h : name = m
      · simp [setNamed, hp, h]
      · have hpm : ¬p.1 = m := fun e => h (hp ▸ e)
        simp [setNamed, hp, h, hpm, List.find?_cons]
    · have hb : (p.1 == name) = false := by simpa using hp
      simp only [setNamed, hb, Bool.false_eq_true, if_false, List.find?_cons]
      by_cases hpm : p.1 = m
      · have hnm : ¬name = m := fun e => hp (hpm.trans e.symm)
        simp [hpm, hnm]
      · have hb2 : (p.1 == m) = false := by simpa using hpm
        simp only [hb2, ih]

theorem getProperty_setProperty (t : ValueTree) (name : String) (v : Var) (m : String) :
    getProperty (setProperty t name v) m =
      if isValid t = true ∧ name = m then v else getProperty t m := by
  cases t with
  | none => simp [setProperty, getProperty, isValid]
  | some o =>
    cases o with
    | mk ty props ch =>
      simp only [setProperty, getProperty, SharedObject.properties, find_setNamed, isValid,
        Option.isSome_some, true_and]
      by_cases h : name = m
      · simp [h]
      · simp [h]

theorem hasType_setProperty (t : ValueTree) (name : String) (v : Var) (type : String) :
    hasType (setProperty t name v) type = hasType t type := by
  cases t with
  | none => rfl
  | some o => cases o; rfl

theorem hasType_create (type : String) : hasType (create type) type = true := by
  simp [hasType, create, SharedObject.type]

end ValueTree

namespace AudioCore

/-! ### The calls of a restore -/

theorem foldl_setMidiInputEnabled_logged (J : Juce) (saved allMidiIns : List String)
    (c : DeviceConnection) (calls : List DeviceCall) :
    allMidiIns.foldl
        (fun state midiIn =>
          (setMidiInputEnabled J state.1 midiIn (saved.contains midiIn),
            state.2 ++ [DeviceCall.setMidiInputEnabled midiIn (saved.contains midiIn)]))
        (c, calls) =
      (allMidiIns.foldl (fun c midiIn => setMidiInputEnabled J c midiIn (saved.contains midiIn)) c,
        calls ++ allMidiIns.map (fun midiIn =>
          DeviceCall.setMidiInputEnabled midiIn (saved.contains midiIn))) := by
  induction allMidiIns generalizing c calls with
  | nil => simp
  | cons m rest ih =>
    rw [List.foldl_cons, ih, List.foldl_cons, List.map_cons, List.append_assoc,
      List.singleton_append]

theorem restoreDeviceManagerLogged_fst (J : Juce) (K : SerializationKeys) (s : AudioCore)
    (root : ValueTree) :
    (restoreDeviceManagerLogged J K s root).1 = restoreDeviceManager J K s root := by
  unfold restoreDeviceManagerLogged restoreDeviceManager
  simp only [foldl_setMidiInputEnabled_logged]
  split <;> rfl

theorem restoreDeviceManagerLogged_snd (J : Juce) (K : SerializationKeys) (s : AudioCore)
    (root : ValueTree) :
    (restoreDeviceManagerLogged J K s root).2 =
      [DeviceCall.getAvailableDeviceTypes,
       DeviceCall.setCurrentAudioDeviceType
         (selectDeviceType (J.scanDevicesIfNeeded s.deviceManager.connection).availableDeviceTypes
           (varToString J (ValueTree.getProperty root K.audioDeviceType))) true,
       DeviceCall.setAudioDeviceSetup (savedDeviceSetup J K root) true,
       DeviceCall.getDevices] ++
      J.midiInputDevices.map (fun midiIn =>
        DeviceCall.setMidiInputEnabled midiIn ((savedMidiInputs J K root).contains midiIn)) ++
      (if setupError J K s root ≠ "" then [DeviceCall.initialise 0 2 false] else []) ++
      [DeviceCall.setDefaultMidiOutput
        (varToString J (ValueTree.getProperty root K.defaultMidiOutput))] := by
  unfold restoreDeviceManagerLogged setupError
  simp only [foldl_setMidiInputEnabled_logged]
  split <;> simp

theorem filter_isSetAudioDeviceSetup_map (l : List String) (f : String → Bool) :
    (l.map (fun midiIn => DeviceCall.setMidiInputEnabled midiIn (f midiIn))).filter
      DeviceCall.isSetAudioDeviceSetup = [] := by
  induction l with
  | nil => rfl
  | cons m rest ih => simp [List.filter_cons, DeviceCall.isSetAudioDeviceSetup, ih]

theorem filter_isInitialise_map (l : List String) (f : String → Bool) :
    (l.map (fun midiIn => DeviceCall.setMidiInputEnabled midiIn (f midiIn))).filter
      DeviceCall.isInitialise = [] := by
  induction l with
  | nil => rfl
  | cons m rest ih => simp [List.filter_cons, DeviceCall.isInitialise, ih]

/-! ### Broadcasts -/

theorem notifications_eq_of_events (s r : AudioCore) (l : List Event)
    (h : r.events = s.events ++ l) :
    r.notifications = s.notifications ++ l.filter Event.isBroadcast := by
  unfold notifications
  rw [h, List.filter_append]

theorem filter_isBroadcast_removals (l : List Instrument) :
    (l.flatMap (fun i =>
      [Event.instrumentRemoved i.ptr, Event.audioCallbackRemoved i.ptr,
       Event.midiInputCallbackRemoved "" i.ptr, Event.deleted i.ptr,
       Event.instrumentRemovedPostAction])).filter Event.isBroadcast =
      l.flatMap (fun i => [Event.instrumentRemoved i.ptr, Event.instrumentRemovedPostAction]) := by
  induction l with
  | nil => rfl
  | cons i rest ih =>
    simp only [List.flatMap_cons, List.filter_append, ih]
    simp [Event.isBroadcast, List.filter_cons]

theorem filter_isBroadcast_restores (top : Nat) (l : List Nat) :
    (l.flatMap (fun k =>
      [Event.constructed (top + k), Event.audioCallbackAdded (top + k),
       Event.midiInputCallbackAdded "" (top + k), Event.deserialized (top + k),
       Event.addedToRegistry (top + k)])).filter Event.isBroadcast = [] := by
  induction l with
  | nil => rfl
  | cons i rest ih =>
    simp only [List.flatMap_cons, List.filter_append, ih]
    simp [Event.isBroadcast, List.filter_cons]

end AudioCore

namespace UserInterfaceSettings

theorem fontsMenuItems_commandIds (selectFont : Int) (lastUsedFontName : String)
    (i : Nat) (fonts : List Font) :
    (fontsMenuItems selectFont lastUsedFontName i fonts).map (fun item => item.commandId) =
      (List.range' i fonts.length).map (fun (k : Nat) => selectFont + (k : Int)) := by
  induction fonts generalizing i with
  | nil => rfl
  | cons font rest ih =>
    simp only [fontsMenuItems, List.map_cons, ih, List.length_cons, List.range'_succ]

theorem handleCommandMessage_past_the_end (selectFont : Int) (systemFonts : List Font) :
    handleCommandMessage selectFont systemFonts (selectFont + systemFonts.length) =
      some ((systemFonts.length : Int), Font.default) := by
  unfold handleCommandMessage
  have h : selectFont + (systemFonts.length : Int) ≥ selectFont ∧
      selectFont + (systemFonts.length : Int) ≤ selectFont + systemFonts.length := by
    constructor <;> omega
  simp only [h, and_self, if_true]
  have hi : selectFont + (systemFonts.length : Int) - selectFont = systemFonts.length := by omega
  rw [hi]
  simp [arrayGet]

end UserInterfaceSettings

namespace AutomationEditorBase

theorem signOfDifference_floatOps : SignOfDifference Demo.floatOps := by
  constructor
  · intro x y
    show x - y > 0 ↔ y < x
    exact sub_pos
  · intro x y
    show x - y < 0 ↔ x < y
    exact sub_neg

section Comparator
variable {F : Type} [LinearOrder F]

theorem compareElements_of_lt (ops : FloatOps F) (hops : SignOfDifference ops)
    (a b : EventComponentBase F) (hptr : a.ptr ≠ b.ptr)
    (h : a.absoluteBeat ops < b.absoluteBeat ops) : compareElements ops a b = -1 := by
  unfold EventComponentBase.absoluteBeat at h
  have hneg := (hops.neg _ _).mpr h
  have hpos : ¬ops.sub (ops.add a.eventBeat a.clipBeat) (ops.add b.eventBeat b.clipBeat) >
      ops.zero := fun hp => lt_asymm hneg hp
  simp [compareElements, hptr, hneg, hpos]

theorem compareElements_of_gt (ops : FloatOps F) (hops : SignOfDifference ops)
    (a b : EventComponentBase F) (hptr : a.ptr ≠ b.ptr)
    (h : b.absoluteBeat ops < a.absoluteBeat ops) : compareElements ops a b = 1 := by
  unfold EventComponentBase.absoluteBeat at h
  have hpos := (hops.pos _ _).mpr h
  have hneg : ¬ops.sub (ops.add a.eventBeat a.clipBeat) (ops.add b.eventBeat b.clipBeat) <
      ops.zero := fun hp => lt_asymm hpos hp
  simp [compareElements, hptr, hneg, hpos]

theorem compareElements_of_eq (ops : FloatOps F) (hops : SignOfDifference ops)
    (a b : EventComponentBase F) (hptr : a.ptr ≠ b.ptr)
    (h : a.absoluteBeat ops = b.absoluteBeat ops) :
    compareElements ops a b = wrapInt32 (a.eventId - b.eventId) := by
  unfold EventComponentBase.absoluteBeat at h
  have hpos : ¬ops.sub (ops.add a.eventBeat a.clipBeat) (ops.add b.eventBeat b.clipBeat) >
      ops.zero := fun hp => by
    have := (hops.pos _ _).mp hp
    rw [h] at this
    exact lt_irrefl _ this
  have hneg : ¬ops.sub (ops.add a.eventBeat a.clipBeat) (ops.add b.eventBeat b.clipBeat) <
      ops.zero := fun hp => by
    have := (hops.neg _ _).mp hp
    rw [h] at this
    exact lt_irrefl _ this
  simp [compareElements, hptr, hneg, hpos]

end Comparator

end AutomationEditorBase

namespace AutomationStepEventComponent

section Clamp
variable {F : Type} [LinearOrder F]

/-- The beat that `drag` settles on for the event at index `i`, by what its
neighbours are. -/
theorem clampedBeat_eq (ops : FloatOps F) (minLengthInBeats : F)
    (sequence : List (AutomationEvent F)) (i : Nat) (targetBeat : F) (hi : i < sequence.length) :
    clampedBeat ops minLengthInBeats sequence i targetBeat =
      some
        (match sequence[i + 1]? with
        | some next =>
          min (ops.sub next.beat minLengthInBeats)
            (match (if 0 < i then sequence[i - 1]? else none) with
            | some previous => max (ops.add previous.beat minLengthInBeats) targetBeat
            | none => targetBeat)
        | none =>
          match (if 0 < i then sequence[i - 1]? else none) with
          | some previous => max (ops.add previous.beat minLengthInBeats) targetBeat
          | none => targetBeat) := by
  unfold clampedBeat
  have hprev : ((i : Int) - 1).toNat = i - 1 := by omega
  have hnext : ((i : Int) + 1).toNat = i + 1 := by omega
  have hnneg : ¬((i : Int) + 1 < 0) := by omega
  have hprevcond : ((i : Int) > 0) ↔ 0 < i := by omega
  have hnextcond : ((i : Int) < (sequence.length : Int) - 1) ↔ i + 1 < sequence.length := by
    omega
  simp only [hprev, hnext, hnneg, if_false, jmax_eq_max, jmin_eq_min, hprevcond, hnextcond,
    decide_eq_true_eq]
  by_cases hp : 0 < i
  · have hj : i - 1 < sequence.length := by omega
    simp only [hp, if_true, List.getElem?_eq_getElem hj, Option.map_some']
    by_cases hn : i + 1 < sequence.length
    · simp only [hn, if_true, List.getElem?_eq_getElem hn, Option.map_some']
    · simp only [hn, if_false, List.getElem?_eq_none (not_lt.mp hn)]
  · simp only [hp, if_false]
    by_cases hn : i + 1 < sequence.length
    · simp only [hn, if_true, List.getElem?_eq_getElem hn, Option.map_some']
    · simp only [hn, if_false, List.getElem?_eq_none (not_lt.mp hn)]

end Clamp

theorem clampedBeat_pedalSequence :
    clampedBeat Demo.floatOps (1 / 4) Demo.pedalSequence 1 (1 / 8) = some 0 := by
  have h := clampedBeat_eq Demo.floatOps (1 / 4) Demo.pedalSequence 1 (1 / 8) (by decide)
  rw [show ((1 : Nat) : Int) = 1 from rfl] at h
  rw [h]
  simp [Demo.pedalSequence, Demo.floatOps, Demo.middleEvent]

end AutomationStepEventComponent

namespace AudioCore

/-! ### The call that chooses the device type -/

theorem filter_isSetCurrentAudioDeviceType_map (l : List String) (f : String → Bool) :
    (l.map (fun midiIn => DeviceCall.setMidiInputEnabled midiIn (f midiIn))).filter
      DeviceCall.isSetCurrentAudioDeviceType = [] := by
  induction l with
  | nil => rfl
  | cons m rest ih => simp [List.filter_cons, DeviceCall.isSetCurrentAudioDeviceType, ih]

end AudioCore

/-! ## The claims -/

namespace AudioCore

/-- C1: when the codec of every instrument of `s` writes a node from which a
blank instrument (built with the empty name, at any address) gets back the
identifier and the hash that were written, `deserialize`, run on any engine
with the document that `serialize` writes for `s`, returns an engine whose
registry has as many instruments as that of `s` and the same identifiers and
hashes in the same order. -/
theorem deserialize_serialize_restores_identifiers (J : Juce) (K : SerializationKeys)
    (C : InstrumentClass) (s s0 : AudioCore)
    (hcodec : ∀ i ∈ s.instruments, ∃ node, C.serialize i.body = some node ∧
      ∀ address,
        (C.deserialize (C.construct address "") node).instrumentID = i.body.instrumentID ∧
        (C.deserialize (C.construct address "") node).instrumentHash = i.body.instrumentHash) :
    ∃ r, deserialize J K C s0 (serialize J K C s) = some r ∧
      r.instruments.length = s.instruments.length ∧
      r.instruments.map (fun i => (i.getInstrumentID, i.getInstrumentHash)) =
        s.instruments.map (fun i => (i.getInstrumentID, i.getInstrumentHash)) := by
  obtain ⟨device, hdevtype, htree⟩ := serialize_eq J K C s
  rw [htree]
  have hdevice : ValueTree.isValid
      (if ValueTree.hasType (some (SharedObject.mk K.audioCore []
          [SharedObject.mk K.orchestra [] (s.instruments.filterMap (fun i => C.serialize i.body)),
           device])) K.audioDevice
        then some (SharedObject.mk K.audioCore []
          [SharedObject.mk K.orchestra [] (s.instruments.filterMap (fun i => C.serialize i.body)),
           device])
        else ValueTree.getChildWithName (some (SharedObject.mk K.audioCore []
          [SharedObject.mk K.orchestra [] (s.instruments.filterMap (fun i => C.serialize i.body)),
           device])) K.audioDevice) = true := by
    split
    · rfl
    · simp only [ValueTree.getChildWithName, SharedObject.children, List.find?_cons]
      split
      · rfl
      · simp [hdevtype, ValueTree.isValid]
  obtain ⟨r, hr⟩ := deserialize_isSome J K C s0 (SharedObject.mk K.audioCore []
    [SharedObject.mk K.orchestra [] (s.instruments.filterMap (fun i => C.serialize i.body)),
     device]) rfl hdevice
  have hnodes : instrumentNodes K (some (SharedObject.mk K.audioCore []
      [SharedObject.mk K.orchestra [] (s.instruments.filterMap (fun i => C.serialize i.body)),
       device])) = s.instruments.filterMap (fun i => C.serialize i.body) := by
    simp [instrumentNodes, ValueTree.hasType, ValueTree.getChildWithName, ValueTree.getChildren,
      SharedObject.type, SharedObject.children]
  obtain ⟨hinst, -⟩ := deserialize_spec J K C s0 r _ hr
  rw [hnodes] at hinst
  have hkeys := restoredInstruments_keys C s.instruments s0.heapTop hcodec
  refine ⟨r, hr, ?_, ?_⟩
  · have := congrArg List.length hkeys
    simpa [hinst] using this
  · rw [hinst]
    exact hkeys

/-- The round trip of C1 on the worked engine, restored into the engine itself:
two instruments come back, `id-1` with hash `h-2` and `id-2` with hash `h-1`. -/
theorem deserialize_serialize_restores_identifiers_witness :
    ∃ r, deserialize Demo.juce Demo.keys Demo.instrumentClass Demo.engine
        (serialize Demo.juce Demo.keys Demo.instrumentClass Demo.engine) = some r ∧
      r.instruments.length = 2 ∧
      r.instruments.map (fun i => (i.getInstrumentID, i.getInstrumentHash)) =
        [("id-1", "h-2"), ("id-2", "h-1")] :=
  deserialize_serialize_restores_identifiers Demo.juce Demo.keys Demo.instrumentClass
    Demo.engine Demo.engine
    (by
      intro i hi
      simp only [Demo.engine, List.mem_cons, List.mem_singleton, List.not_mem_nil, or_false] at hi
      rcases hi with rfl | rfl
      · exact ⟨_, rfl, fun _ => ⟨rfl, rfl⟩⟩
      · exact ⟨_, rfl, fun _ => ⟨rfl, rfl⟩⟩)

/-- C2: whenever the identifier of some instrument is a substring of the token,
`findInstrumentById` returns the first instrument in registry order whose
identifier is a substring of the token, whatever the hashes of the instruments
before or after it are. -/
theorem findInstrumentById_identifier_first (s : AudioCore) (token : String)
    (h : ∃ i ∈ s.instruments, i.getInstrumentID.data <:+: token.data) :
    ∃ before found after, s.instruments = before ++ found :: after ∧
      (∀ i ∈ before, ¬ i.getInstrumentID.data <:+: token.data) ∧
      found.getInstrumentID.data <:+: token.data ∧
      s.findInstrumentById token = some found := by
  have h2 : ∃ i ∈ s.instruments, (fun i => contains token i.getInstrumentID) i = true := by
    obtain ⟨i, hi, hsub⟩ := h
    exact ⟨i, hi, (contains_iff _ _).mpr hsub⟩
  obtain ⟨before, found, after, hl, hb, hf, hr⟩ := firstWhere_split _ _ h2
  refine ⟨before, found, after, hl, ?_, (contains_iff _ _).mp hf, ?_⟩
  · intro i hi
    exact (contains_eq_false_iff _ _).mp (hb i hi)
  · simp [findInstrumentById, hr]

/-- The lookup of C2 in the worked engine with the token `h-2/id-2`: the hash
of the piano, the first instrument, is a substring of the token, and so is the
identifier of the organ; the organ is returned. -/
theorem findInstrumentById_identifier_first_witness :
    Demo.piano.getInstrumentHash.data <:+: "h-2/id-2".data ∧
    Demo.engine.findInstrumentById "h-2/id-2" = some Demo.organ ∧
    ∃ before found after, Demo.engine.instruments = before ++ found :: after ∧
      (∀ i ∈ before, ¬ i.getInstrumentID.data <:+: "h-2/id-2".data) ∧
      found.getInstrumentID.data <:+: "h-2/id-2".data ∧
      Demo.engine.findInstrumentById "h-2/id-2" = some found :=
  ⟨by decide, by decide,
   findInstrumentById_identifier_first Demo.engine "h-2/id-2" (by decide)⟩

/-- C3: `findInstrumentById` is a total function of the engine and the token: it
returns a value and no engine, so it neither fails nor changes the registry.
Its result is empty exactly when no identifier and no hash of an instrument is
a substring of the token; and when no identifier is one but some hash is, the
result is the first instrument in registry order whose hash is a substring of
the token. -/
theorem findInstrumentById_miss_and_hash_fallback (s : AudioCore) (token : String) :
    (s.findInstrumentById token = none ↔
      ∀ i ∈ s.instruments, ¬ i.getInstrumentID.data <:+: token.data ∧
        ¬ i.getInstrumentHash.data <:+: token.data) ∧
    ((∀ i ∈ s.instruments, ¬ i.getInstrumentID.data <:+: token.data) →
      (∃ i ∈ s.instruments, i.getInstrumentHash.data <:+: token.data) →
      ∃ before found after, s.instruments = before ++ found :: after ∧
        (∀ i ∈ before, ¬ i.getInstrumentHash.data <:+: token.data) ∧
        found.getInstrumentHash.data <:+: token.data ∧
        s.findInstrumentById token = some found) := by
  constructor
  · unfold findInstrumentById
    cases hid : firstWhere (fun i => contains token i.getInstrumentID) s.instruments with
    | some i =>
      simp only [false_iff, reduceCtorEq]
      intro hall
      have hnone := (firstWhere_eq_none_iff _ _).mpr
        (fun j hj => (contains_eq_false_iff _ _).mpr (hall j hj).1)
      rw [hid] at hnone
      exact absurd hnone (by simp)
    | none =>
      simp only
      rw [firstWhere_eq_none_iff] at hid ⊢
      constructor
      · intro hh i hi
        exact ⟨(contains_eq_false_iff _ _).mp (hid i hi), (contains_eq_false_iff _ _).mp (hh i hi)⟩
      · intro hall i hi
        exact (contains_eq_false_iff _ _).mpr (hall i hi).2
  · intro hnoid hhash
    have hid : firstWhere (fun i => contains token i.getInstrumentID) s.instruments = none :=
      (firstWhere_eq_none_iff _ _).mpr (fun j hj => (contains_eq_false_iff _ _).mpr (hnoid j hj))
    have h2 : ∃ i ∈ s.instruments, (fun i => contains token i.getInstrumentHash) i = true := by
      obtain ⟨i, hi, hsub⟩ := hhash
      exact ⟨i, hi, (contains_iff _ _).mpr hsub⟩
    obtain ⟨before, found, after, hl, hb, hf, hr⟩ := firstWhere_split _ _ h2
    refine ⟨before, found, after, hl, ?_, (contains_iff _ _).mp hf, ?_⟩
    · intro i hi
      exact (contains_eq_false_iff _ _).mp (hb i hi)
    · simp [findInstrumentById, hid, hr]

/-- The lookups of C3 in the worked engine: the token `xx h-1 yy` holds no
identifier but the hash of the organ, which is returned; the token `nothing`
holds neither an identifier nor a hash, and the result is empty. -/
theorem findInstrumentById_miss_and_hash_fallback_witness :
    Demo.engine.findInstrumentById "xx h-1 yy" = some Demo.organ ∧
    Demo.engine.findInstrumentById "nothing" = none ∧
    ∃ before found after, Demo.engine.instruments = before ++ found :: after ∧
      (∀ i ∈ before, ¬ i.getInstrumentHash.data <:+: "xx h-1 yy".data) ∧
      found.getInstrumentHash.data <:+: "xx h-1 yy".data ∧
      Demo.engine.findInstrumentById "xx h-1 yy" = some found :=
  ⟨by decide,
   (findInstrumentById_miss_and_hash_fallback Demo.engine "nothing").1.mpr (by decide),
   (findInstrumentById_miss_and_hash_fallback Demo.engine "xx h-1 yy").2 (by decide) (by decide)⟩

/-- C4: in an engine in which the address that `new` hands out next is not the
address of a registry entry and is not registered as an audio or MIDI
callback (so in every engine that can arise: `wellFormed_of_reachable`,
`WellFormed.fresh`), `addInstrument` followed by `removeInstrument` on the
returned instrument leaves the registry, the device manager (its connection
and both lists of registered callbacks) and the retained MIDI inputs exactly
as they were before the add. -/
theorem addInstrument_removeInstrument_restores (C : InstrumentClass) (s : AudioCore)
    (pluginDescription : PluginDescription) (name : String)
    (hinstruments : s.heapTop ∉ ptrs s.instruments)
    (hcallbacks : s.heapTop ∉ s.deviceManager.callbacks)
    (hmidi : ("", s.heapTop) ∉ s.deviceManager.midiCallbacks) :
    ((addInstrument C s pluginDescription name).2.removeInstrument
        (addInstrument C s pluginDescription name).1.ptr).instruments = s.instruments ∧
    ((addInstrument C s pluginDescription name).2.removeInstrument
        (addInstrument C s pluginDescription name).1.ptr).deviceManager = s.deviceManager ∧
    ((addInstrument C s pluginDescription name).2.removeInstrument
        (addInstrument C s pluginDescription name).1.ptr).customMidiInputs =
      s.customMidiInputs := by
  refine ⟨?_, ?_, ?_⟩
  · rw [removeInstrument_instruments, addInstrument_instruments]
    exact removeFirstAt_append_singleton _ _ hinstruments
  · rw [removeInstrument_deviceManager]
    have hdm : (addInstrument C s pluginDescription name).2.deviceManager =
        { s.deviceManager with
          callbacks := s.deviceManager.callbacks ++ [s.heapTop],
          midiCallbacks := s.deviceManager.midiCallbacks ++ [("", s.heapTop)] } := rfl
    rw [hdm, addInstrument_fst]
    simp only
    rw [removeFirstMatchingValue_append_singleton _ _ hcallbacks,
      removeFirstMatchingValue_append_singleton _ _ hmidi]
  · rw [removeInstrument_customMidiInputs]
    rfl

/-- The add and remove of C4 on the worked engine, whose next address is 3. -/
theorem addInstrument_removeInstrument_restores_witness :
    Demo.engine.heapTop ∉ ptrs Demo.engine.instruments ∧
    Demo.engine.heapTop ∉ Demo.engine.deviceManager.callbacks ∧
    ("", Demo.engine.heapTop) ∉ Demo.engine.deviceManager.midiCallbacks ∧
    ((addInstrument Demo.instrumentClass Demo.engine Demo.description "Lead").2.removeInstrument
        (addInstrument Demo.instrumentClass Demo.engine Demo.description "Lead").1.ptr).instruments =
      Demo.engine.instruments ∧
    ((addInstrument Demo.instrumentClass Demo.engine Demo.description "Lead").2.removeInstrument
        (addInstrument Demo.instrumentClass Demo.engine Demo.description "Lead").1.ptr).deviceManager =
      Demo.engine.deviceManager ∧
    ((addInstrument Demo.instrumentClass Demo.engine Demo.description "Lead").2.removeInstrument
        (addInstrument Demo.instrumentClass Demo.engine Demo.description "Lead").1.ptr).customMidiInputs =
      Demo.engine.customMidiInputs :=
  ⟨by decide, by decide, by decide,
   addInstrument_removeInstrument_restores Demo.instrumentClass Demo.engine Demo.description
     "Lead" (by decide) (by decide) (by decide)⟩

/-- C5: in an engine, muted or not, in which no two registry entries share an
address and no callback is registered twice (so in every engine that can
arise: `wellFormed_of_reachable`), after `unmute` twice in a row
every instrument of the registry has its audio callback in the device's list
exactly once and its MIDI registration (the one `addInstrumentToDevice` makes)
exactly once, and every field of the engine is as one `unmute` leaves it. -/
theorem unmute_twice_registers_once (s : AudioCore)
    (hinstruments : (ptrs s.instruments).Nodup)
    (hcallbacks : s.deviceManager.callbacks.Nodup)
    (hmidi : s.deviceManager.midiCallbacks.Nodup) :
    (∀ i ∈ s.unmute.unmute.instruments,
      occurrences i.ptr s.unmute.unmute.deviceManager.callbacks = 1 ∧
      occurrences ("", i.ptr) s.unmute.unmute.deviceManager.midiCallbacks = 1) ∧
    s.unmute.unmute.instruments = s.instruments ∧
    s.unmute.unmute.withoutTrace = s.unmute.withoutTrace := by
  have hdisjA : ∀ x ∈ ptrs s.instruments,
      x ∉ withoutEach s.deviceManager.callbacks (ptrs s.instruments) :=
    fun x hx hmem => ((mem_withoutEach_iff _ _ hcallbacks _).mp hmem).2 hx
  have hdisjM : ∀ x ∈ midiKeys s.instruments,
      x ∉ withoutEach s.deviceManager.midiCallbacks (midiKeys s.instruments) :=
    fun x hx hmem => ((mem_withoutEach_iff _ _ hmidi _).mp hmem).2 hx
  have hkeys := midiKeys_nodup _ hinstruments
  have hdm : s.unmute.unmute.deviceManager = s.unmute.deviceManager := by
    rw [unmute_deviceManager s.unmute, unmute_instruments, unmute_deviceManager s]
    simp only
    rw [withoutEach_append_self _ _ hdisjA hinstruments, withoutEach_append_self _ _ hdisjM hkeys]
  refine ⟨?_, ?_, ?_⟩
  · intro i hi
    rw [unmute_instruments, unmute_instruments] at hi
    rw [hdm, unmute_deviceManager]
    simp only
    have hA : (withoutEach s.deviceManager.callbacks (ptrs s.instruments) ++
        ptrs s.instruments).Nodup := by
      rw [List.nodup_append]
      exact ⟨withoutEach_nodup _ _ hcallbacks, hinstruments, fun x hx hxr => hdisjA x hxr hx⟩
    have hM : (withoutEach s.deviceManager.midiCallbacks (midiKeys s.instruments) ++
        midiKeys s.instruments).Nodup := by
      rw [List.nodup_append]
      exact ⟨withoutEach_nodup _ _ hmidi, hkeys, fun x hx hxr => hdisjM x hxr hx⟩
    constructor
    · exact occurrences_eq_one _ _ hA
        (List.mem_append_right _ ((mem_ptrs _ _).mpr ⟨i, hi, rfl⟩))
    · exact occurrences_eq_one _ _ hM
        (List.mem_append_right _ ((mem_midiKeys _ _).mpr ⟨i, hi, rfl⟩))
  · rw [unmute_instruments, unmute_instruments]
  · rw [withoutTrace_eq_iff]
    refine ⟨hdm, ?_, ?_, ?_⟩
    · rw [unmute_instruments]
    · rw [unmute_customMidiInputs]
    · rw [unmute_heapTop]

/-- The double `unmute` of C5 on the worked engine after a `mute`, that is on
a muted engine: the device's lists end as `[0, 1, 2]` and `[("", 1), ("", 2)]`. -/
theorem unmute_twice_registers_once_witness :
    Demo.engine.mute.unmute.unmute.deviceManager.callbacks = [0, 1, 2] ∧
    Demo.engine.mute.unmute.unmute.deviceManager.midiCallbacks = [("", 1), ("", 2)] ∧
    (∀ i ∈ Demo.engine.mute.unmute.unmute.instruments,
      occurrences i.ptr Demo.engine.mute.unmute.unmute.deviceManager.callbacks = 1 ∧
      occurrences ("", i.ptr) Demo.engine.mute.unmute.unmute.deviceManager.midiCallbacks = 1) ∧
    Demo.engine.mute.unmute.unmute.instruments = Demo.engine.mute.instruments ∧
    Demo.engine.mute.unmute.unmute.withoutTrace = Demo.engine.mute.unmute.withoutTrace :=
  ⟨by decide, by decide,
   unmute_twice_registers_once Demo.engine.mute (by decide) (by decide) (by decide)⟩

/-- C6: `reset` is a total function (its loop ends because every round shortens
the registry); it leaves the registry empty, and the broadcasts it adds to the
trace are, for each instrument of the registry in registry order, the "before
remove" broadcast naming that instrument followed by the "after remove"
broadcast: `n` pairs for `n` instruments. -/
theorem reset_notifies_each_in_order (s : AudioCore) :
    s.reset.instruments = [] ∧
    s.reset.notifications = s.notifications ++ s.instruments.flatMap
      (fun i => [Event.instrumentRemoved i.ptr, Event.instrumentRemovedPostAction]) ∧
    (s.instruments.flatMap
      (fun i => [Event.instrumentRemoved i.ptr, Event.instrumentRemovedPostAction])).length =
        2 * s.instruments.length := by
  obtain ⟨h1, h2, -⟩ := reset_spec s.instruments s rfl
  refine ⟨h1, ?_, ?_⟩
  · unfold notifications
    rw [h2, List.filter_append]
    congr 1
    induction s.instruments with
    | nil => rfl
    | cons i rest ih =>
      simp only [List.flatMap_cons, List.filter_append, ih]
      simp [Event.isBroadcast, List.filter_cons]
  · induction s.instruments with
    | nil => rfl
    | cons i rest ih =>
      simp only [List.flatMap_cons, List.length_append, ih, List.length_cons]
      simp
      omega

/-- C7: for an instrument of the registry, in an engine in which no two
registry entries share an address and no callback is registered twice (so in
every engine that can arise: `wellFormed_of_reachable`), `removeInstrument`
adds exactly five effects to the trace, in this order: the "before remove"
broadcast, seen with the registry and both callback lists as
they were at the call; the removal of the audio callback; the removal of the
MIDI callback; the deletion of the object, which by then has left the registry
and is attached neither for audio nor for MIDI; and the "after remove"
broadcast, seen with the engine as the deletion saw it. -/
theorem removeInstrument_effects_in_order (s : AudioCore) (instrument : Instrument)
    (hmember : instrument ∈ s.instruments)
    (hinstruments : (ptrs s.instruments).Nodup)
    (hcallbacks : s.deviceManager.callbacks.Nodup)
    (hmidi : s.deviceManager.midiCallbacks.Nodup) :
    (s.removeInstrument instrument.ptr).trace = s.trace ++
      [(Event.instrumentRemoved instrument.ptr, s.view),
       (Event.audioCallbackRemoved instrument.ptr, s.view),
       (Event.midiInputCallbackRemoved "" instrument.ptr,
         { s.view with
           callbacks := removeFirstMatchingValue instrument.ptr s.deviceManager.callbacks }),
       (Event.deleted instrument.ptr, (s.removeInstrument instrument.ptr).view),
       (Event.instrumentRemovedPostAction, (s.removeInstrument instrument.ptr).view)] ∧
    instrument ∈ s.view.instruments ∧
    instrument.ptr ∉ removeFirstMatchingValue instrument.ptr s.deviceManager.callbacks ∧
    instrument.ptr ∉ (s.removeInstrument instrument.ptr).view.callbacks ∧
    ("", instrument.ptr) ∉ (s.removeInstrument instrument.ptr).view.midiCallbacks ∧
    instrument.ptr ∉ ptrs (s.removeInstrument instrument.ptr).view.instruments := by
  have hp : instrument.ptr ∈ ptrs s.instruments := (mem_ptrs _ _).mpr ⟨instrument, hmember, rfl⟩
  have hview : (s.removeInstrument instrument.ptr).view =
      { instruments := removeFirstAt instrument.ptr s.instruments,
        callbacks := removeFirstMatchingValue instrument.ptr s.deviceManager.callbacks,
        midiCallbacks :=
          removeFirstMatchingValue ("", instrument.ptr) s.deviceManager.midiCallbacks } := by
    simp only [view, removeInstrument_instruments, removeInstrument_deviceManager]
  rw [hview]
  refine ⟨removeInstrument_trace s instrument.ptr hp, hmember, ?_, ?_, ?_, ?_⟩
  · exact not_mem_removeFirstMatchingValue _ _ hcallbacks
  · exact not_mem_removeFirstMatchingValue _ _ hcallbacks
  · exact not_mem_removeFirstMatchingValue _ _ hmidi
  · show instrument.ptr ∉ ptrs (removeFirstAt instrument.ptr s.instruments)
    rw [ptrs_removeFirstAt]
    exact not_mem_removeFirstMatchingValue _ _ hinstruments

/-- The removal of C7 for the piano of the worked engine: the deletion sees
the registry `[organ]`, the audio callbacks `[0, 2]` and the MIDI callbacks
`[("", 2)]`. -/
theorem removeInstrument_effects_in_order_witness :
    (Demo.engine.removeInstrument Demo.piano.ptr).view =
      { instruments := [Demo.organ], callbacks := [0, 2], midiCallbacks := [("", 2)] } ∧
    ((Demo.engine.removeInstrument Demo.piano.ptr).trace = Demo.engine.trace ++
      [(Event.instrumentRemoved Demo.piano.ptr, Demo.engine.view),
       (Event.audioCallbackRemoved Demo.piano.ptr, Demo.engine.view),
       (Event.midiInputCallbackRemoved "" Demo.piano.ptr,
         { Demo.engine.view with
           callbacks :=
             removeFirstMatchingValue Demo.piano.ptr Demo.engine.deviceManager.callbacks }),
       (Event.deleted Demo.piano.ptr, (Demo.engine.removeInstrument Demo.piano.ptr).view),
       (Event.instrumentRemovedPostAction,
         (Demo.engine.removeInstrument Demo.piano.ptr).view)] ∧
    Demo.piano ∈ Demo.engine.view.instruments ∧
    Demo.piano.ptr ∉
      removeFirstMatchingValue Demo.piano.ptr Demo.engine.deviceManager.callbacks ∧
    Demo.piano.ptr ∉ (Demo.engine.removeInstrument Demo.piano.ptr).view.callbacks ∧
    ("", Demo.piano.ptr) ∉ (Demo.engine.removeInstrument Demo.piano.ptr).view.midiCallbacks ∧
    Demo.piano.ptr ∉ ptrs (Demo.engine.removeInstrument Demo.piano.ptr).view.instruments) :=
  ⟨by decide,
   removeInstrument_effects_in_order Demo.engine Demo.piano (by decide) (by decide) (by decide)
     (by decide)⟩

/-- C8: every instrument is attached before it is populated and before it
enters the registry. `addInstrument` adds to the trace, in this order, the
construction of the instrument, the registration of its audio callback, the
registration of its MIDI callback, `initializeFrom`, the append to the registry
and the broadcast; when `initializeFrom` runs and when the instrument is
appended, the device holds the audio callback and the MIDI callback of the
new instrument, and the registry is still the old one. Whenever `deserialize`
returns, what it adds to the trace after `reset` is, for each instrument node
in turn, the construction, the two registrations, `Instrument::deserialize` and
the append to the registry; at each `Instrument::deserialize` and at each
append the device holds both callbacks of that instrument, and the instrument
is not in the registry yet. -/
theorem instrument_attached_before_populated (J : Juce) (K : SerializationKeys)
    (C : InstrumentClass) (s : AudioCore) :
    (∀ (pluginDescription : PluginDescription) (name : String),
      (addInstrument C s pluginDescription name).2.events = s.events ++
        [Event.constructed s.heapTop, Event.audioCallbackAdded s.heapTop,
         Event.midiInputCallbackAdded "" s.heapTop, Event.initializedFrom s.heapTop,
         Event.addedToRegistry s.heapTop, Event.instrumentAdded s.heapTop] ∧
      (addInstrument C s pluginDescription name).2.trace = s.trace ++
        [(Event.constructed s.heapTop, s.view),
         (Event.audioCallbackAdded s.heapTop, s.view),
         (Event.midiInputCallbackAdded "" s.heapTop,
           { s.view with callbacks := s.deviceManager.callbacks ++ [s.heapTop] }),
         (Event.initializedFrom s.heapTop,
           { s.view with
             callbacks := s.deviceManager.callbacks ++ [s.heapTop],
             midiCallbacks := s.deviceManager.midiCallbacks ++ [("", s.heapTop)] }),
         (Event.addedToRegistry s.heapTop,
           { s.view with
             callbacks := s.deviceManager.callbacks ++ [s.heapTop],
             midiCallbacks := s.deviceManager.midiCallbacks ++ [("", s.heapTop)] }),
         (Event.instrumentAdded s.heapTop,
           { instruments := s.instruments ++ [(addInstrument C s pluginDescription name).1],
             callbacks := s.deviceManager.callbacks ++ [s.heapTop],
             midiCallbacks := s.deviceManager.midiCallbacks ++ [("", s.heapTop)] })]) ∧
    (∀ (tree : ValueTree) (r : AudioCore), deserialize J K C s tree = some r →
      r.events = s.reset.events ++
        (List.range (instrumentNodes K tree).length).flatMap (fun k =>
          [Event.constructed (s.heapTop + k), Event.audioCallbackAdded (s.heapTop + k),
           Event.midiInputCallbackAdded "" (s.heapTop + k), Event.deserialized (s.heapTop + k),
           Event.addedToRegistry (s.heapTop + k)]) ∧
      ∃ added, r.trace = s.reset.trace ++ added ∧
        ∀ entry ∈ added, ∀ p,
          (entry.1 = Event.deserialized p ∨ entry.1 = Event.addedToRegistry p) →
            p ∈ entry.2.callbacks ∧ ("", p) ∈ entry.2.midiCallbacks ∧
              p ∉ ptrs entry.2.instruments) := by
  have hstep : ∀ (t : AudioCore) (node : SharedObject),
      (deserializeInstrument C t node).trace = t.trace ++
        [(Event.constructed t.heapTop, t.view),
         (Event.audioCallbackAdded t.heapTop, t.view),
         (Event.midiInputCallbackAdded "" t.heapTop,
           { t.view with callbacks := t.deviceManager.callbacks ++ [t.heapTop] }),
         (Event.deserialized t.heapTop,
           { t.view with
             callbacks := t.deviceManager.callbacks ++ [t.heapTop],
             midiCallbacks := t.deviceManager.midiCallbacks ++ [("", t.heapTop)] }),
         (Event.addedToRegistry t.heapTop,
           { t.view with
             callbacks := t.deviceManager.callbacks ++ [t.heapTop],
             midiCallbacks := t.deviceManager.midiCallbacks ++ [("", t.heapTop)] })] := by
    intro t node
    simp [deserializeInstrument, newInstrument, addInstrumentToDevice, addAudioCallback,
      addMidiInputCallback, instrumentsAdd, emit, view]
  have hfold : ∀ (nodes : List SharedObject) (t : AudioCore),
      (∀ q ∈ ptrs t.instruments, q < t.heapTop) →
      ∃ added, (nodes.foldl (deserializeInstrument C) t).trace = t.trace ++ added ∧
        ∀ entry ∈ added, ∀ p,
          (entry.1 = Event.deserialized p ∨ entry.1 = Event.addedToRegistry p) →
            p ∈ entry.2.callbacks ∧ ("", p) ∈ entry.2.midiCallbacks ∧
              p ∉ ptrs entry.2.instruments := by
    intro nodes
    induction nodes with
    | nil => exact fun t _ => ⟨[], by simp, by simp⟩
    | cons node rest ih =>
      intro t hfresh
      have hnext : ∀ q ∈ ptrs (deserializeInstrument C t node).instruments,
          q < (deserializeInstrument C t node).heapTop := by
        intro q hq
        rw [deserializeInstrument_instruments] at hq
        rw [deserializeInstrument_heapTop]
        simp only [ptrs, List.map_append, List.map_cons, List.map_nil, List.mem_append,
          List.mem_singleton] at hq
        rcases hq with hq | hq
        · have := hfresh q (by simpa [ptrs] using hq)
          omega
        · omega
      obtain ⟨added, htrace, hadded⟩ := ih (deserializeInstrument C t node) hnext
      refine ⟨_, by rw [List.foldl_cons, htrace, hstep, List.append_assoc], ?_⟩
      have hnot : t.heapTop ∉ ptrs t.instruments := fun h => Nat.lt_irrefl _ (hfresh _ h)
      intro entry hentry p hp
      rw [List.mem_append] at hentry
      rcases hentry with hentry | hentry
      · simp only [List.mem_cons, List.mem_singleton, List.not_mem_nil, or_false] at hentry
        rcases hentry with h | h | h | h | h <;> subst h <;>
          rcases hp with hp | hp <;> simp only [reduceCtorEq, Event.deserialized.injEq,
            Event.addedToRegistry.injEq] at hp
        all_goals
          subst hp
          exact ⟨by simp, by simp, by simpa [view] using hnot⟩
      · exact hadded entry hentry p hp
  refine ⟨fun d n => ⟨addInstrument_events C s d n, ?_⟩, ?_⟩
  · simp [addInstrument, newInstrument, addInstrumentToDevice, addAudioCallback,
      addMidiInputCallback, instrumentsAdd, broadcastInstrumentAdded, emit, view]
  intro tree r h
  refine ⟨(deserialize_spec J K C s r tree h).2, ?_⟩
  rw [deserialize_eq] at h
  split at h
  · exact ⟨[], by rw [(autodetectDeviceSetup_frame J _ _ h).2.1, List.append_nil], by simp⟩
  · split at h
    · exact absurd h (by simp)
    · rename_i s1 hdev
      obtain ⟨h1, h2, -⟩ := deserializeDeviceManager_frame J K _ _ _ hdev
      have hfresh : ∀ q ∈ ptrs s1.instruments, q < s1.heapTop := by
        intro q hq
        rw [h1, reset_instruments] at hq
        simp [ptrs] at hq
      split at h
      · injection h with h
        subst h
        obtain ⟨added, htrace, hadded⟩ := hfold
          (ValueTree.getChildren (ValueTree.getChildWithName (coreNode K tree) K.orchestra))
          s1 hfresh
        exact ⟨added, by rw [htrace, h2], hadded⟩
      · injection h with h
        subst h
        exact ⟨[], by rw [h2, List.append_nil], by simp⟩

/-- The restore of C8 on the worked engine from its own document, which has
two instrument nodes: `deserialize` returns, and after the effects of `reset`
the trace shows the instruments at addresses 3 and 4, each attached before it
is restored and added, with both callbacks held by the device at that time. -/
theorem instrument_attached_before_populated_witness :
    ∃ r, deserialize Demo.juce Demo.keys Demo.instrumentClass Demo.engine
        (serialize Demo.juce Demo.keys Demo.instrumentClass Demo.engine) = some r ∧
      r.events = Demo.engine.reset.events ++
        [Event.constructed 3, Event.audioCallbackAdded 3, Event.midiInputCallbackAdded "" 3,
         Event.deserialized 3, Event.addedToRegistry 3,
         Event.constructed 4, Event.audioCallbackAdded 4, Event.midiInputCallbackAdded "" 4,
         Event.deserialized 4, Event.addedToRegistry 4] ∧
      ∃ added, r.trace = Demo.engine.reset.trace ++ added ∧
        ∀ entry ∈ added, ∀ p,
          (entry.1 = Event.deserialized p ∨ entry.1 = Event.addedToRegistry p) →
            p ∈ entry.2.callbacks ∧ ("", p) ∈ entry.2.midiCallbacks ∧
              p ∉ ptrs entry.2.instruments :=
  by
    refine ⟨_, rfl, ?_⟩
    exact (instrument_attached_before_populated Demo.juce Demo.keys Demo.instrumentClass
      Demo.engine).2 (serialize Demo.juce Demo.keys Demo.instrumentClass Demo.engine) _ (by rfl)

/-- C9: `addInstrument` leaves the registry as it was with one instrument
appended at the end; the only broadcast it adds to the trace is one
"instrument added" event carrying the address of that instrument; and it
returns that instrument, built at the next free address and initialized from
the description. -/
theorem addInstrument_appends_and_broadcasts (C : InstrumentClass) (s : AudioCore)
    (pluginDescription : PluginDescription) (name : String) :
    (addInstrument C s pluginDescription name).2.instruments =
        s.instruments ++ [(addInstrument C s pluginDescription name).1] ∧
    (addInstrument C s pluginDescription name).2.notifications =
        s.notifications ++ [Event.instrumentAdded (addInstrument C s pluginDescription name).1.ptr] ∧
    (addInstrument C s pluginDescription name).1 =
        { ptr := s.heapTop,
          body := C.initializeFrom (C.construct s.heapTop name) pluginDescription } := by
  refine ⟨rfl, ?_, rfl⟩
  simp [notifications, addInstrument_events, addInstrument_fst, Event.isBroadcast,
    List.filter_append, List.filter_cons]

/-- C10: `mute` leaves the registry as it is and deletes no instrument: all it
adds to the trace is, for each instrument in registry order, the removal of
its audio callback and of its MIDI callback. In an engine in which no callback
is registered twice (so in every engine that can arise:
`wellFormed_of_reachable`), no instrument of the registry is attached afterwards, for
audio or for MIDI, and a second `mute` leaves every field of the engine as the
first one left it. -/
theorem mute_detaches_every_instrument (s : AudioCore)
    (hcallbacks : s.deviceManager.callbacks.Nodup)
    (hmidi : s.deviceManager.midiCallbacks.Nodup) :
    s.mute.instruments = s.instruments ∧
    s.mute.events = s.events ++ s.instruments.flatMap
      (fun i => [Event.audioCallbackRemoved i.ptr, Event.midiInputCallbackRemoved "" i.ptr]) ∧
    (∀ p, Event.deleted p ∉ s.mute.events.drop s.events.length) ∧
    (∀ i ∈ s.mute.instruments,
      i.ptr ∉ s.mute.deviceManager.callbacks ∧
      ("", i.ptr) ∉ s.mute.deviceManager.midiCallbacks) ∧
    s.mute.mute.withoutTrace = s.mute.withoutTrace := by
  refine ⟨mute_instruments s, mute_events s, ?_, ?_, ?_⟩
  · intro p
    rw [mute_events, List.drop_left]
    simp
  · intro i hi
    rw [mute_instruments] at hi
    rw [mute_deviceManager]
    constructor
    · intro hmem
      exact ((mem_withoutEach_iff _ _ hcallbacks _).mp hmem).2 ((mem_ptrs _ _).mpr ⟨i, hi, rfl⟩)
    · intro hmem
      exact ((mem_withoutEach_iff _ _ hmidi _).mp hmem).2 ((mem_midiKeys _ _).mpr ⟨i, hi, rfl⟩)
  · rw [withoutTrace_eq_iff]
    refine ⟨?_, ?_, ?_, ?_⟩
    · rw [mute_deviceManager s.mute, mute_instruments, mute_deviceManager s]
      simp only
      rw [withoutEach_withoutEach _ _ hcallbacks, withoutEach_withoutEach _ _ hmidi]
    · rw [mute_instruments]
    · rw [mute_customMidiInputs]
    · rw [mute_heapTop]

/-- The `mute` of C10 on the worked engine: only the monitor stays registered. -/
theorem mute_detaches_every_instrument_witness :
    Demo.engine.mute.deviceManager.callbacks = [0] ∧
    Demo.engine.mute.deviceManager.midiCallbacks = [] ∧
    (Demo.engine.mute.instruments = Demo.engine.instruments ∧
    Demo.engine.mute.events = Demo.engine.events ++ Demo.engine.instruments.flatMap
      (fun i => [Event.audioCallbackRemoved i.ptr, Event.midiInputCallbackRemoved "" i.ptr]) ∧
    (∀ p, Event.deleted p ∉ Demo.engine.mute.events.drop Demo.engine.events.length) ∧
    (∀ i ∈ Demo.engine.mute.instruments,
      i.ptr ∉ Demo.engine.mute.deviceManager.callbacks ∧
      ("", i.ptr) ∉ Demo.engine.mute.deviceManager.midiCallbacks) ∧
    Demo.engine.mute.mute.withoutTrace = Demo.engine.mute.withoutTrace) :=
  ⟨by decide, by decide,
   mute_detaches_every_instrument Demo.engine (by decide) (by decide)⟩

/-- C11 fails as stated, in two ways. On a machine whose one MIDI input is
`USB MIDI`, a device document lists `usb midi`: the name is not among the
available devices and is retained by `deserializeDeviceManager`, yet the
`serializeDeviceManager` that follows writes no MIDI input entry at all, since
the retained name matches an available one when letter case is ignored. And a
listed name that is not plugged in but was open before the call (`Old Keys`)
is still enabled after it: the loop visits the plugged-in inputs only. -/
theorem retained_midi_input_dropped_or_left_enabled :
    (ValueTree.isValid (deviceNode Demo.keys (Demo.deviceDocument ["usb midi"])) = true ∧
      "usb midi" ∈ savedMidiInputs Demo.usbJuce Demo.keys
        (deviceNode Demo.keys (Demo.deviceDocument ["usb midi"])) ∧
      "usb midi" ∉ Demo.usbJuce.midiInputDevices ∧
      ∃ r, deserializeDeviceManager Demo.usbJuce Demo.keys Demo.engine
          (Demo.deviceDocument ["usb midi"]) = some r ∧
        ValueTree.getChildren (serializeDeviceManager Demo.usbJuce Demo.keys r) = []) ∧
    (ValueTree.isValid (deviceNode Demo.keys (Demo.deviceDocument ["Old Keys"])) = true ∧
      "Old Keys" ∈ savedMidiInputs Demo.usbJuce Demo.keys
        (deviceNode Demo.keys (Demo.deviceDocument ["Old Keys"])) ∧
      "Old Keys" ∉ Demo.usbJuce.midiInputDevices ∧
      ∃ r, deserializeDeviceManager Demo.usbJuce Demo.keys Demo.unpluggedEngine
          (Demo.deviceDocument ["Old Keys"]) = some r ∧
        isMidiInputEnabled r.deviceManager.connection "Old Keys" = true) := by
  refine ⟨⟨by decide, by decide, by decide, _, rfl, ?_⟩,
    ⟨by decide, by decide, by decide, _, rfl, ?_⟩⟩
  · rw [serializeDeviceManager_children, List.map_eq_nil_iff]
    decide
  · decide

/-- C11, amended: when the calls of the library on the audio device leave the
MIDI inputs alone, for every document with a device node and every MIDI input
name listed in it that differs from each available MIDI device even when
letter case is ignored, and that was not enabled before the call:
`deserializeDeviceManager` returns, the name is in the retained set, it is not
enabled, and a following `serializeDeviceManager` (same machine) writes a MIDI
input entry with that name. -/
theorem unplugged_midi_input_survives_restore (J : Juce) (K : SerializationKeys)
    (s : AudioCore) (tree : ValueTree)
    (name : String) (hJ : KeepsMidi J)
    (hnode : ValueTree.isValid (deviceNode K tree) = true)
    (hname : name ∈ savedMidiInputs J K (deviceNode K tree))
    (habsent : ∀ d ∈ J.midiInputDevices, equalsIgnoreCase d name = false)
    (hoff : isMidiInputEnabled s.deviceManager.connection name = false) :
    ∃ r, deserializeDeviceManager J K s tree = some r ∧
      name ∈ r.customMidiInputs ∧
      isMidiInputEnabled r.deviceManager.connection name = false ∧
      midiInputEntry K name ∈ ValueTree.getChildren (serializeDeviceManager J K r) := by
  have hnot : name ∉ J.midiInputDevices := by
    intro h
    have := habsent name h
    rw [equalsIgnoreCase_self] at this
    exact absurd this (by simp)
  have hoff2 : name ∉ s.deviceManager.connection.enabledMidiInputs := by
    rw [← isMidiInputEnabled_iff, hoff]; simp
  refine ⟨restoreDeviceManager J K s (deviceNode K tree), ?_, ?_, ?_, ?_⟩
  · rw [deserializeDeviceManager_eq, hnode]; rfl
  · rw [restoreDeviceManager_customMidiInputs]; exact hname
  · rw [← Bool.not_eq_true, isMidiInputEnabled_iff,
      mem_restoreDeviceManager_enabledMidiInputs J K s _ hJ, if_neg hnot]
    exact hoff2
  · rw [serializeDeviceManager_children]
    apply List.mem_map_of_mem
    rw [mem_serializedMidiInputs]
    right
    exact ⟨by rw [restoreDeviceManager_customMidiInputs]; exact hname, habsent⟩

/-- The amended C11 on the worked engine: `Old Keys` is listed while only
`USB MIDI` is plugged in. -/
theorem unplugged_midi_input_survives_restore_witness :
    ∃ r, deserializeDeviceManager Demo.usbJuce Demo.keys Demo.engine
        (Demo.deviceDocument ["Old Keys"]) = some r ∧
      "Old Keys" ∈ r.customMidiInputs ∧
      isMidiInputEnabled r.deviceManager.connection "Old Keys" = false ∧
      midiInputEntry Demo.keys "Old Keys" ∈
        ValueTree.getChildren (serializeDeviceManager Demo.usbJuce Demo.keys r) :=
  unplugged_midi_input_survives_restore Demo.usbJuce Demo.keys Demo.engine
    (Demo.deviceDocument ["Old Keys"]) "Old Keys"
    keepsMidi_usbJuce (by decide) (by decide) (by decide) (by decide)

/-- C12 fails as stated: the visible input `USB MIDI` was in the retained set
before the call, so it belongs to the union of the saved names (none) and the
set retained before; after `deserializeDeviceManager` it is not enabled,
because the retained set is cleared before the saved names are added. -/
theorem previously_retained_input_not_enabled :
    ValueTree.isValid (deviceNode Demo.keys (Demo.deviceDocument [])) = true ∧
    "USB MIDI" ∈ Demo.usbJuce.midiInputDevices ∧
    "USB MIDI" ∈
      savedMidiInputs Demo.usbJuce Demo.keys (deviceNode Demo.keys (Demo.deviceDocument [])) ++
        Demo.retainingEngine.customMidiInputs ∧
    ∃ r, deserializeDeviceManager Demo.usbJuce Demo.keys Demo.retainingEngine
        (Demo.deviceDocument []) = some r ∧
      isMidiInputEnabled r.deviceManager.connection "USB MIDI" = false := by
  refine ⟨by decide, by decide, by decide, _, rfl, by decide⟩

/-- C12, amended: when the calls of the library on the audio device leave the
MIDI inputs alone, for every document with a device node
`deserializeDeviceManager` returns, the retained set is then exactly the list
of the saved MIDI input names of the document, and each currently visible MIDI
input is enabled if and only if its name is among those saved names and the
input was enabled already or the driver opens it. The set retained before the
call plays no part. -/
theorem restore_enables_saved_visible_inputs (J : Juce) (K : SerializationKeys)
    (s : AudioCore) (tree : ValueTree)
    (hJ : KeepsMidi J) (hnode : ValueTree.isValid (deviceNode K tree) = true) :
    ∃ r, deserializeDeviceManager J K s tree = some r ∧
      r.customMidiInputs = savedMidiInputs J K (deviceNode K tree) ∧
      ∀ m ∈ J.midiInputDevices,
        (isMidiInputEnabled r.deviceManager.connection m = true ↔
          m ∈ savedMidiInputs J K (deviceNode K tree) ∧
            (isMidiInputEnabled s.deviceManager.connection m = true ∨
              J.canOpenMidiInput m = true)) := by
  refine ⟨restoreDeviceManager J K s (deviceNode K tree), ?_, rfl, ?_⟩
  · rw [deserializeDeviceManager_eq, hnode]; rfl
  · intro m hm
    rw [isMidiInputEnabled_iff, isMidiInputEnabled_iff,
      mem_restoreDeviceManager_enabledMidiInputs J K s _ hJ, if_pos hm]

/-- The amended C12 on the worked engine: `USB MIDI` is listed and plugged
in, and retained before the call as well. -/
theorem restore_enables_saved_visible_inputs_witness :
    ∃ r, deserializeDeviceManager Demo.usbJuce Demo.keys Demo.retainingEngine
        (Demo.deviceDocument ["USB MIDI"]) = some r ∧
      r.customMidiInputs = ["USB MIDI"] ∧
      isMidiInputEnabled r.deviceManager.connection "USB MIDI" = true := by
  obtain ⟨r, hr, hsaved, henabled⟩ :=
    restore_enables_saved_visible_inputs Demo.usbJuce Demo.keys Demo.retainingEngine
      (Demo.deviceDocument ["USB MIDI"]) keepsMidi_usbJuce (by decide)
  exact ⟨r, hr, hsaved, (henabled "USB MIDI" (by decide)).mpr ⟨by decide, Or.inr rfl⟩⟩

/-- C13: for every document with a device node and every non-empty list of
available device types, `deserializeDeviceManager` returns the restored engine
(nothing fails), and the device-type name it selects, `selectDeviceType` of
the available types and the saved name, is the saved name when some available
type has that name, is otherwise the name of the first available type, and is
in both cases the name of an available type. That name is the one the restore
hands to `setCurrentAudioDeviceType`, in its only call of it, and the
connection of the restored engine is what the library makes of the scanned
connection by that call followed by the calls for the setup, the MIDI inputs
and the default MIDI output. -/
theorem restore_selects_available_device_type (J : Juce) (K : SerializationKeys)
    (s : AudioCore) (tree : ValueTree)
    (hnode : ValueTree.isValid (deviceNode K tree) = true)
    (htypes : (J.scanDevicesIfNeeded s.deviceManager.connection).availableDeviceTypes ≠ []) :
    deserializeDeviceManager J K s tree = some (restoreDeviceManager J K s (deviceNode K tree)) ∧
    ((∃ t ∈ (J.scanDevicesIfNeeded s.deviceManager.connection).availableDeviceTypes,
        t.typeName = varToString J (ValueTree.getProperty (deviceNode K tree) K.audioDeviceType)) →
      selectDeviceType (J.scanDevicesIfNeeded s.deviceManager.connection).availableDeviceTypes
          (varToString J (ValueTree.getProperty (deviceNode K tree) K.audioDeviceType)) =
        varToString J (ValueTree.getProperty (deviceNode K tree) K.audioDeviceType)) ∧
    ((∀ t ∈ (J.scanDevicesIfNeeded s.deviceManager.connection).availableDeviceTypes,
        t.typeName ≠ varToString J (ValueTree.getProperty (deviceNode K tree) K.audioDeviceType)) →
      (J.scanDevicesIfNeeded s.deviceManager.connection).availableDeviceTypes.head?.map
          (fun t => t.typeName) =
        some (selectDeviceType (J.scanDevicesIfNeeded s.deviceManager.connection).availableDeviceTypes
          (varToString J (ValueTree.getProperty (deviceNode K tree) K.audioDeviceType)))) ∧
    (∃ t ∈ (J.scanDevicesIfNeeded s.deviceManager.connection).availableDeviceTypes,
      t.typeName =
        selectDeviceType (J.scanDevicesIfNeeded s.deviceManager.connection).availableDeviceTypes
          (varToString J (ValueTree.getProperty (deviceNode K tree) K.audioDeviceType))) ∧
    (restoreDeviceManagerLogged J K s (deviceNode K tree)).2.filter
        DeviceCall.isSetCurrentAudioDeviceType =
      [DeviceCall.setCurrentAudioDeviceType
        (selectDeviceType (J.scanDevicesIfNeeded s.deviceManager.connection).availableDeviceTypes
          (varToString J (ValueTree.getProperty (deviceNode K tree) K.audioDeviceType))) true] ∧
    (restoreDeviceManager J K s (deviceNode K tree)).deviceManager.connection =
      setDefaultMidiOutput
        (if (J.setAudioDeviceSetup
              (J.setCurrentAudioDeviceType (J.scanDevicesIfNeeded s.deviceManager.connection)
                (selectDeviceType
                  (J.scanDevicesIfNeeded s.deviceManager.connection).availableDeviceTypes
                  (varToString J (ValueTree.getProperty (deviceNode K tree) K.audioDeviceType)))
                true)
              (savedDeviceSetup J K (deviceNode K tree)) true).2 ≠ "" then
          (J.initialise
            (J.midiInputDevices.foldl
              (fun c midiIn => setMidiInputEnabled J c midiIn
                ((savedMidiInputs J K (deviceNode K tree)).contains midiIn))
              (J.setAudioDeviceSetup
                (J.setCurrentAudioDeviceType (J.scanDevicesIfNeeded s.deviceManager.connection)
                  (selectDeviceType
                    (J.scanDevicesIfNeeded s.deviceManager.connection).availableDeviceTypes
                    (varToString J
                      (ValueTree.getProperty (deviceNode K tree) K.audioDeviceType)))
                  true)
                (savedDeviceSetup J K (deviceNode K tree)) true).1) 0 2 false).1
        else
          J.midiInputDevices.foldl
            (fun c midiIn => setMidiInputEnabled J c midiIn
              ((savedMidiInputs J K (deviceNode K tree)).contains midiIn))
            (J.setAudioDeviceSetup
              (J.setCurrentAudioDeviceType (J.scanDevicesIfNeeded s.deviceManager.connection)
                (selectDeviceType
                  (J.scanDevicesIfNeeded s.deviceManager.connection).availableDeviceTypes
                  (varToString J (ValueTree.getProperty (deviceNode K tree) K.audioDeviceType)))
                true)
              (savedDeviceSetup J K (deviceNode K tree)) true).1)
        (varToString J (ValueTree.getProperty (deviceNode K tree) K.defaultMidiOutput)) := by
  refine ⟨?_, selectDeviceType_of_mem _ _, ?_, selectDeviceType_mem _ _ htypes, ?_, rfl⟩
  · rw [deserializeDeviceManager_eq, hnode]; rfl
  · intro h
    cases htype : (J.scanDevicesIfNeeded s.deviceManager.connection).availableDeviceTypes with
    | nil => exact absurd htype htypes
    | cons first rest =>
      rw [htype] at h
      rw [selectDeviceType_of_not_mem first rest _ h]
      rfl
  · rw [restoreDeviceManagerLogged_snd]
    simp only [List.filter_append, filter_isSetCurrentAudioDeviceType_map]
    split <;> simp [List.filter_cons, DeviceCall.isSetCurrentAudioDeviceType]

/-- C13 on the scenario of the spec: the document declares `X`, only `Y` is
available, and the device manager still names another type `Z`; the restore
returns, selects `Y`, calls `setCurrentAudioDeviceType` once, with `Y`, and `Y`
is the current device type afterwards. -/
theorem restore_selects_available_device_type_witness :
    (deserializeDeviceManager Demo.juce Demo.keys Demo.engineY (Demo.typeDocument "X") =
        some (restoreDeviceManager Demo.juce Demo.keys Demo.engineY
          (deviceNode Demo.keys (Demo.typeDocument "X"))) ∧
      selectDeviceType
          (Demo.juce.scanDevicesIfNeeded Demo.engineY.deviceManager.connection).availableDeviceTypes
          (varToString Demo.juce
            (ValueTree.getProperty (deviceNode Demo.keys (Demo.typeDocument "X"))
              Demo.keys.audioDeviceType)) = "Y") ∧
    (restoreDeviceManagerLogged Demo.juce Demo.keys Demo.engineY
        (deviceNode Demo.keys (Demo.typeDocument "X"))).2.filter
          DeviceCall.isSetCurrentAudioDeviceType =
      [DeviceCall.setCurrentAudioDeviceType "Y" true] ∧
    Demo.engineY.deviceManager.connection.currentDeviceType = "Z" ∧
    (restoreDeviceManager Demo.juce Demo.keys Demo.engineY
      (deviceNode Demo.keys (Demo.typeDocument "X"))).deviceManager.connection.currentDeviceType =
        "Y" :=
  ⟨⟨(restore_selects_available_device_type Demo.juce Demo.keys Demo.engineY
      (Demo.typeDocument "X") (by decide) (by decide)).1,
    by decide⟩,
   (restore_selects_available_device_type Demo.juce Demo.keys Demo.engineY
      (Demo.typeDocument "X") (by decide) (by decide)).2.2.2.2.1,
   by decide, by decide⟩

/-- C14: for every document that neither is nor contains a device node,
`deserializeDeviceManager` gives exactly what `autodetectDeviceSetup` gives
from the same engine, and whenever that is an engine, the retained MIDI input
set is as before and, the calls of the library on the audio device leaving
MIDI alone, so are the enablement of every MIDI input and the default MIDI
output. -/
theorem restore_without_device_node_autodetects (J : Juce) (K : SerializationKeys)
    (s : AudioCore) (tree : ValueTree)
    (hJ : KeepsMidi J) (hnode : ValueTree.isValid (deviceNode K tree) = false) :
    deserializeDeviceManager J K s tree = autodetectDeviceSetup J s ∧
    ∀ r, deserializeDeviceManager J K s tree = some r →
      r.customMidiInputs = s.customMidiInputs ∧
      (∀ name, isMidiInputEnabled r.deviceManager.connection name =
        isMidiInputEnabled s.deviceManager.connection name) ∧
      r.deviceManager.connection.defaultMidiOutputName =
        s.deviceManager.connection.defaultMidiOutputName := by
  have heq : deserializeDeviceManager J K s tree = autodetectDeviceSetup J s := by
    rw [deserializeDeviceManager_eq, hnode]; rfl
  refine ⟨heq, ?_⟩
  intro r hr
  rw [heq] at hr
  have hmidi := autodetectDeviceSetup_midiState J s r hJ hr
  refine ⟨(autodetectDeviceSetup_frame J s r hr).2.2.2.2.2, ?_, KeepsMidi.output_eq hmidi⟩
  intro name
  unfold isMidiInputEnabled
  rw [KeepsMidi.enabled_eq hmidi]

/-- C14 on the worked engine with a retained name and a document of another
type: the call returns what the autodetection returns and the retained name
stays. -/
theorem restore_without_device_node_autodetects_witness :
    ValueTree.isValid (deviceNode Demo.keys (ValueTree.create "settings")) = false ∧
    deserializeDeviceManager Demo.juce Demo.keys Demo.retainingEngine (ValueTree.create "settings") =
      autodetectDeviceSetup Demo.juce Demo.retainingEngine ∧
    ∃ r, deserializeDeviceManager Demo.juce Demo.keys Demo.retainingEngine
        (ValueTree.create "settings") = some r ∧
      r.customMidiInputs = ["USB MIDI"] :=
  ⟨by decide,
   (restore_without_device_node_autodetects Demo.juce Demo.keys Demo.retainingEngine
      (ValueTree.create "settings") keepsMidi_juce (by decide)).1,
   _, rfl,
   ((restore_without_device_node_autodetects Demo.juce Demo.keys Demo.retainingEngine
      (ValueTree.create "settings") keepsMidi_juce (by decide)).2 _ rfl).1⟩

/-- C16 fails as stated: in the engine `Demo.closedEngine` both flags for the
default channels are false, and the snapshot written by
`serializeDeviceManager` has neither channel-mask field, because no audio
device is open. -/
theorem mask_omitted_without_device :
    Demo.closedEngine.deviceManager.connection.currentSetup.useDefaultInputChannels = false ∧
    Demo.closedEngine.deviceManager.connection.currentSetup.useDefaultOutputChannels = false ∧
    ValueTree.hasProperty (serializeDeviceManager Demo.juce Demo.keys Demo.closedEngine)
      Demo.keys.audioDeviceInputChannels = false ∧
    ValueTree.hasProperty (serializeDeviceManager Demo.juce Demo.keys Demo.closedEngine)
      Demo.keys.audioDeviceOutputChannels = false := by
  decide

/-- C16, amended: the property names of the device node being pairwise
different, the snapshot written by `serializeDeviceManager` has the input
(resp. output) channel-mask field if and only if an audio device is open and
the flag of the current setup for the default input (resp. output) channels is
false. -/
theorem mask_written_iff_device_open_and_flag_off (J : Juce) (K : SerializationKeys)
    (s : AudioCore)
    (hkeys : (deviceProperties K).Nodup) :
    (ValueTree.hasProperty (serializeDeviceManager J K s) K.audioDeviceInputChannels = true ↔
      s.deviceManager.connection.currentAudioDevice.isSome = true ∧
        s.deviceManager.connection.currentSetup.useDefaultInputChannels = false) ∧
    (ValueTree.hasProperty (serializeDeviceManager J K s) K.audioDeviceOutputChannels = true ↔
      s.deviceManager.connection.currentAudioDevice.isSome = true ∧
        s.deviceManager.connection.currentSetup.useDefaultOutputChannels = false) := by
  simp only [deviceProperties, List.nodup_cons, List.mem_cons, List.mem_singleton, not_or,
    List.not_mem_nil, not_false_eq_true, List.nodup_nil, and_true] at hkeys
  obtain ⟨⟨h12, h13, h14, h15, h16, h17, h18⟩, ⟨h23, h24, h25, h26, h27, h28⟩,
    ⟨h34, h35, h36, h37, h38⟩, ⟨h45, h46, h47, h48⟩, ⟨h56, h57, h58⟩, ⟨h67, h68⟩, h78⟩ := hkeys
  have h76 : ¬K.audioDeviceOutputChannels = K.audioDeviceInputChannels := fun h => h67 h.symm
  have h86 : ¬K.defaultMidiOutput = K.audioDeviceInputChannels := fun h => h68 h.symm
  have h87 : ¬K.defaultMidiOutput = K.audioDeviceOutputChannels := fun h => h78 h.symm
  unfold serializeDeviceManager
  dsimp only
  generalize s.deviceManager.connection.currentAudioDevice = device
  constructor
  · cases device <;>
      simp only [] <;> split_ifs <;>
      simp_all [ValueTree.hasProperty_setProperty, ValueTree.hasProperty_foldl_appendChild,
        ValueTree.hasProperty_create, ValueTree.isValid_setProperty, ValueTree.isValid_create,
        ValueTree.isValid_foldl_appendChild]
  · cases device <;>
      simp only [] <;> split_ifs <;>
      simp_all [ValueTree.hasProperty_setProperty, ValueTree.hasProperty_foldl_appendChild,
        ValueTree.hasProperty_create, ValueTree.isValid_setProperty, ValueTree.isValid_create,
        ValueTree.isValid_foldl_appendChild]

/-- The amended C16 on the worked engine with a device open and both flags
off: both channel-mask fields are written. -/
theorem mask_written_iff_device_open_and_flag_off_witness :
    ValueTree.hasProperty (serializeDeviceManager Demo.juce Demo.keys Demo.openEngine)
      Demo.keys.audioDeviceInputChannels = true ∧
    ValueTree.hasProperty (serializeDeviceManager Demo.juce Demo.keys Demo.openEngine)
      Demo.keys.audioDeviceOutputChannels = true :=
  ⟨(mask_written_iff_device_open_and_flag_off Demo.juce Demo.keys Demo.openEngine
      (by decide)).1.mpr ⟨rfl, rfl⟩,
   (mask_written_iff_device_open_and_flag_off Demo.juce Demo.keys Demo.openEngine
      (by decide)).2.mpr ⟨rfl, rfl⟩⟩

/-- Where `deserialize` returns: for every document that has an audio core
node with a device node, and for every document at all when a device type is
available after the initial connection, `deserialize` returns. The trace of
the call is first that of `reset`, which removes and deletes every instrument
of the old registry in order and leaves the registry empty, then one
construction per instrument node. The registry at the end has as many
instruments as the document has instrument nodes under its orchestra node, the
`i`-th one is the blank instrument built at the `i`-th new address and
restored from the `i`-th node, and every instrument in it was built during
the call. -/
theorem deserialize_restores_in_order_where_it_returns (J : Juce) (K : SerializationKeys)
    (C : InstrumentClass)
    (s : AudioCore) (tree : ValueTree)
    (hdevice : (ValueTree.isValid (coreNode K tree) = true ∧
        ValueTree.isValid (deviceNode K (coreNode K tree)) = true) ∨
      (J.scanDevicesIfNeeded
        (J.initialise s.deviceManager.connection 0 2 true).1).availableDeviceTypes ≠ []) :
    ∃ r, deserialize J K C s tree = some r ∧
      s.reset.instruments = [] ∧
      r.events = s.events ++
        s.instruments.flatMap (fun i =>
          [Event.instrumentRemoved i.ptr, Event.audioCallbackRemoved i.ptr,
           Event.midiInputCallbackRemoved "" i.ptr, Event.deleted i.ptr,
           Event.instrumentRemovedPostAction]) ++
        (List.range (instrumentNodes K tree).length).flatMap (fun k =>
          [Event.constructed (s.heapTop + k), Event.audioCallbackAdded (s.heapTop + k),
           Event.midiInputCallbackAdded "" (s.heapTop + k), Event.deserialized (s.heapTop + k),
           Event.addedToRegistry (s.heapTop + k)]) ∧
      r.instruments.length = (instrumentNodes K tree).length ∧
      (∀ i : Nat, r.instruments[i]? =
        (instrumentNodes K tree)[i]?.map (fun node =>
          Instrument.mk (s.heapTop + i) (C.deserialize (C.construct (s.heapTop + i) "") node))) ∧
      ∀ i ∈ r.instruments, s.heapTop ≤ i.ptr := by
  obtain ⟨r, hr⟩ := deserialize_returns J K C s tree hdevice
  obtain ⟨h1, h2⟩ := deserialize_spec J K C s r tree hr
  obtain ⟨g1, g2, -⟩ := reset_spec s.instruments s rfl
  refine ⟨r, hr, g1, ?_, ?_, ?_, ?_⟩
  · rw [h2, g2]
  · rw [h1, length_restoredInstruments]
  · intro i
    rw [h1, getElem_restoredInstruments]
  · intro i hi
    have hp : i.ptr ∈ ptrs r.instruments := List.mem_map_of_mem _ hi
    rw [h1, ptrs_restoredInstruments, List.mem_range'_1] at hp
    exact hp.1

/-- The restore of the worked engine from a document with a device node and
two instrument nodes. -/
theorem deserialize_restores_in_order_example :
    ∃ r, deserialize Demo.juce Demo.keys Demo.instrumentClass Demo.engine
        (some (Demo.documentRoot [Demo.instrumentNode "id-7" "x", Demo.instrumentNode "id-8" "y"]))
          = some r ∧
      r.instruments.length = 2 ∧
      r.instruments.map (fun i => (i.ptr, i.getInstrumentID, i.getInstrumentHash)) =
        [(3, "id-7", "x"), (4, "id-8", "y")] := by
  obtain ⟨r, hr, -, -, hlen, hnth, -⟩ :=
    deserialize_restores_in_order_where_it_returns Demo.juce Demo.keys Demo.instrumentClass
      Demo.engine
      (some (Demo.documentRoot [Demo.instrumentNode "id-7" "x", Demo.instrumentNode "id-8" "y"]))
      (Or.inl ⟨by decide, by decide⟩)
  refine ⟨r, hr, hlen, ?_⟩
  have h0 := hnth 0
  have h1 := hnth 1
  have hl : r.instruments.length = 2 := hlen
  match hi : r.instruments, hl with
  | [a, b], _ =>
    rw [hi] at h0 h1
    simp only [List.getElem?_cons_zero, List.getElem?_cons_succ] at h0 h1
    have ha : a = _ := Option.some.inj h0
    have hb : b = _ := Option.some.inj h1
    rw [ha, hb]
    decide

/-- C17: the document has an audio core node with two instrument nodes under
its orchestra node and no device node, and the machine has no audio device
type. `deserialize` goes through `deserializeDeviceManager` into
`autodetectDeviceSetup`, which dereferences `types[0]`, a null pointer, before
any instrument is restored: the call does not end in an engine, let alone in
one with a registry of two instruments. -/
theorem deserialize_without_device_node_and_types :
    ValueTree.isValid (coreNode Demo.keys Demo.orphanDocument) = true ∧
    (instrumentNodes Demo.keys Demo.orphanDocument).length = 2 ∧
    ValueTree.isValid (deviceNode Demo.keys (coreNode Demo.keys Demo.orphanDocument)) = false ∧
    (Demo.juce.scanDevicesIfNeeded
      (Demo.juce.initialise Demo.bareEngine.deviceManager.connection 0 2
        true).1).availableDeviceTypes = [] ∧
    deserialize Demo.juce Demo.keys Demo.instrumentClass Demo.bareEngine Demo.orphanDocument =
      none := by
  refine ⟨by decide, by decide, by decide, rfl, ?_⟩
  rw [deserialize_eq]
  have hcore : ValueTree.isValid (coreNode Demo.keys Demo.orphanDocument) = true := by decide
  have hdev : ValueTree.isValid
      (deviceNode Demo.keys (coreNode Demo.keys Demo.orphanDocument)) = false := by decide
  have hauto : autodetectDeviceSetup Demo.juce Demo.bareEngine.reset = none := by
    unfold autodetectDeviceSetup
    rw [reset_connection]
    rfl
  simp only [hcore, Bool.not_true, Bool.false_eq_true, if_false, deserializeDeviceManager_eq,
    hdev, Bool.not_false, if_true, hauto]

/-- C18 fails as stated: a newly constructed engine, whose registry is empty,
is given a document with two instrument nodes of the identifier `dup`;
`deserialize` returns a registry whose two instruments both have that
identifier. -/
theorem deserialize_restores_duplicate_identifiers :
    ∃ r, deserialize Demo.juce Demo.keys Demo.instrumentClass (create Demo.connection)
        Demo.duplicateDocument = some r ∧
      Arises Demo.juce Demo.keys Demo.instrumentClass true r ∧
      identifiers r = ["dup", "dup"] ∧ ¬(identifiers r).Nodup := by
  obtain ⟨r, hr⟩ := deserialize_isSome Demo.juce Demo.keys Demo.instrumentClass
    (create Demo.connection)
    (Demo.documentRoot [Demo.instrumentNode "dup" "a", Demo.instrumentNode "dup" "b"]) rfl
    (by decide)
  have hids : identifiers r = ["dup", "dup"] := by
    unfold identifiers
    rw [(deserialize_spec _ _ _ _ _ _ hr).1]
    decide
  refine ⟨r, hr, Arises.deserialize _ rfl (Arises.create _) hr, hids, ?_⟩
  rw [hids]
  decide

/-- C18, amended: when the constructor of the instrument class gives different
identifiers at different addresses and `initializeFrom` keeps the identifier,
in every engine that arises from an empty registry by calls of
`addInstrument`, `removeInstrument`, `mute`, `unmute` and `reset`, no two
instruments of the registry have the same identifier; a `deserialize` from
such an engine leaves in the registry the identifiers that the instrument
nodes of the document restore to, unchecked. -/
theorem identifiers_unique_without_documents (J : Juce) (K : SerializationKeys)
    (C : InstrumentClass)
    (hC : FreshIdentifiers C) (s : AudioCore) (h : Arises J K C false s) :
    (identifiers s).Nodup ∧
    ∀ tree r, deserialize J K C s tree = some r →
      identifiers r =
        (restoredInstruments C s.heapTop (instrumentNodes K tree)).map
          Instrument.getInstrumentID := by
  constructor
  · have hwf := wellFormed_of_reachable J K C s (reachable_of_arises J K C false s h)
    have hid := identifier_of_arises J K C hC s h
    have hptrs : (s.instruments.map (fun i => i.ptr)).Nodup := hwf.instruments_nodup
    apply List.Nodup.map_on _ (List.Nodup.of_map _ hptrs)
    intro x hx y hy hxy
    apply List.inj_on_of_nodup_map hptrs hx hy
    by_contra hne
    obtain ⟨n, hn⟩ := hid x hx
    obtain ⟨m, hm⟩ := hid y hy
    apply hC.construct x.ptr y.ptr n m hne
    rw [← hn, ← hm]
    exact hxy
  · intro tree r hr
    unfold identifiers
    rw [(deserialize_spec J K C s r tree hr).1]

/-- The amended C18 after two calls of `addInstrument` on a new engine. -/
theorem identifiers_unique_without_documents_witness :
    (identifiers (addInstrument Demo.tallyClass
      (addInstrument Demo.tallyClass (create Demo.connection) Demo.description "A").2
      Demo.description "B").2).Nodup :=
  (identifiers_unique_without_documents Demo.juce Demo.keys Demo.tallyClass
    freshIdentifiers_tallyClass _
    (Arises.addInstrument Demo.description "B"
      (Arises.addInstrument Demo.description "A" (Arises.create Demo.connection)))).1

/-- C19: on a machine without any audio device type, where the initial
connection yields neither a current device type nor a device, and the list of
available types is empty, `autodetectDeviceSetup` on a newly constructed
engine dereferences `types[0]`, a null pointer; it does not end in an engine. -/
theorem autodetectDeviceSetup_without_device_types :
    (Demo.juce.initialise (create Demo.bareConnection).deviceManager.connection 0 2 true).1
      = Demo.bareConnection ∧
    getCurrentDeviceTypeObject Demo.bareConnection = none ∧
    Demo.bareConnection.currentAudioDevice = none ∧
    (Demo.juce.scanDevicesIfNeeded Demo.bareConnection).availableDeviceTypes = [] ∧
    autodetectDeviceSetup Demo.juce (create Demo.bareConnection) = none := by
  refine ⟨rfl, rfl, rfl, rfl, rfl⟩

/-- C20 fails as stated: the registry of the worked engine holds two
instruments, and `initDefaultInstrument` returns a registry of three. -/
theorem default_instrument_added_to_nonempty_registry :
    Demo.engine.instruments = [Demo.piano, Demo.organ] ∧
    ∃ r, initDefaultInstrument Demo.instrumentClass [Demo.description] Demo.engine = some r ∧
      r.instruments.length = 3 ∧ r.instruments ≠ Demo.engine.instruments := by
  refine ⟨rfl, _, rfl, rfl, ?_⟩
  intro h
  have := congrArg List.length h
  exact absurd this (by decide)

/-- C20, amended: whenever the built-in format yields a description of the
default synthesizer, `initDefaultInstrument` is the call
`addInstrument (description, "Default")` whether or not the registry is empty:
the registry afterwards is the old one followed by one instrument, constructed
with the name `Default` and initialised from that description. -/
theorem initDefaultInstrument_always_adds (C : InstrumentClass) (s : AudioCore)
    (descriptions : List PluginDescription)
    (desc : PluginDescription) (hdesc : descriptions.head? = some desc) :
    initDefaultInstrument C descriptions s = some (addInstrument C s desc "Default").2 ∧
    (addInstrument C s desc "Default").2.instruments =
      s.instruments ++
        [{ ptr := s.heapTop,
           body := C.initializeFrom (C.construct s.heapTop "Default") desc }] := by
  constructor
  · unfold initDefaultInstrument
    rw [hdesc]
  · rfl

/-- The amended C20 on the worked engine, whose registry is not empty. -/
theorem initDefaultInstrument_always_adds_witness :
    initDefaultInstrument Demo.instrumentClass [Demo.description] Demo.engine =
      some (addInstrument Demo.instrumentClass Demo.engine Demo.description "Default").2 ∧
    (addInstrument Demo.instrumentClass Demo.engine Demo.description "Default").2.instruments =
      Demo.engine.instruments ++
        [{ ptr := Demo.engine.heapTop,
           body := Demo.instrumentClass.initializeFrom
             (Demo.instrumentClass.construct Demo.engine.heapTop "Default") Demo.description }] :=
  initDefaultInstrument_always_adds Demo.instrumentClass Demo.engine [Demo.description]
    Demo.description rfl

/-- C21: for every document with a device node, `deserializeDeviceManager`
does what the logged body does, which applies an audio device setup exactly
once, the candidate setup built from the device node, and requests a
connection through `initialise` only as `initialise (0, 2, nullptr, false)`,
once, if and only if applying the candidate setup handed back an error text;
when applying succeeds there is no such request. -/
theorem restore_retries_iff_setup_failed (J : Juce) (K : SerializationKeys)
    (s : AudioCore) (tree : ValueTree)
    (hnode : ValueTree.isValid (deviceNode K tree) = true) :
    deserializeDeviceManager J K s tree =
      some (restoreDeviceManagerLogged J K s (deviceNode K tree)).1 ∧
    (restoreDeviceManagerLogged J K s (deviceNode K tree)).2.filter
        DeviceCall.isSetAudioDeviceSetup =
      [DeviceCall.setAudioDeviceSetup (savedDeviceSetup J K (deviceNode K tree)) true] ∧
    (restoreDeviceManagerLogged J K s (deviceNode K tree)).2.filter DeviceCall.isInitialise =
      (if setupError J K s (deviceNode K tree) ≠ "" then [DeviceCall.initialise 0 2 false]
        else []) ∧
    (DeviceCall.initialise 0 2 false ∈
        (restoreDeviceManagerLogged J K s (deviceNode K tree)).2 ↔
      setupError J K s (deviceNode K tree) ≠ "") := by
  have hfilter : (restoreDeviceManagerLogged J K s (deviceNode K tree)).2.filter
      DeviceCall.isInitialise =
      (if setupError J K s (deviceNode K tree) ≠ "" then [DeviceCall.initialise 0 2 false]
        else []) := by
    rw [restoreDeviceManagerLogged_snd]
    simp only [List.filter_append, filter_isInitialise_map]
    split <;> simp [List.filter_cons, DeviceCall.isInitialise]
  refine ⟨?_, ?_, hfilter, ?_⟩
  · rw [restoreDeviceManagerLogged_fst, deserializeDeviceManager_eq, hnode]; rfl
  · rw [restoreDeviceManagerLogged_snd]
    simp only [List.filter_append, filter_isSetAudioDeviceSetup_map]
    split <;> simp [List.filter_cons, DeviceCall.isSetAudioDeviceSetup]
  · have hmem : DeviceCall.initialise 0 2 false ∈
        (restoreDeviceManagerLogged J K s (deviceNode K tree)).2 ↔
        DeviceCall.initialise 0 2 false ∈
          (restoreDeviceManagerLogged J K s (deviceNode K tree)).2.filter
            DeviceCall.isInitialise := by
      rw [List.mem_filter]
      simp [DeviceCall.isInitialise]
    rw [hmem, hfilter]
    split <;> simp_all

/-- C21 on the worked engine: with a driver that refuses the setup the calls
of the restore include one `initialise (0, 2, nullptr, false)`, with the
driver that accepts it they include none. -/
theorem restore_retries_iff_setup_failed_witness :
    (restoreDeviceManagerLogged Demo.stubbornJuce Demo.keys Demo.engine
        (deviceNode Demo.keys (Demo.typeDocument "ALSA"))).2 =
      [DeviceCall.getAvailableDeviceTypes,
       DeviceCall.setCurrentAudioDeviceType "ALSA" true,
       DeviceCall.setAudioDeviceSetup
         (savedDeviceSetup Demo.stubbornJuce Demo.keys
           (deviceNode Demo.keys (Demo.typeDocument "ALSA"))) true,
       DeviceCall.getDevices,
       DeviceCall.initialise 0 2 false,
       DeviceCall.setDefaultMidiOutput ""] ∧
    (restoreDeviceManagerLogged Demo.juce Demo.keys Demo.engine
        (deviceNode Demo.keys (Demo.typeDocument "ALSA"))).2.filter DeviceCall.isInitialise =
      [] :=
  ⟨by decide,
   (restore_retries_iff_setup_failed Demo.juce Demo.keys Demo.engine
      (Demo.typeDocument "ALSA") (by decide)).2.2.1⟩

/-- C22: for every document that has an audio core node with a device node,
and for every document at all when a device type is available after the
initial connection, `deserialize` returns an engine with one instrument per
instrument node, and the broadcasts of its trace are those of before the call
followed by one "before remove" and one "after remove" broadcast per
instrument of the old registry, in order, and nothing else: no "instrument
added" broadcast is new. `addInstrument` from the same engine, in contrast,
ends with the "instrument added" broadcast of the new instrument. -/
theorem deserialize_broadcasts_removals_only (J : Juce) (K : SerializationKeys)
    (C : InstrumentClass)
    (s : AudioCore) (tree : ValueTree)
    (hdevice : (ValueTree.isValid (coreNode K tree) = true ∧
        ValueTree.isValid (deviceNode K (coreNode K tree)) = true) ∨
      (J.scanDevicesIfNeeded
        (J.initialise s.deviceManager.connection 0 2 true).1).availableDeviceTypes ≠ []) :
    (∃ r, deserialize J K C s tree = some r ∧
      r.instruments.length = (instrumentNodes K tree).length ∧
      r.notifications = s.notifications ++ s.instruments.flatMap
        (fun i => [Event.instrumentRemoved i.ptr, Event.instrumentRemovedPostAction]) ∧
      ∀ p, Event.instrumentAdded p ∈ r.notifications →
        Event.instrumentAdded p ∈ s.notifications) ∧
    ∀ pluginDescription name,
      (addInstrument C s pluginDescription name).2.notifications =
        s.notifications ++ [Event.instrumentAdded s.heapTop] := by
  constructor
  · obtain ⟨r, hr⟩ := deserialize_returns J K C s tree hdevice
    obtain ⟨h1, h2⟩ := deserialize_spec J K C s r tree hr
    obtain ⟨-, g2, -⟩ := reset_spec s.instruments s rfl
    have hn : r.notifications = s.notifications ++ s.instruments.flatMap
        (fun i => [Event.instrumentRemoved i.ptr, Event.instrumentRemovedPostAction]) := by
      rw [g2, List.append_assoc] at h2
      rw [notifications_eq_of_events s r _ h2, List.filter_append, filter_isBroadcast_removals,
        filter_isBroadcast_restores, List.append_nil]
    refine ⟨r, hr, ?_, hn, ?_⟩
    · rw [h1, length_restoredInstruments]
    · intro p hp
      rw [hn, List.mem_append] at hp
      rcases hp with hp | hp
      · exact hp
      · simp only [List.mem_flatMap, List.mem_cons, List.mem_singleton, List.not_mem_nil,
          or_false] at hp
        obtain ⟨i, -, h | h⟩ := hp <;> cases h
  · intro d n
    rw [notifications_eq_of_events s _ _ (addInstrument_events C s d n)]
    simp [Event.isBroadcast, List.filter_cons]

/-- C22 on the worked engine and a document with two instrument nodes: two
instruments are restored and the only broadcasts are the two removal pairs. -/
theorem deserialize_broadcasts_removals_only_witness :
    ∃ r, deserialize Demo.juce Demo.keys Demo.instrumentClass Demo.engine
        Demo.duplicateDocument = some r ∧
      r.instruments.length = 2 ∧
      r.notifications =
        [Event.instrumentRemoved 1, Event.instrumentRemovedPostAction,
         Event.instrumentRemoved 2, Event.instrumentRemovedPostAction] := by
  obtain ⟨r, hr, hlen, hn, -⟩ :=
    (deserialize_broadcasts_removals_only Demo.juce Demo.keys Demo.instrumentClass Demo.engine
      Demo.duplicateDocument
      (Or.inl ⟨by decide, by decide⟩)).1
  exact ⟨r, hr, hlen, hn⟩

end AudioCore

namespace UserInterfaceSettings

/-- C23: with two system fonts the menu offers the commands `SelectFont` and
`SelectFont + 1`; `handleCommandMessage` also takes `SelectFont + 2` as a font
selection, with the font index 2, which is not below the number of fonts, and
hands the default-constructed font that `systemFonts[2]` yields to the theme.
Before the menu was ever built `systemFonts` is empty and `SelectFont` itself
is taken with the index 0. -/
theorem font_command_past_the_menu_accepted :
    (fontsMenuProvider Demo.selectFont "Arial" Demo.systemFonts).1 = Demo.systemFonts ∧
    (fontsMenuProvider Demo.selectFont "Arial" Demo.systemFonts).2 =
      [{ iconId := Icons.apply, commandId := 4096, text := "Arial" },
       { iconId := Icons.empty, commandId := 4097, text := "Courier" }] ∧
    handleCommandMessage Demo.selectFont Demo.systemFonts 4098 = some (2, Font.default) ∧
    ¬((2 : Int) < Demo.systemFonts.length) ∧
    handleCommandMessage Demo.selectFont [] 4096 = some (0, Font.default) := by
  decide

end UserInterfaceSettings

namespace AutomationEditorBase

/-- C24 fails as stated: two different components at the same absolute beat
have the ids 0 and -2147483648; the difference of the ids wraps around in both
directions, and `compareElements` is negative whichever of the two comes
first, so its sign is not negated when the arguments are swapped. -/
theorem compareElements_negative_both_ways :
    compareElements Demo.floatOps Demo.firstComponent Demo.farComponent = -2147483648 ∧
    compareElements Demo.floatOps Demo.farComponent Demo.firstComponent = -2147483648 ∧
    Int.sign (compareElements Demo.floatOps Demo.firstComponent Demo.farComponent) ≠
      -Int.sign (compareElements Demo.floatOps Demo.farComponent Demo.firstComponent) := by
  have h1 : compareElements Demo.floatOps Demo.firstComponent Demo.farComponent =
      -2147483648 := by
    rw [compareElements_of_eq Demo.floatOps signOfDifference_floatOps Demo.firstComponent
      Demo.farComponent (by decide) rfl]
    decide
  have h2 : compareElements Demo.floatOps Demo.farComponent Demo.firstComponent =
      -2147483648 := by
    rw [compareElements_of_eq Demo.floatOps signOfDifference_floatOps Demo.farComponent
      Demo.firstComponent (by decide) rfl]
    decide
  refine ⟨h1, h2, ?_⟩
  rw [h1, h2]
  decide

/-- C24, amended: when the sign of a `float` difference tells which number is
the greater one, for all event components `a` and `b` with `int` ids:
`compareElements (a, b)` is 0 exactly for the same component or for equal
absolute beat and equal id; for different components the one at the smaller
absolute beat comes first, in either argument order, and at equal absolute
beat the result is the difference of the ids as an `int`, wrapped around; and
when that difference does not overflow in either direction, the sign of
`compareElements (a, b)` is the negation of the sign of
`compareElements (b, a)` and ties are ordered by id. -/
theorem compareElements_consistent_without_overflow {F : Type} [LinearOrder F]
    (ops : FloatOps F) (hops : SignOfDifference ops)
    (a b : EventComponentBase F) (ha : isInt32 a.eventId) (hb : isInt32 b.eventId) :
    (compareElements ops a b = 0 ↔
      a.ptr = b.ptr ∨ (a.absoluteBeat ops = b.absoluteBeat ops ∧ a.eventId = b.eventId)) ∧
    (a.ptr ≠ b.ptr → a.absoluteBeat ops < b.absoluteBeat ops →
      compareElements ops a b = -1 ∧ compareElements ops b a = 1) ∧
    (a.ptr ≠ b.ptr → a.absoluteBeat ops = b.absoluteBeat ops →
      compareElements ops a b = wrapInt32 (a.eventId - b.eventId)) ∧
    (isInt32 (a.eventId - b.eventId) → isInt32 (b.eventId - a.eventId) →
      Int.sign (compareElements ops a b) = -Int.sign (compareElements ops b a) ∧
      (a.ptr ≠ b.ptr → a.absoluteBeat ops = b.absoluteBeat ops →
        compareElements ops a b = a.eventId - b.eventId)) := by
  have hlt : ∀ x y : EventComponentBase F, x.ptr ≠ y.ptr →
      x.absoluteBeat ops < y.absoluteBeat ops →
      compareElements ops x y = -1 ∧ compareElements ops y x = 1 := fun x y hp h =>
    ⟨compareElements_of_lt ops hops x y hp h, compareElements_of_gt ops hops y x (Ne.symm hp) h⟩
  refine ⟨?_, hlt a b, compareElements_of_eq ops hops a b, ?_⟩
  · by_cases hptr : a.ptr = b.ptr
    · simp [compareElements, hptr]
    · rcases lt_trichotomy (a.absoluteBeat ops) (b.absoluteBeat ops) with h | h | h
      · rw [(hlt a b hptr h).1]
        simp [hptr, ne_of_lt h]
      · rw [compareElements_of_eq ops hops a b hptr h, wrapInt32_sub_eq_zero_iff _ _ ha hb]
        simp [hptr, h]
      · rw [(hlt b a (Ne.symm hptr) h).2]
        simp [hptr, ne_of_gt h]
  · intro hab hba
    constructor
    · by_cases hptr : a.ptr = b.ptr
      · simp [compareElements, hptr]
      · rcases lt_trichotomy (a.absoluteBeat ops) (b.absoluteBeat ops) with h | h | h
        · rw [(hlt a b hptr h).1, (hlt a b hptr h).2]
          decide
        · rw [compareElements_of_eq ops hops a b hptr h,
            compareElements_of_eq ops hops b a (Ne.symm hptr) h.symm,
            wrapInt32_of_isInt32 _ hab, wrapInt32_of_isInt32 _ hba,
            ← Int.sign_neg, Int.neg_sub]
        · rw [(hlt b a (Ne.symm hptr) h).1, (hlt b a (Ne.symm hptr) h).2]
          decide
    · intro hptr h
      rw [compareElements_of_eq ops hops a b hptr h, wrapInt32_of_isInt32 _ hab]

/-- The amended C24 on two components at the same beat with the ids 0 and 5. -/
theorem compareElements_consistent_without_overflow_witness :
    Int.sign (compareElements Demo.floatOps Demo.firstComponent Demo.nearComponent) =
      -Int.sign (compareElements Demo.floatOps Demo.nearComponent Demo.firstComponent) ∧
    compareElements Demo.floatOps Demo.firstComponent Demo.nearComponent = -5 :=
  ⟨((compareElements_consistent_without_overflow Demo.floatOps signOfDifference_floatOps
      Demo.firstComponent Demo.nearComponent
      (by decide) (by decide)).2.2.2 (by decide) (by decide)).1,
   ((compareElements_consistent_without_overflow Demo.floatOps signOfDifference_floatOps
      Demo.firstComponent Demo.nearComponent
      (by decide) (by decide)).2.2.2 (by decide) (by decide)).2 (by decide) rfl⟩

end AutomationEditorBase

namespace AutomationStepEventComponent

/-- C25 fails as stated: in a sorted sequence with events at the beats 0, 1/8
and 1/4 and a minimal length of a quarter beat, dragging the middle event to
where it is commits the beat 0 for it: less than the beat of the previous event
plus the minimal length, and right on the previous event. -/
theorem drag_moves_onto_previous_event :
    SortedByBeat Demo.pedalSequence ∧
    Demo.pedalSequence[1]? = some Demo.middleEvent ∧
    clampedBeat Demo.floatOps (1 / 4) Demo.pedalSequence 1 (1 / 8) = some 0 ∧
    drag Demo.floatOps (1 / 4) Demo.pedalSequence 1 Demo.middleEvent (1 / 8) =
      some (DragOutcome.change Demo.middleEvent (Demo.middleEvent.withBeat 0)) ∧
    ¬(Demo.floatOps.add (0 : Rat) (1 / 4) ≤ 0) := by
  refine ⟨?_, rfl, clampedBeat_pedalSequence, ?_, ?_⟩
  · simp [SortedByBeat, Demo.pedalSequence, Demo.middleEvent]
    norm_num
  · unfold drag
    rw [clampedBeat_pedalSequence]
    simp [Demo.floatOps, Demo.middleEvent]
    norm_num [abs_of_nonneg]
  · simp [Demo.floatOps]

/-- C25, amended: for every sequence, every event in it at the index that
`indexOfSorted` returns and every target beat, `drag` settles on a beat that is
at most `next.beat - minLengthInBeats` when a next event exists, and at least
`previous.beat + minLengthInBeats` when a previous event exists and either
there is no next event or the two bounds leave room
(`previous.beat + minLengthInBeats <= next.beat - minLengthInBeats`); within
those bounds the event lands strictly between its neighbours whenever adding
and subtracting the minimal length changes a beat. The sequence is asked to
change the event, to that beat, exactly when the beat differs from the current
beat of the event by more than 0.01; otherwise nothing is changed. -/
theorem drag_clamps_between_neighbours {F : Type} [LinearOrder F] (ops : FloatOps F)
    (minLengthInBeats : F)
    (sequence : List (AutomationEvent F)) (i : Nat) (event : AutomationEvent F)
    (targetBeat : F) (hevent : sequence[i]? = some event) :
    ∃ newRoundBeat,
      clampedBeat ops minLengthInBeats sequence i targetBeat = some newRoundBeat ∧
      (∀ next, sequence[i + 1]? = some next →
        newRoundBeat ≤ ops.sub next.beat minLengthInBeats ∧
          (ops.sub next.beat minLengthInBeats < next.beat → newRoundBeat < next.beat)) ∧
      (∀ previous, 0 < i → sequence[i - 1]? = some previous →
        (∀ next, sequence[i + 1]? = some next →
          ops.add previous.beat minLengthInBeats ≤ ops.sub next.beat minLengthInBeats) →
        ops.add previous.beat minLengthInBeats ≤ newRoundBeat ∧
          (previous.beat < ops.add previous.beat minLengthInBeats →
            previous.beat < newRoundBeat)) ∧
      drag ops minLengthInBeats sequence i event targetBeat =
        some (if ops.abs (ops.sub newRoundBeat event.beat) > ops.hundredth then
          DragOutcome.change event (event.withBeat newRoundBeat)
        else DragOutcome.keepInPlace) := by
  have hi : i < sequence.length := by
    by_contra hlen
    rw [List.getElem?_eq_none (not_lt.mp hlen)] at hevent
    exact absurd hevent (by simp)
  have hclamp := clampedBeat_eq ops minLengthInBeats sequence i targetBeat hi
  refine ⟨_, hclamp, ?_, ?_, ?_⟩
  · intro next hnext
    simp only [hnext]
    exact ⟨min_le_left _ _, fun h => lt_of_le_of_lt (min_le_left _ _) h⟩
  · intro previous hp hprev hroom
    simp only [hp, if_true, hprev]
    have hle : ops.add previous.beat minLengthInBeats ≤
        (match sequence[i + 1]? with
        | some next =>
          min (ops.sub next.beat minLengthInBeats)
            (max (ops.add previous.beat minLengthInBeats) targetBeat)
        | none => max (ops.add previous.beat minLengthInBeats) targetBeat) := by
      cases hnext : sequence[i + 1]? with
      | none => exact le_max_left _ _
      | some next => exact le_min (hroom next hnext) (le_max_left _ _)
    exact ⟨hle, fun h => lt_of_lt_of_le h hle⟩
  · unfold drag
    rw [hclamp]
    simp only
    split_ifs <;> rfl

/-- The amended C25 on a sequence with events at the beats 0, 4 and 8: the
middle event dragged to the beat 9 stays between a quarter beat after the
first and a quarter beat before the last. -/
theorem drag_clamps_between_neighbours_witness :
    ∃ newRoundBeat,
      clampedBeat Demo.floatOps (1 / 4) Demo.wideSequence 1 9 = some newRoundBeat ∧
      newRoundBeat ≤ 8 - 1 / 4 ∧ 0 + 1 / 4 ≤ newRoundBeat := by
  obtain ⟨b, hb, hnext, hprev, -⟩ :=
    drag_clamps_between_neighbours Demo.floatOps (1 / 4) Demo.wideSequence 1
      { id := 2, beat := 4, controllerValue := 0 } 9 rfl
  refine ⟨b, hb, (hnext { id := 3, beat := 8, controllerValue := 1 } rfl).1, ?_⟩
  refine (hprev { id := 1, beat := 0, controllerValue := 1 } (by decide) rfl ?_).1
  intro next hnext
  have : next = { id := 3, beat := 8, controllerValue := 1 } := by
    have h : Demo.wideSequence[1 + 1]? = some { id := 3, beat := 8, controllerValue := 1 } := rfl
    rw [h] at hnext
    exact (Option.some.inj hnext).symm
  subst this
  show (0 : Rat) + 1 / 4 ≤ 8 - 1 / 4
  norm_num

end AutomationStepEventComponent

namespace SyncedConfigurationInfo

/-- C26: the four property names being pairwise different, for every
`SyncedConfigurationInfo` `x`, deserializing `x.serialize ()` into any info
`y` gives an info whose type, name, hash and update time in milliseconds are
those of `x`; and deserializing data that neither is nor contains a resource
node into `y` leaves `y` as it is. -/
theorem deserialize_serialize_restores_info (J : Juce) (K : ConfigurationKeys) (x y : Info)
    (hkeys : [K.type, K.name, K.hash, K.updatedAt].Nodup) :
    deserialize J K y (serialize K x) = x ∧
    ∀ data, ValueTree.isValid (resourceNode K data) = false → deserialize J K y data = y := by
  simp only [List.nodup_cons, List.mem_cons, List.mem_singleton, not_or, List.not_mem_nil,
    not_false_eq_true, List.nodup_nil, and_true] at hkeys
  obtain ⟨⟨h12, h13, h14⟩, ⟨h23, h24⟩, h34⟩ := hkeys
  constructor
  · have htype : ValueTree.hasType (serialize K x) K.resource = true := by
      simp [serialize, ValueTree.hasType_setProperty, ValueTree.hasType_create]
    have hvalid : ValueTree.isValid (serialize K x) = true := by
      simp [serialize, ValueTree.isValid_setProperty, ValueTree.isValid_create]
    unfold deserialize
    simp only [htype, if_true, hvalid, Bool.not_true, Bool.false_eq_true, if_false, reset]
    have g1 : ValueTree.getProperty (serialize K x) K.type = Var.string x.type := by
      simp [serialize, ValueTree.getProperty_setProperty, ValueTree.isValid_setProperty,
        ValueTree.isValid_create, Ne.symm h12, Ne.symm h13, Ne.symm h14]
    have g2 : ValueTree.getProperty (serialize K x) K.name = Var.string x.name := by
      simp [serialize, ValueTree.getProperty_setProperty, ValueTree.isValid_setProperty,
        ValueTree.isValid_create, Ne.symm h23, Ne.symm h24]
    have g3 : ValueTree.getProperty (serialize K x) K.hash = Var.string x.hash := by
      simp [serialize, ValueTree.getProperty_setProperty, ValueTree.isValid_setProperty,
        ValueTree.isValid_create, Ne.symm h34]
    have g4 : ValueTree.getProperty (serialize K x) K.updatedAt = Var.int x.updatedAt := by
      simp [serialize, ValueTree.getProperty_setProperty, ValueTree.isValid_setProperty,
        ValueTree.isValid_create]
    rw [g1, g2, g3, g4]
    rfl
  · intro data hdata
    have h : (!ValueTree.isValid (if ValueTree.hasType data K.resource then data
        else ValueTree.getChildWithName data K.resource)) = true := by
      have : ValueTree.isValid (if ValueTree.hasType data K.resource then data
        else ValueTree.getChildWithName data K.resource) = false := hdata
      rw [this]; rfl
    unfold deserialize
    simp only [h, if_true, reset]

/-- C26 on two worked infos. -/
theorem deserialize_serialize_restores_info_witness :
    deserialize Demo.juce Demo.configurationKeys Demo.arpeggiatorInfo
        (serialize Demo.configurationKeys Demo.schemeInfo) = Demo.schemeInfo ∧
    deserialize Demo.juce Demo.configurationKeys Demo.arpeggiatorInfo
        (ValueTree.create "settings") = Demo.arpeggiatorInfo :=
  ⟨(deserialize_serialize_restores_info Demo.juce Demo.configurationKeys Demo.schemeInfo
      Demo.arpeggiatorInfo (by decide)).1,
   (deserialize_serialize_restores_info Demo.juce Demo.configurationKeys Demo.schemeInfo
      Demo.arpeggiatorInfo (by decide)).2
      (ValueTree.create "settings") (by decide)⟩

/-- C27: for all infos `a` and `b` (the same address meaning the same
object), the sign of `compareElements (a, b)` is the negation of the sign of
`compareElements (b, a)`; `compareElements (a, b)` is 0 if and only if `a` and
`b` have the same type and the same name, which is if and only if `a.equals`
matches a resource with the type and the name of `b` as its type and id; and
for different objects the comparison of the type names decides unless they are
equal, in which case the comparison of the names does. -/
theorem compareElements_by_type_then_name (a b : InfoPtr)
    (hheap : a.ptr = b.ptr → a.info = b.info) :
    Int.sign (compareElements a b) = -Int.sign (compareElements b a) ∧
    (compareElements a b = 0 ↔ a.info.type = b.info.type ∧ a.info.name = b.info.name) ∧
    (compareElements a b = 0 ↔ equals a.info b.info.type b.info.name = true) ∧
    (a.ptr ≠ b.ptr → a.info.type ≠ b.info.type →
      compareElements a b = stringCompare a.info.type b.info.type) ∧
    (a.ptr ≠ b.ptr → a.info.type = b.info.type →
      compareElements a b = stringCompare a.info.name b.info.name) := by
  have hzero : compareElements a b = 0 ↔
      a.info.type = b.info.type ∧ a.info.name = b.info.name := by
    unfold compareElements compareElementsWith
    by_cases hptr : a.ptr = b.ptr
    · simp [hptr, hheap hptr]
    · simp only [hptr, if_false]
      by_cases ht : a.info.type = b.info.type
      · simp [ht, (stringCompare_eq_zero_iff _ _).mpr rfl, stringCompare_eq_zero_iff]
      · have hne : stringCompare a.info.type b.info.type ≠ 0 := fun h =>
          ht ((stringCompare_eq_zero_iff _ _).mp h)
        simp [hne, ht]
  refine ⟨?_, hzero, ?_, ?_, ?_⟩
  · unfold compareElements compareElementsWith
    by_cases hptr : a.ptr = b.ptr
    · simp [hptr]
    · have hptr2 : ¬b.ptr = a.ptr := fun h => hptr h.symm
      simp only [hptr, hptr2, if_false]
      by_cases ht : a.info.type = b.info.type
      · have h0 : stringCompare a.info.type b.info.type = 0 :=
          (stringCompare_eq_zero_iff _ _).mpr ht
        have h1 : stringCompare b.info.type a.info.type = 0 :=
          (stringCompare_eq_zero_iff _ _).mpr ht.symm
        simp only [h0, h1, if_true]
        rw [stringCompare_swap a.info.name b.info.name, Int.sign_neg, neg_neg]
      · have h0 : stringCompare a.info.type b.info.type ≠ 0 := fun h =>
          ht ((stringCompare_eq_zero_iff _ _).mp h)
        have h1 : stringCompare b.info.type a.info.type ≠ 0 := fun h =>
          ht ((stringCompare_eq_zero_iff _ _).mp h).symm
        simp only [h0, h1, if_false]
        rw [stringCompare_swap a.info.type b.info.type, Int.sign_neg, neg_neg]
  · rw [hzero]
    simp [equals]
  · intro hptr ht
    have h0 : stringCompare a.info.type b.info.type ≠ 0 := fun h =>
      ht ((stringCompare_eq_zero_iff _ _).mp h)
    simp [compareElements, compareElementsWith, hptr, h0]
  · intro hptr ht
    have h0 : stringCompare a.info.type b.info.type = 0 :=
      (stringCompare_eq_zero_iff _ _).mpr ht
    simp [compareElements, compareElementsWith, hptr, h0]

/-- C27 on two worked infos of different types. -/
theorem compareElements_by_type_then_name_witness :
    Int.sign (compareElements ⟨1, Demo.schemeInfo⟩ ⟨2, Demo.arpeggiatorInfo⟩) =
      -Int.sign (compareElements ⟨2, Demo.arpeggiatorInfo⟩ ⟨1, Demo.schemeInfo⟩) ∧
    compareElements ⟨1, Demo.schemeInfo⟩ ⟨2, Demo.arpeggiatorInfo⟩ = 1 :=
  ⟨(compareElements_by_type_then_name ⟨1, Demo.schemeInfo⟩ ⟨2, Demo.arpeggiatorInfo⟩
      (by decide)).1,
   by decide⟩

end SyncedConfigurationInfo

end Helio
